import Mathlib

/-!
Portfolio data-access layer: retrying transport client and validation gate.

A shallow embedding of `src/api.js` (`PortfolioAPI` and the submission handlers of
`EnhancedPortfolioManager`).  JavaScript values are the inductive `JsVal`; an `async`
method becomes a function that threads the chronological list of observable events
(transport calls, body decodes, log lines, waits, notifications) and returns the value
it resolves with, or the error it rejects with, as an `Except JsError`.
-/

namespace HB

/-! ## JavaScript values -/

/-- JavaScript values as far as the data layer handles them.  Numbers are integers. -/
inductive JsVal where
  | undefined
  | null
  | bool (b : Bool)
  | num (n : Int)
  | str (s : String)
  | arr (xs : List JsVal)
  | obj (fields : List (String × JsVal))
  deriving Repr

/-- A thrown `Error`; only its `message` is observed by the code. -/
structure JsError where
  message : String
  deriving DecidableEq, Repr

/-- JavaScript truthiness (`!x` is its negation). -/
def JsVal.truthy : JsVal → Bool
  | .undefined => false
  | .null => false
  | .bool b => b
  | .num n => n != 0
  | .str s => s != ""
  | .arr _ => true
  | .obj _ => true

/-- Own-property lookup in a property list: the first entry with the key. -/
def lookupField : List (String × JsVal) → String → JsVal
  | [], _ => .undefined
  | (k, v) :: rest, field => if k = field then v else lookupField rest field

/-- Reading `o[field]` for a data property name on an object value; a value that is not
an object has none of the data properties the code reads. -/
def JsVal.get : JsVal → String → JsVal
  | .obj fields, field => lookupField fields field
  | _, _ => .undefined

/-- An object value given by its own properties. -/
abbrev JsObj := List (String × JsVal)

mutual
/-- String conversion of a value (`String(v)`), as applied by `RegExp.prototype.test` to
its argument.  Integers print in decimal, which is what JavaScript prints for an integer
below `10^21` in magnitude; from there on JavaScript prints an exponent form, which is
outside the model. -/
def JsVal.toJsString : JsVal → String
  | .undefined => "undefined"
  | .null => "null"
  | .bool b => if b then "true" else "false"
  | .num n => toString n
  | .str s => s
  | .arr xs => String.intercalate "," (elementStrings xs)
  | .obj _ => "[object Object]"
/-- The strings that `Array.prototype.join` puts together: `undefined` and `null`
elements give the empty string. -/
def elementStrings : List JsVal → List String
  | [] => []
  | .undefined :: rest => "" :: elementStrings rest
  | .null :: rest => "" :: elementStrings rest
  | x :: rest => x.toJsString :: elementStrings rest
end

/-! ## Transport -/

/-- The `options` argument of `fetch`; `body` is the value handed to `JSON.stringify`. -/
structure RequestOptions where
  method : Option String
  headers : Option (List (String × String))
  body : Option JsVal

/-- What the code reads of a `fetch` response: the `ok` flag, the `status`, and what
`response.json()` would produce if it were invoked. -/
structure Response where
  ok : Bool
  status : Nat
  json : Except JsError JsVal

/-- A `fetch` call either rejects with an error or resolves with a response. -/
abbrev FetchResult := Except JsError Response

/-- The transport: the outcome of the `n`-th `fetch` call (counting from 0) for a URL
and options. -/
abbrev Transport := Nat → String → RequestOptions → FetchResult

/-- Observable events, in chronological order in a trace. -/
inductive Event where
  | fetch (url : String) (options : RequestOptions)
  | json
  | requestFailed (attempt : Int) (error : JsError)
  | wait (ms : Nat)
  | consoleError (label : String) (error : JsError)
  | consoleLog (label : String)
  | notification (message : String) (type : String)
  | formReset
  | render (view : String) (data : JsVal)

/-- Whether an event is a transport call. -/
def Event.isFetch : Event → Bool
  | .fetch _ _ => true
  | _ => false

/-- Whether an event is a wait before a retry. -/
def Event.isWait : Event → Bool
  | .wait _ => true
  | _ => false

/-- Whether an event is an invocation of the body decoder. -/
def Event.isJson : Event → Bool
  | .json => true
  | _ => false

/-- Number of transport calls recorded in a trace. -/
def fetchCount (tr : List Event) : Nat := tr.countP Event.isFetch

/-- Number of waits recorded in a trace. -/
def waitCount (tr : List Event) : Nat := tr.countP Event.isWait

/-! ## PortfolioAPI -/

/-- The fields of a `PortfolioAPI` instance. -/
structure PortfolioAPI where
  baseURL : String
  retryCount : Int
  retryDelay : Nat

/-- Model of `constructor()`: base URL `/tables`, 3 attempts, 1000 ms between attempts. -/
def PortfolioAPI.constructor : PortfolioAPI :=
  { baseURL := "/tables", retryCount := 3, retryDelay := 1000 }

/-- Request options with nothing set (`options = {}`). -/
def noOptions : RequestOptions := { method := none, headers := none, body := none }

/-- Model of `defaultOptions` of `apiRequest`. -/
def defaultHeaders : List (String × String) := [("Content-Type", "application/json")]

/-- Model of `{ ...defaultOptions, ...options }`: the caller's `headers`, when given, replace the
default ones; `method` and `body` come from the caller only. -/
def mergeOptions (options : RequestOptions) : RequestOptions :=
  { method := options.method
    headers := some (options.headers.getD defaultHeaders)
    body := options.body }

/-- The part of the `try` block after `fetch` settled: the value returned or the error
thrown, and the events produced (a decode of the body, or nothing). -/
def handleResponse : FetchResult → Except JsError JsVal × List Event
  | .error e => (.error e, [])
  | .ok response =>
    if !response.ok then
      (.error ⟨"HTTP error! status: " ++ toString response.status⟩, [])
    else if response.status = 204 then
      (.ok .null, [])
    else
      (response.json, [.json])

/-- Outcome of one attempt: the value the `try` block returns or the error it throws. -/
def attemptOutcome (r : FetchResult) : Except JsError JsVal := (handleResponse r).1

/-- Events of one attempt made as transport call number `c`: the transport call, then
what handling the response produced. -/
def attemptEvents (net : Transport) (url : String) (merged : RequestOptions) (c : Nat) :
    List Event :=
  .fetch url merged :: (handleResponse (net c url merged)).2

/-- The `for` loop of `apiRequest`, from the loop test at `attempt` on.  `fuel` bounds
the number of iterations; `none` means the fuel ran out.  Falling out of the loop
resolves with `undefined`. -/
def apiRequestLoop (api : PortfolioAPI) (net : Transport) (url : String)
    (merged : RequestOptions) :
    Nat → Int → List Event → Option (Except JsError JsVal × List Event)
  | 0, _, _ => none
  | fuel + 1, attempt, tr =>
    if attempt ≤ api.retryCount then
      let tr1 := tr ++ attemptEvents net url merged (fetchCount tr)
      match attemptOutcome (net (fetchCount tr) url merged) with
      | .ok v => some (.ok v, tr1)
      | .error error =>
        let tr2 := tr1 ++ [.requestFailed attempt error]
        if attempt = api.retryCount then
          some (.error error, tr2)
        else
          apiRequestLoop api net url merged fuel (attempt + 1) (tr2 ++ [.wait api.retryDelay])
    else
      some (.ok .undefined, tr)

/-- Model of `apiRequest(url, options)` started after the events `tr`. -/
def apiRequest (api : PortfolioAPI) (net : Transport) (url : String)
    (options : RequestOptions) (tr : List Event) :
    Option (Except JsError JsVal × List Event) :=
  apiRequestLoop api net url (mergeOptions options) (api.retryCount.toNat + 1) 1 tr

/-! ## Repositories -/

/-- What the code uses of the browser around it: the transport, the clock
(milliseconds, as a function of the number of events so far) with the ISO formatting of
`Date.prototype.toISOString`, the serialisation done by `URLSearchParams`, the `value`
of the document element with a given id (`none` when there is no such element), and
whether rendering a view into the document throws. -/
structure Env where
  net : Transport
  clock : Nat → Nat
  toISOString : Nat → String
  urlSearchParams : List (String × String) → String
  dom : String → Option JsVal
  renderThrows : String → JsVal → Option JsError

/-- Model of `new Date().toISOString()` read after the events `tr`. -/
def Env.now (env : Env) (tr : List Event) : JsVal :=
  .str (env.toISOString (env.clock tr.length))

/-- Model of `{ ...o, [field]: v }`: an existing property keeps its place and takes the new value,
a new property is added last. -/
def setField : JsObj → String → JsVal → JsObj
  | [], field, v => [(field, v)]
  | (k, w) :: rest, field, v =>
    if k = field then (k, v) :: rest else (k, w) :: setField rest field v

/-- Reading `v.name` where `v` may be `null` or `undefined`, which throws. -/
def propOf (v : JsVal) (name : String) : Except JsError JsVal :=
  match v with
  | .undefined =>
    .error ⟨"Cannot read properties of undefined (reading \x27" ++ name ++ "\x27)"⟩
  | .null => .error ⟨"Cannot read properties of null (reading \x27" ++ name ++ "\x27)"⟩
  | _ => .ok (v.get name)

/-- Model of `v.length > 0`.  A `length` property of an object counts when it is a number or a
boolean; other kinds of `length` are outside the model and count as not positive. -/
def lengthPositive : JsVal → Bool
  | .arr xs => !xs.isEmpty
  | .str s => s != ""
  | .obj fields =>
    match lookupField fields "length" with
    | .num n => decide (0 < n)
    | .bool b => b
    | _ => false
  | _ => false

/-- Model of `v[0]`.  For a string this is its first character, which is what
JavaScript gives when that character lies in the basic plane. -/
def firstElement : JsVal → JsVal
  | .arr xs => xs.headD .undefined
  | .str s =>
    match s.toList with
    | [] => .undefined
    | c :: _ => .str (String.singleton c)
  | .obj fields => lookupField fields "0"
  | _ => .undefined

/-- Model of `getProjects(page, limit, search, sort)`. -/
def getProjects (api : PortfolioAPI) (env : Env) (page limit : Nat) (search sort : String)
    (tr : List Event) : Option (Except JsError JsVal × List Event) :=
  apiRequest api env.net
    (api.baseURL ++ "/projects?" ++ env.urlSearchParams
      [("page", toString page), ("limit", toString limit), ("search", search), ("sort", sort)])
    noOptions tr

/-- Model of `createProject(projectData)`. -/
def createProject (api : PortfolioAPI) (env : Env) (projectData : JsObj) (tr : List Event) :
    Option (Except JsError JsVal × List Event) :=
  apiRequest api env.net (api.baseURL ++ "/projects")
    { method := some "POST", headers := none,
      body := some (.obj (setField projectData "created_at" (env.now tr))) } tr

/-- Model of `response.data && response.data.length > 0 ? response.data[0] : null`. -/
def firstRecord (response : JsVal) : Except JsError JsVal :=
  match propOf response "data" with
  | .error e => .error e
  | .ok data =>
    if data.truthy && lengthPositive data then .ok (firstElement data) else .ok .null

/-- Model of `getProfile()`: any error is logged and turned into `null`. -/
def getProfile (api : PortfolioAPI) (env : Env) (tr : List Event) :
    Option (Except JsError JsVal × List Event) :=
  match apiRequest api env.net (api.baseURL ++ "/profile?limit=1") noOptions tr with
  | none => none
  | some (.error e, tr1) => some (.ok .null, tr1 ++ [.consoleError "Failed to get profile:" e])
  | some (.ok response, tr1) =>
    match firstRecord response with
    | .error e => some (.ok .null, tr1 ++ [.consoleError "Failed to get profile:" e])
    | .ok v => some (.ok v, tr1)

/-- Model of `updateProfile(profileData)`: update the existing profile, or create one. -/
def updateProfile (api : PortfolioAPI) (env : Env) (profileData : JsObj) (tr : List Event) :
    Option (Except JsError JsVal × List Event) :=
  match getProfile api env tr with
  | none => none
  | some (.error e, tr1) => some (.error e, tr1 ++ [.consoleError "Failed to update profile:" e])
  | some (.ok existingProfile, tr1) =>
    let request :=
      if existingProfile.truthy then
        apiRequest api env.net
          (api.baseURL ++ "/profile/" ++ (existingProfile.get "id").toJsString)
          { method := some "PUT", headers := none,
            body := some (.obj (setField profileData "updated_at" (env.now tr1))) } tr1
      else
        apiRequest api env.net (api.baseURL ++ "/profile")
          { method := some "POST", headers := none,
            body := some (.obj (setField profileData "updated_at" (env.now tr1))) } tr1
    match request with
    | none => none
    | some (.error e, tr2) =>
      some (.error e, tr2 ++ [.consoleError "Failed to update profile:" e])
    | some (.ok v, tr2) => some (.ok v, tr2)

/-- Model of `createContactMessage(messageData)`. -/
def createContactMessage (api : PortfolioAPI) (env : Env) (messageData : JsObj)
    (tr : List Event) : Option (Except JsError JsVal × List Event) :=
  apiRequest api env.net (api.baseURL ++ "/contact_messages")
    { method := some "POST", headers := none,
      body := some (.obj (setField (setField messageData "status" (.str "new"))
        "created_at" (env.now tr))) } tr

/-! ## Validation helpers -/

/-- Model of `Array.prototype.includes` on an array of strings: only a string equal to one of the
elements is included. -/
def includesString (xs : List String) : JsVal → Bool
  | .str s => xs.contains s
  | _ => false

/-- The character classes that the email pattern tells apart: white space (`\s`), `@`,
`.`, and everything else. -/
inductive CharKind where
  | space
  | at
  | dot
  | other
  deriving DecidableEq, Repr

/-- The characters matched by `\s`: white space and line terminators. -/
def isWhiteSpace (c : Char) : Bool :=
  c.toNat = 0x09 || c.toNat = 0x0A || c.toNat = 0x0B || c.toNat = 0x0C || c.toNat = 0x0D ||
  c.toNat = 0x20 || c.toNat = 0xA0 || c.toNat = 0x1680 ||
  (0x2000 ≤ c.toNat && c.toNat ≤ 0x200A) ||
  c.toNat = 0x2028 || c.toNat = 0x2029 || c.toNat = 0x202F || c.toNat = 0x205F ||
  c.toNat = 0x3000 || c.toNat = 0xFEFF

/-- The class of a character. -/
def classify (c : Char) : CharKind :=
  if isWhiteSpace c then .space else if c = '@' then .at else if c = '.' then .dot else .other

/-- Model of `r+`: one or more repetitions. -/
def oneOrMore (r : RegularExpression CharKind) : RegularExpression CharKind :=
  .comp r (.star r)

/-- Model of `[^\s@]`: any character that is neither white space nor `@`. -/
def notSpaceAt : RegularExpression CharKind := .plus (.char .dot) (.char .other)

/-- The pattern `^[^\s@]+@[^\s@]+\.[^\s@]+$`. -/
def emailPattern : RegularExpression CharKind :=
  .comp (oneOrMore notSpaceAt)
    (.comp (.char .at)
      (.comp (oneOrMore notSpaceAt)
        (.comp (.char .dot) (oneOrMore notSpaceAt))))

/-- Model of `/^[^\s@]+@[^\s@]+\.[^\s@]+$/.test(v)`: the whole string conversion of `v` must match. -/
def emailPatternTest (v : JsVal) : Bool :=
  emailPattern.rmatch (v.toJsString.toList.map classify)

/-- Model of `validateProject(project)`: returns `true` or throws. -/
def validateProject (project : JsObj) : Except JsError Bool :=
  let required := ["title", "category"]
  let missing := required.filter (fun field => !(lookupField project field).truthy)
  if missing.length > 0 then
    .error ⟨"Missing required fields: " ++ String.intercalate ", " missing⟩
  else
    let validCategories := ["video", "motion", "design", "thumbnail"]
    if !includesString validCategories (lookupField project "category") then
      .error ⟨"Invalid category. Must be one of: " ++ String.intercalate ", " validCategories⟩
    else
      .ok true

/-- Model of `validateProfile(profile)`: returns `true` or throws. -/
def validateProfile (profile : JsObj) : Except JsError Bool :=
  let required := ["name", "tagline"]
  let missing := required.filter (fun field => !(lookupField profile field).truthy)
  if missing.length > 0 then
    .error ⟨"Missing required fields: " ++ String.intercalate ", " missing⟩
  else if (lookupField profile "email").truthy
      && !emailPatternTest (lookupField profile "email") then
    .error ⟨"Invalid email format"⟩
  else
    .ok true

/-- Model of `validateContactMessage(message)`: returns `true` or throws. -/
def validateContactMessage (message : JsObj) : Except JsError Bool :=
  let required := ["name", "email", "message"]
  let missing := required.filter (fun field => !(lookupField message field).truthy)
  if missing.length > 0 then
    .error ⟨"Missing required fields: " ++ String.intercalate ", " missing⟩
  else if !emailPatternTest (lookupField message "email") then
    .error ⟨"Invalid email format"⟩
  else
    .ok true

/-! ## EnhancedPortfolioManager -/

/-- The state of an `EnhancedPortfolioManager`: its API client, its `loadingState`, and
the events so far. -/
structure Manager where
  api : PortfolioAPI
  loadingState : Bool
  trace : List Event

/-- Model of `setLoadingState(loading)`. -/
def setLoadingState (m : Manager) (loading : Bool) : Manager :=
  { m with loadingState := loading }

/-- Model of `showNotification(message, type)`. -/
def showNotification (m : Manager) (message type : String) : Manager :=
  { m with trace := m.trace ++ [.notification message type] }

/-- Model of `console.error(label, error)`. -/
def logError (m : Manager) (label : String) (error : JsError) : Manager :=
  { m with trace := m.trace ++ [.consoleError label error] }

/-- Model of `e.target.reset()`. -/
def resetForm (m : Manager) : Manager :=
  { m with trace := m.trace ++ [.formReset] }

/-- Model of `error.message || fallback`. -/
def messageOr (error : JsError) (fallback : String) : String :=
  if error.message != "" then error.message else fallback

/-- A rendering method (`renderPortfolioGrid`, `renderAdminProjectsList`,
`renderProfileData`) writing `data` into the document; it may throw. -/
def renderView (env : Env) (m : Manager) (view : String) (data : JsVal) :
    Except JsError Unit × Manager :=
  let m1 := { m with trace := m.trace ++ [.render view data] }
  match env.renderThrows view data with
  | none => (.ok (), m1)
  | some e => (.error e, m1)

/-- The `TypeError` of `super.loadPortfolioData()`: the class extends nothing, so the
property is `undefined` and the call throws. -/
def superLoadPortfolioDataError : JsError :=
  ⟨"(intermediate value).loadPortfolioData is not a function"⟩

/-- The `TypeError` of `super.loadProfileData()`. -/
def superLoadProfileDataError : JsError :=
  ⟨"(intermediate value).loadProfileData is not a function"⟩

/-- The `try` block of `loadPortfolioDataFromAPI`, after the request `r` has settled. -/
def portfolioLoaded (env : Env) (m : Manager) (r : Except JsError JsVal) :
    Except JsError Unit × Manager :=
  match r with
  | .error e => (.error e, m)
  | .ok response =>
    match propOf response "data" with
    | .error e => (.error e, m)
    | .ok data =>
      match renderView env m "portfolio-grid" (if data.truthy then data else .arr []) with
      | (.error e, m1) => (.error e, m1)
      | (.ok _, m1) => (.ok (), setLoadingState m1 false)

/-- Model of `loadPortfolioDataFromAPI()`.  In the `catch` block the call
`super.loadPortfolioData()` throws, so the method rejects and the
`setLoadingState(false)` after that call is not reached. -/
def loadPortfolioDataFromAPI (env : Env) (m : Manager) :
    Option (Except JsError Unit × Manager) :=
  match getProjects (setLoadingState m true).api env 1 100 "" "created_at"
      (setLoadingState m true).trace with
  | none => none
  | some (r, tr1) =>
    match portfolioLoaded env { setLoadingState m true with trace := tr1 } r with
    | (.ok _, m1) => some (.ok (), m1)
    | (.error error, m1) =>
      some (.error superLoadPortfolioDataError,
        showNotification (logError m1 "Failed to load portfolio data:" error)
          "Failed to load portfolio data. Using local data." "error")

/-- Model of `loadAdminProjects()`: any error is logged and dropped. -/
def loadAdminProjects (env : Env) (m : Manager) : Option Manager :=
  match getProjects m.api env 1 100 "" "created_at" m.trace with
  | none => none
  | some (.error e, tr1) => some (logError { m with trace := tr1 } "Failed to load admin projects:" e)
  | some (.ok response, tr1) =>
    match propOf response "data" with
    | .error e => some (logError { m with trace := tr1 } "Failed to load admin projects:" e)
    | .ok data =>
      match renderView env { m with trace := tr1 } "admin-projects-list"
          (if data.truthy then data else .arr []) with
      | (.error e, m1) => some (logError m1 "Failed to load admin projects:" e)
      | (.ok _, m1) => some m1

/-- Model of `loadProfileDataFromAPI()`.  In the `catch` block `super.loadProfileData()` throws. -/
def loadProfileDataFromAPI (env : Env) (m : Manager) :
    Option (Except JsError Unit × Manager) :=
  match getProfile m.api env m.trace with
  | none => none
  | some (.error e, tr1) =>
    some (.error superLoadProfileDataError,
      logError { m with trace := tr1 } "Failed to load profile data:" e)
  | some (.ok profile, tr1) =>
    if profile.truthy then
      match renderView env { m with trace := tr1 } "profile" profile with
      | (.error e, m1) =>
        some (.error superLoadProfileDataError, logError m1 "Failed to load profile data:" e)
      | (.ok _, m1) => some (.ok (), m1)
    else
      some (.ok (), { m with trace := tr1 ++ [.consoleLog "No profile found, using default data"] })

/-- Model of `document.getElementById(id).value`: throws when there is no such element. -/
def elementValue (env : Env) (id : String) : Except JsError JsVal :=
  match env.dom id with
  | none => .error ⟨"Cannot read properties of null (reading \x27value\x27)"⟩
  | some v => .ok v

/-- Model of `x || document.getElementById(id).value`. -/
def orElementValue (env : Env) (x : JsVal) (id : String) : Except JsError JsVal :=
  if x.truthy then .ok x else elementValue env id

/-- Model of `document.getElementById(id)?.value || fallback`. -/
def optionalValueOr (env : Env) (id : String) (fallback : String) : JsVal :=
  match env.dom id with
  | none => .str fallback
  | some v => if v.truthy then v else .str fallback

/-- Model of `s.split(',')` on the characters of `s`. -/
def splitOnComma : List Char → List (List Char)
  | [] => [[]]
  | c :: cs =>
    if c = ',' then [] :: splitOnComma cs
    else
      match splitOnComma cs with
      | [] => [[c]]
      | piece :: pieces => (c :: piece) :: pieces

/-- Model of `tag.trim()` on the characters of `tag`. -/
def trimChars (cs : List Char) : List Char :=
  ((cs.dropWhile isWhiteSpace).reverse.dropWhile isWhiteSpace).reverse

/-- Model of `value.split(',').map(tag => tag.trim()).filter(tag => tag)`. -/
def parseTags (value : String) : List String :=
  (((splitOnComma value.toList).map trimChars).filter (fun tag => !tag.isEmpty)).map String.mk

/-- The `project` object that `handleProjectSubmit` builds from the form data and the
document. -/
def projectFromForm (env : Env) (formData : String → JsVal) : Except JsError JsObj := do
  let title ← orElementValue env (formData "title") "project-title"
  let category ← orElementValue env (formData "category") "project-category"
  let description ← orElementValue env (formData "description") "project-description"
  let thumbnail ← orElementValue env (formData "thumbnail") "project-thumbnail"
  let video_url ← orElementValue env (formData "video") "project-video"
  let external_links ← orElementValue env (formData "links") "project-links"
  pure [("title", title), ("category", category), ("description", description),
    ("thumbnail", thumbnail), ("video_url", video_url), ("external_links", external_links),
    ("featured", .bool false), ("tags", .arr [])]

/-- The step "Process tags if provided": the project with its `tags` read from the element
`project-tags`, when that element exists and has a non-empty value. -/
def withTags (env : Env) (project : JsObj) : Except JsError JsObj :=
  match env.dom "project-tags" with
  | none => .ok project
  | some value =>
    if value.truthy then
      match value with
      | .str s => .ok (setField project "tags" (.arr ((parseTags s).map JsVal.str)))
      | _ => .error ⟨"tagsInput.value.split is not a function"⟩
    else .ok project

/-- The `try` block of `handleProjectSubmit`, after `setLoadingState(true)`. -/
def projectSubmitTry (env : Env) (formData : String → JsVal) (m : Manager) :
    Option (Except JsError Unit × Manager) :=
  match projectFromForm env formData with
  | .error e => some (.error e, m)
  | .ok project =>
    match validateProject project with
    | .error e => some (.error e, m)
    | .ok _ =>
      match withTags env project with
      | .error e => some (.error e, m)
      | .ok tagged =>
        match createProject m.api env tagged m.trace with
        | none => none
        | some (.error e, tr1) => some (.error e, { m with trace := tr1 })
        | some (.ok _, tr1) =>
          match loadPortfolioDataFromAPI env
              (resetForm (showNotification { m with trace := tr1 }
                "Project added successfully!" "success")) with
          | none => none
          | some (.error e, m1) => some (.error e, m1)
          | some (.ok _, m1) =>
            match loadAdminProjects env m1 with
            | none => none
            | some m2 => some (.ok (), m2)

/-- Model of `handleProjectSubmit(e)`, given the data of the submitted form. -/
def handleProjectSubmit (env : Env) (formData : String → JsVal) (m : Manager) :
    Option Manager :=
  match projectSubmitTry env formData (setLoadingState m true) with
  | none => none
  | some (.ok _, m1) => some (setLoadingState m1 false)
  | some (.error error, m1) =>
    some (setLoadingState
      (showNotification (logError m1 "Failed to add project:" error)
        (messageOr error "Failed to add project") "error") false)

/-- The `profileData` object that `handleProfileSubmit` builds from the document. -/
def profileFromDocument (env : Env) : Except JsError JsObj := do
  let name := optionalValueOr env "profile-name" "Harsh Bhardwaj"
  let tagline ← elementValue env "profile-tagline"
  let bio ← elementValue env "profile-description"
  let photo_url ← elementValue env "profile-photo"
  let email := optionalValueOr env "profile-email" "harsh.bhardwaj@example.com"
  let phone := optionalValueOr env "profile-phone" "+91 9876543210"
  let location := optionalValueOr env "profile-location" "Mumbai, India"
  let youtube_url ← elementValue env "social-youtube"
  let instagram_url ← elementValue env "social-instagram"
  let behance_url ← elementValue env "social-behance"
  let linkedin_url ← elementValue env "social-linkedin"
  pure [("name", name), ("tagline", tagline), ("bio", bio), ("photo_url", photo_url),
    ("email", email), ("phone", phone), ("location", location),
    ("youtube_url", youtube_url), ("instagram_url", instagram_url),
    ("behance_url", behance_url), ("linkedin_url", linkedin_url)]

/-- The `try` block of `handleProfileSubmit`, after `setLoadingState(true)`. -/
def profileSubmitTry (env : Env) (m : Manager) : Option (Except JsError Unit × Manager) :=
  match profileFromDocument env with
  | .error e => some (.error e, m)
  | .ok profileData =>
    match validateProfile profileData with
    | .error e => some (.error e, m)
    | .ok _ =>
      match updateProfile m.api env profileData m.trace with
      | none => none
      | some (.error e, tr1) => some (.error e, { m with trace := tr1 })
      | some (.ok _, tr1) =>
        loadProfileDataFromAPI env
          (showNotification { m with trace := tr1 } "Profile updated successfully!" "success")

/-- Model of `handleProfileSubmit(e)`. -/
def handleProfileSubmit (env : Env) (m : Manager) : Option Manager :=
  match profileSubmitTry env (setLoadingState m true) with
  | none => none
  | some (.ok _, m1) => some (setLoadingState m1 false)
  | some (.error error, m1) =>
    some (setLoadingState
      (showNotification (logError m1 "Failed to update profile:" error)
        (messageOr error "Failed to update profile") "error") false)

/-- The `messageData` object that `handleContactSubmit` builds from the form data. -/
def messageFromForm (formData : String → JsVal) : JsObj :=
  [("name", formData "name"), ("email", formData "email"), ("service", formData "service"),
    ("budget", formData "budget"), ("message", formData "message")]

/-- The `try` block of `handleContactSubmit`, after `setLoadingState(true)`. -/
def contactSubmitTry (env : Env) (formData : String → JsVal) (m : Manager) :
    Option (Except JsError Unit × Manager) :=
  match validateContactMessage (messageFromForm formData) with
  | .error e => some (.error e, m)
  | .ok _ =>
    match createContactMessage m.api env (messageFromForm formData) m.trace with
    | none => none
    | some (.error e, tr1) => some (.error e, { m with trace := tr1 })
    | some (.ok _, tr1) =>
      some (.ok (), resetForm (showNotification { m with trace := tr1 }
        "Message sent successfully! I\x27ll get back to you soon." "success"))

/-- Model of `handleContactSubmit(e)`, given the data of the submitted form. -/
def handleContactSubmit (env : Env) (formData : String → JsVal) (m : Manager) :
    Option Manager :=
  match contactSubmitTry env formData (setLoadingState m true) with
  | none => none
  | some (.ok _, m1) => some (setLoadingState m1 false)
  | some (.error error, m1) =>
    some (setLoadingState
      (showNotification (logError m1 "Failed to send message:" error)
        (messageOr error "Failed to send message. Please try again.") "error") false)

/-- Events of `j` consecutive failed attempts that are each retried, the first being
attempt `a0` made as transport call number `c0`, attempt `a0 + i` failing with
`errs i`: every one is followed by its log line and by one wait of `retryDelay`. -/
def retriedAttempts (api : PortfolioAPI) (net : Transport) (url : String)
    (merged : RequestOptions) (errs : Nat → JsError) (c0 : Nat) (a0 : Int) :
    Nat → List Event
  | 0 => []
  | j + 1 =>
    retriedAttempts api net url merged errs c0 a0 j ++
      (attemptEvents net url merged (c0 + j) ++
        [.requestFailed (a0 + j) (errs j), .wait api.retryDelay])

/-- A check on the events of one run: every log line of a failed attempt whose index is
below `n` is directly followed by a wait of `delay`, the log line of any other failed
attempt is not followed by a wait, and no wait occurs anywhere else. -/
def waitsExactlyAfterRetried (n : Int) (delay : Nat) : List Event → Bool
  | [] => true
  | .requestFailed a _ :: .wait ms :: rest =>
    decide (a < n) && decide (ms = delay) && waitsExactlyAfterRetried n delay rest
  | .requestFailed a _ :: rest => !decide (a < n) && waitsExactlyAfterRetried n delay rest
  | .wait _ :: _ => false
  | _ :: rest => waitsExactlyAfterRetried n delay rest

/-- The three kinds of failed attempt: the transport call itself rejects; the response's
success flag is false; the status is not 204 and decoding the body fails. -/
def attemptFails : FetchResult → Bool
  | .error _ => true
  | .ok response =>
    !response.ok ||
      (response.status != 204 &&
        match response.json with
        | .error _ => true
        | .ok _ => false)

/-- The error an attempt throws (the empty message stands for "none thrown"). -/
def thrownError : Except JsError JsVal → JsError
  | .error e => e
  | .ok _ => ⟨""⟩

/-- A transport whose first call is rejected by the network, whose second call gets an
HTTP 500 response, and whose later calls get a 200 response with body `"done"`. -/
def flakyTransport : Transport := fun n _ _ =>
  if n = 0 then .error ⟨"Failed to fetch"⟩
  else if n = 1 then .ok { ok := false, status := 500, json := .ok .null }
  else .ok { ok := true, status := 200, json := .ok (.str "done") }

/-- A transport whose `n`-th call is rejected with the message `down n`. -/
def deadTransport : Transport := fun n _ _ => .error ⟨"down " ++ toString n⟩

/-- A transport whose first call gets a 200 response with an undecodable body and whose
later calls get a 204 response (whose body would not decode either). -/
def noContentTransport : Transport := fun n _ _ =>
  if n = 0 then .ok { ok := true, status := 200, json := .error ⟨"Unexpected token"⟩ }
  else .ok { ok := true, status := 204, json := .error ⟨"Unexpected end of JSON input"⟩ }

/-- A transport whose first three calls fail in the three different ways (rejected by the
network, HTTP 503, a 200 whose body does not decode) and whose later calls succeed. -/
def threeKindsTransport : Transport := fun n _ _ =>
  if n = 0 then .error ⟨"Failed to fetch"⟩
  else if n = 1 then .ok { ok := false, status := 503, json := .ok .null }
  else if n = 2 then .ok { ok := true, status := 200, json := .error ⟨"Unexpected token"⟩ }
  else .ok { ok := true, status := 200, json := .ok (.num 1) }

/-- A document in which every element exists and has the empty value, behind a transport
that rejects every call. -/
def emptyFormEnv : Env :=
  { net := deadTransport
    clock := fun n => n
    toISOString := fun t => toString t
    urlSearchParams := fun _ => ""
    dom := fun _ => some (.str "")
    renderThrows := fun _ _ => none }

/-- A freshly constructed manager: default API client, not loading, no events yet. -/
def freshManager : Manager :=
  { api := PortfolioAPI.constructor, loadingState := false, trace := [] }

/-- Form data without any field: `formData.get` gives `null` for every name. -/
def emptyFormData : String → JsVal := fun _ => .null

/-! ## Further repository methods -/

/-- Model of `updateProject(id, projectData)`. -/
def updateProject (api : PortfolioAPI) (env : Env) (id : JsVal) (projectData : JsObj)
    (tr : List Event) : Option (Except JsError JsVal × List Event) :=
  apiRequest api env.net (api.baseURL ++ "/projects/" ++ id.toJsString)
    { method := some "PUT", headers := none,
      body := some (.obj (setField projectData "updated_at" (env.now tr))) } tr

/-- Strict equality `a === b` where at least one side is freshly decoded data: primitive
values are compared by value, and an array or object is identical to nothing else. -/
def strictEquals : JsVal → JsVal → Bool
  | .undefined, .undefined => true
  | .null, .null => true
  | .bool a, .bool b => a == b
  | .num a, .num b => a == b
  | .str a, .str b => a == b
  | _, _ => false

/-- Model of `xs.filter(keep)` for a callback that may throw. -/
def filterRecords (keep : JsVal → Except JsError Bool) :
    List JsVal → Except JsError (List JsVal)
  | [] => .ok []
  | x :: xs =>
    match keep x with
    | .error e => .error e
    | .ok b =>
      match filterRecords keep xs with
      | .error e => .error e
      | .ok ys => .ok (if b then x :: ys else ys)

/-- Model of `data ? data.filter(keep) : []`: only an array has a `filter` method. -/
def filterData (keep : JsVal → Except JsError Bool) (data : JsVal) : Except JsError JsVal :=
  if data.truthy then
    match data with
    | .arr xs =>
      match filterRecords keep xs with
      | .error e => .error e
      | .ok ys => .ok (.arr ys)
    | _ => .error ⟨"response.data.filter is not a function"⟩
  else
    .ok (.arr [])

/-- The callback `project => project.category === category`. -/
def hasCategory (category : JsVal) (project : JsVal) : Except JsError Bool :=
  match propOf project "category" with
  | .error e => .error e
  | .ok v => .ok (strictEquals v category)

/-- The callback `project => project.featured`, read as a truth value. -/
def isFeatured (project : JsVal) : Except JsError Bool :=
  match propOf project "featured" with
  | .error e => .error e
  | .ok v => .ok v.truthy

/-- Model of `getProjectsByCategory(category)`.  The search text is the string form of
`category`; a call without a category, for which the default empty `search` of
`getProjects` applies, is outside the model. -/
def getProjectsByCategory (api : PortfolioAPI) (env : Env) (category : JsVal)
    (tr : List Event) : Option (Except JsError JsVal × List Event) :=
  match getProjects api env 1 100 category.toJsString "created_at" tr with
  | none => none
  | some (.error e, tr1) => some (.error e, tr1)
  | some (.ok response, tr1) =>
    match propOf response "data" with
    | .error e => some (.error e, tr1)
    | .ok data => some (filterData (hasCategory category) data, tr1)

/-- Model of `getFeaturedProjects()`. -/
def getFeaturedProjects (api : PortfolioAPI) (env : Env) (tr : List Event) :
    Option (Except JsError JsVal × List Event) :=
  match getProjects api env 1 100 "" "created_at" tr with
  | none => none
  | some (.error e, tr1) => some (.error e, tr1)
  | some (.ok response, tr1) =>
    match propOf response "data" with
    | .error e => some (.error e, tr1)
    | .ok data => some (filterData isFeatured data, tr1)

/-! ## Sample stores -/

/-- A response with status 200 whose body decodes to `body`. -/
def okResponse (body : JsVal) : FetchResult :=
  .ok { ok := true, status := 200, json := .ok body }

/-- A profile store seen through its first calls: the first lookup finds no profile, the
create that follows is answered with the new record, the second lookup finds that
record, and later calls are answered with it too. -/
def profileStoreTransport : Transport := fun n _ _ =>
  if n = 0 then okResponse (.obj [("data", .arr [])])
  else if n = 1 then okResponse (.obj [("id", .str "p1"), ("name", .str "Harsh")])
  else if n = 2 then
    okResponse (.obj [("data", .arr [.obj [("id", .str "p1"), ("name", .str "Harsh")]])])
  else okResponse (.obj [("id", .str "p1"), ("name", .str "Harsh")])

/-- The environment of `emptyFormEnv` in front of `profileStoreTransport`. -/
def profileStoreEnv : Env := { emptyFormEnv with net := profileStoreTransport }

/-- A profile to submit. -/
def sampleProfile : JsObj := [("name", .str "Harsh"), ("tagline", .str "Editor")]

/-- The events after a first `updateProfile(sampleProfile)` against the profile store. -/
def firstUpdateTrace : List Event :=
  match updateProfile PortfolioAPI.constructor profileStoreEnv sampleProfile [] with
  | some (_, tr) => tr
  | none => []

/-- The URL and method of a transport call. -/
def requestLine : Event → Option (String × Option String)
  | .fetch url options => some (url, options.method)
  | _ => none

/-- Three project records: a featured video, a design, and a video that is not
featured. -/
def sampleRecords : List JsVal :=
  [.obj [("id", .str "1"), ("category", .str "video"), ("featured", .bool true)],
   .obj [("id", .str "2"), ("category", .str "design"), ("featured", .bool true)],
   .obj [("id", .str "3"), ("category", .str "video"), ("featured", .bool false)]]

/-- An environment whose transport answers every call with the page of `sampleRecords`. -/
def catalogEnv : Env :=
  { emptyFormEnv with net := fun _ _ _ => okResponse (.obj [("data", .arr sampleRecords)]) }

/-! ## Local store -/

/-- What the local-store managers use of the browser: `localStorage.getItem` (`none` for
`null`, a key without entry) and the decoder `JSON.parse`. -/
structure LocalEnv where
  getItem : String → Option String
  jsonParse : String → Except JsError JsVal

/-- Model of `getDefaultProjects()` of `SimplePortfolioManager`: four sample projects. -/
def SimplePortfolioManager.getDefaultProjects : JsVal :=
  .arr [
    .obj [
      ("id", .str "1"),
      ("title", .str "Brand Commercial Edit"),
      ("category", .str "video"),
      ("description", .str "Dynamic commercial video with motion graphics and color grading for a tech startup. Featured advanced compositing, sound design, and seamless transitions."),
      ("thumbnail", .str "https://images.unsplash.com/photo-1611162616475-46b635cb6868?w=500&h=300&fit=crop"),
      ("video_url", .str ""),
      ("external_links", .str "https://behance.net/project"),
      ("tags", .arr [.str "commercial", .str "motion-graphics", .str "color-grading"]),
      ("featured", .bool true),
      ("created_at", .str "2024-01-10T08:00:00Z")],
    .obj [
      ("id", .str "2"),
      ("title", .str "Logo Animation Package"),
      ("category", .str "motion"),
      ("description", .str "Sleek 3D logo animation with particle effects, smooth transitions, and multiple format deliverables for social media and web use."),
      ("thumbnail", .str "https://images.unsplash.com/photo-1611224923853-80b023f02d71?w=500&h=300&fit=crop"),
      ("video_url", .str ""),
      ("external_links", .str "https://dribbble.com/shots/project"),
      ("tags", .arr [.str "logo", .str "3d", .str "animation", .str "branding"]),
      ("featured", .bool true),
      ("created_at", .str "2024-01-12T14:30:00Z")],
    .obj [
      ("id", .str "3"),
      ("title", .str "YouTube Thumbnails Pack"),
      ("category", .str "thumbnail"),
      ("description", .str "Eye-catching thumbnail designs that increased CTR by 150% for gaming channel. Includes A/B testing variations and brand consistency guidelines."),
      ("thumbnail", .str "https://images.unsplash.com/photo-1611162617474-5b21e879e113?w=500&h=300&fit=crop"),
      ("video_url", .str ""),
      ("external_links", .str "https://instagram.com/post"),
      ("tags", .arr [.str "youtube", .str "gaming", .str "ctr-optimization"]),
      ("featured", .bool false),
      ("created_at", .str "2024-01-14T16:45:00Z")],
    .obj [
      ("id", .str "4"),
      ("title", .str "Restaurant Brand Identity"),
      ("category", .str "design"),
      ("description", .str "Complete brand identity package including logo design, menu layouts, social media templates, and packaging design for a modern restaurant chain."),
      ("thumbnail", .str "https://images.unsplash.com/photo-1565299624946-b28f40a0ca4b?w=500&h=300&fit=crop"),
      ("video_url", .str ""),
      ("external_links", .str "https://behance.net/restaurant-brand"),
      ("tags", .arr [.str "branding", .str "restaurant", .str "identity", .str "packaging"]),
      ("featured", .bool true),
      ("created_at", .str "2024-01-08T11:20:00Z")]]

/-- Model of `getDefaultProfile()` of `SimplePortfolioManager`. -/
def SimplePortfolioManager.getDefaultProfile : JsVal :=
  .obj [
    ("name", .str "Harsh Bhardwaj"),
    ("tagline", .str "Creative Video Editor & Graphic Designer"),
    ("bio", .str "A passionate Video Editor and Graphic Designer with over 5 years of experience creating compelling visual content. I specialize in bringing stories to life through dynamic video editing, eye-catching motion graphics, and stunning visual design."),
    ("photo_url", .str ""),
    ("email", .str "harsh.bhardwaj@example.com"),
    ("phone", .str "+91 9876543210"),
    ("location", .str "Mumbai, India"),
    ("youtube_url", .str ""),
    ("instagram_url", .str ""),
    ("behance_url", .str ""),
    ("linkedin_url", .str "")]

/-- Model of `getStoredProjects()` of `SimplePortfolioManager`:
`stored ? JSON.parse(stored) : this.getDefaultProjects()`. -/
def SimplePortfolioManager.getStoredProjects (L : LocalEnv) : Except JsError JsVal :=
  match L.getItem "portfolio_projects" with
  | some stored =>
    if stored != "" then L.jsonParse stored else .ok SimplePortfolioManager.getDefaultProjects
  | none => .ok SimplePortfolioManager.getDefaultProjects

/-- Model of `getStoredProfile()` of `SimplePortfolioManager`. -/
def SimplePortfolioManager.getStoredProfile (L : LocalEnv) : Except JsError JsVal :=
  match L.getItem "portfolio_profile" with
  | some stored =>
    if stored != "" then L.jsonParse stored else .ok SimplePortfolioManager.getDefaultProfile
  | none => .ok SimplePortfolioManager.getDefaultProfile

/-- Model of `getStoredMessages()` of `SimplePortfolioManager`. -/
def SimplePortfolioManager.getStoredMessages (L : LocalEnv) : Except JsError JsVal :=
  match L.getItem "portfolio_messages" with
  | some stored => if stored != "" then L.jsonParse stored else .ok (.arr [])
  | none => .ok (.arr [])

/-- The default profile of `PortfolioManager` (`main.js`). -/
def PortfolioManager.defaultProfile : JsVal :=
  .obj [
    ("photo", .str ""),
    ("tagline", .str "Creative Video Editor & Graphic Designer"),
    ("description", .str "Transforming ideas into stunning visual experiences through innovative video editing, motion graphics, and creative design solutions."),
    ("social", .obj [("youtube", .str ""), ("instagram", .str ""), ("behance", .str ""),
      ("linkedin", .str "")])]

/-- Model of `getStoredProjects()` of `PortfolioManager`: `stored ? JSON.parse(stored) : []`. -/
def PortfolioManager.getStoredProjects (L : LocalEnv) : Except JsError JsVal :=
  match L.getItem "portfolio_projects" with
  | some stored => if stored != "" then L.jsonParse stored else .ok (.arr [])
  | none => .ok (.arr [])

/-- Model of `getStoredProfile()` of `PortfolioManager`. -/
def PortfolioManager.getStoredProfile (L : LocalEnv) : Except JsError JsVal :=
  match L.getItem "portfolio_profile" with
  | some stored =>
    if stored != "" then L.jsonParse stored else .ok PortfolioManager.defaultProfile
  | none => .ok PortfolioManager.defaultProfile

/-- A decoder that knows the two texts `[]` and `{}` and rejects every other text, among
them `{oops`, which `JSON.parse` rejects as well. -/
def sampleJsonParse (text : String) : Except JsError JsVal :=
  if text = "[]" then .ok (.arr [])
  else if text = "\x7b\x7d" then .ok (.obj [])
  else .error ⟨"Unexpected token in JSON"⟩

/-- A local store in which every key holds the text `[]`. -/
def emptyListStore : LocalEnv :=
  { getItem := fun _ => some "[]", jsonParse := sampleJsonParse }

/-- A local store in which every key holds the empty string. -/
def emptyStringStore : LocalEnv :=
  { getItem := fun _ => some "", jsonParse := sampleJsonParse }

/-- A local store in which every key holds the text `{oops`, which is not JSON. -/
def corruptStore : LocalEnv :=
  { getItem := fun _ => some "\x7boops", jsonParse := sampleJsonParse }

/-- Whether an event is a rendering of a view. -/
def Event.isRender : Event → Bool
  | .render _ _ => true
  | _ => false

/-- The events of a profile lookup by a default client behind the transport that rejects
every call. -/
def deadLookupTrace : List Event :=
  match apiRequest PortfolioAPI.constructor deadTransport "/tables/profile?limit=1"
      noOptions [] with
  | some (_, tr) => tr
  | none => []

/-! ## Local-store managers -/

/-- What the local-store managers use of the browser besides the store itself: the
decoder `JSON.parse`, the encoder `JSON.stringify`, and whether rendering a view into
the document throws. -/
structure LocalBrowser where
  jsonParse : String → Except JsError JsVal
  jsonStringify : JsVal → String
  renderThrows : String → JsVal → Option JsError

/-- The state around a local-store manager: the content of `localStorage` and the events
so far (notifications, form resets, renderings). -/
structure LocalWorld where
  storage : String → Option String
  events : List Event

/-- The store as the getters read it. -/
def LocalBrowser.reader (B : LocalBrowser) (w : LocalWorld) : LocalEnv :=
  { getItem := w.storage, jsonParse := B.jsonParse }

/-- Model of `localStorage.setItem(key, text)`; the write is taken to succeed. -/
def LocalWorld.setItem (w : LocalWorld) (key text : String) : LocalWorld :=
  { w with storage := fun k => if k = key then some text else w.storage k }

/-- Model of `showNotification(message, type)` of the local-store managers. -/
def LocalWorld.showNotification (w : LocalWorld) (message type : String) : LocalWorld :=
  { w with events := w.events ++ [.notification message type] }

/-- Model of `e.target.reset()` in the local-store managers. -/
def LocalWorld.resetForm (w : LocalWorld) : LocalWorld :=
  { w with events := w.events ++ [.formReset] }

/-- A rendering method of a local-store manager writing `data` into the document; it may
throw. -/
def LocalWorld.renderView (B : LocalBrowser) (w : LocalWorld) (view : String)
    (data : JsVal) : Except JsError Unit × LocalWorld :=
  match B.renderThrows view data with
  | none => (.ok (), { w with events := w.events ++ [.render view data] })
  | some e => (.error e, { w with events := w.events ++ [.render view data] })

/-- Model of `loadPortfolioData()` of `SimplePortfolioManager`. -/
def SimplePortfolioManager.loadPortfolioData (B : LocalBrowser) (w : LocalWorld) :
    Except JsError Unit × LocalWorld :=
  match SimplePortfolioManager.getStoredProjects (B.reader w) with
  | .error e => (.error e, w)
  | .ok projects => w.renderView B "portfolio-grid" projects

/-- Model of `loadAdminProjects()` of `SimplePortfolioManager`. -/
def SimplePortfolioManager.loadAdminProjects (B : LocalBrowser) (w : LocalWorld) :
    Except JsError Unit × LocalWorld :=
  match SimplePortfolioManager.getStoredProjects (B.reader w) with
  | .error e => (.error e, w)
  | .ok projects => w.renderView B "admin-projects-list" projects

/-- Model of `loadPortfolioData()` of `PortfolioManager`, an `async` method that is
called without `await`: when it throws, the rejection is handled by nobody and the
caller goes on. -/
def PortfolioManager.loadPortfolioData (B : LocalBrowser) (w : LocalWorld) : LocalWorld :=
  match PortfolioManager.getStoredProjects (B.reader w) with
  | .error _ => w
  | .ok projects => (w.renderView B "portfolio-grid" projects).2

/-- Model of `loadAdminProjects()` of `PortfolioManager`. -/
def PortfolioManager.loadAdminProjects (B : LocalBrowser) (w : LocalWorld) :
    Except JsError Unit × LocalWorld :=
  match PortfolioManager.getStoredProjects (B.reader w) with
  | .error e => (.error e, w)
  | .ok projects => w.renderView B "admin-projects-list" projects

/-- The two calls `this.loadPortfolioData(); this.loadAdminProjects();` in
`SimplePortfolioManager`. -/
def SimplePortfolioManager.reloadViews (B : LocalBrowser) (w : LocalWorld) :
    Except JsError Unit × LocalWorld :=
  match SimplePortfolioManager.loadPortfolioData B w with
  | (.error e, w1) => (.error e, w1)
  | (.ok _, w1) => SimplePortfolioManager.loadAdminProjects B w1

/-- The two calls `this.loadPortfolioData(); this.loadAdminProjects();` in
`PortfolioManager`. -/
def PortfolioManager.reloadViews (B : LocalBrowser) (w : LocalWorld) :
    Except JsError Unit × LocalWorld :=
  PortfolioManager.loadAdminProjects B (PortfolioManager.loadPortfolioData B w)

/-- The `catch` block of a local operation: when the `try` block threw, the failure is
notified. -/
def caught (failure : String) (r : Except JsError Unit × LocalWorld) : LocalWorld :=
  match r with
  | (.ok _, w) => w
  | (.error _, w) => w.showNotification failure "error"

/-- The callback `p => p.id !== projectId`. -/
def keepOtherId (projectId : JsVal) (p : JsVal) : Except JsError Bool :=
  match propOf p "id" with
  | .error e => .error e
  | .ok v => .ok (!strictEquals v projectId)

/-- Model of `stored.filter(keep)` on a decoded value: only an array has `filter`. -/
def filterStored (keep : JsVal → Except JsError Bool) : JsVal → Except JsError (List JsVal)
  | .arr xs => filterRecords keep xs
  | _ => .error ⟨"this.getStoredProjects(...).filter is not a function"⟩

/-- The `try` block of the local `deleteProject`, up to and including the success
notification, given the decoded store content. -/
def deleteStored (B : LocalBrowser) (projectId : JsVal) (stored : JsVal) (w : LocalWorld) :
    Except JsError Unit × LocalWorld :=
  match filterStored (keepOtherId projectId) stored with
  | .error e => (.error e, w)
  | .ok projects =>
    (.ok (), (w.setItem "portfolio_projects" (B.jsonStringify (.arr projects))).showNotification
      "Project deleted successfully!" "success")

/-- The `try` block of `deleteProject` of `SimplePortfolioManager`. -/
def SimplePortfolioManager.deleteTry (B : LocalBrowser) (projectId : JsVal) (w : LocalWorld) :
    Except JsError Unit × LocalWorld :=
  match SimplePortfolioManager.getStoredProjects (B.reader w) with
  | .error e => (.error e, w)
  | .ok stored =>
    match deleteStored B projectId stored w with
    | (.error e, w1) => (.error e, w1)
    | (.ok _, w1) => SimplePortfolioManager.reloadViews B w1

/-- Model of `deleteProject(projectId)` of `SimplePortfolioManager`; `confirmed` is the
answer given to `confirm(...)`. -/
def SimplePortfolioManager.deleteProject (B : LocalBrowser) (confirmed : Bool)
    (projectId : JsVal) (w : LocalWorld) : LocalWorld :=
  if !confirmed then w
  else caught "Failed to delete project" (SimplePortfolioManager.deleteTry B projectId w)

/-- The `try` block of `deleteProject` of `PortfolioManager`. -/
def PortfolioManager.deleteTry (B : LocalBrowser) (projectId : JsVal) (w : LocalWorld) :
    Except JsError Unit × LocalWorld :=
  match PortfolioManager.getStoredProjects (B.reader w) with
  | .error e => (.error e, w)
  | .ok stored =>
    match deleteStored B projectId stored w with
    | (.error e, w1) => (.error e, w1)
    | (.ok _, w1) => PortfolioManager.reloadViews B w1

/-- Model of `deleteProject(projectId)` of `PortfolioManager`. -/
def PortfolioManager.deleteProject (B : LocalBrowser) (confirmed : Bool)
    (projectId : JsVal) (w : LocalWorld) : LocalWorld :=
  if !confirmed then w
  else caught "Failed to delete project" (PortfolioManager.deleteTry B projectId w)

/-- Model of `deleteProject(id)` of `PortfolioAPI`. -/
def PortfolioAPI.deleteProject (api : PortfolioAPI) (env : Env) (id : JsVal)
    (tr : List Event) : Option (Except JsError JsVal × List Event) :=
  apiRequest api env.net (api.baseURL ++ "/projects/" ++ id.toJsString)
    { method := some "DELETE", headers := none, body := none } tr

/-- The `try` block of `deleteProject` of `EnhancedPortfolioManager`, after
`setLoadingState(true)`. -/
def EnhancedPortfolioManager.deleteTry (env : Env) (projectId : JsVal) (m : Manager) :
    Option (Except JsError Unit × Manager) :=
  match m.api.deleteProject env projectId m.trace with
  | none => none
  | some (.error e, tr1) => some (.error e, { m with trace := tr1 })
  | some (.ok _, tr1) =>
    match loadPortfolioDataFromAPI env
        (showNotification { m with trace := tr1 } "Project deleted successfully!" "success") with
    | none => none
    | some (.error e, m1) => some (.error e, m1)
    | some (.ok _, m1) =>
      match loadAdminProjects env m1 with
      | none => none
      | some m2 => some (.ok (), m2)

/-- Model of `deleteProject(projectId)` of `EnhancedPortfolioManager`. -/
def EnhancedPortfolioManager.deleteProject (env : Env) (confirmed : Bool)
    (projectId : JsVal) (m : Manager) : Option Manager :=
  if !confirmed then some m
  else
    match EnhancedPortfolioManager.deleteTry env projectId (setLoadingState m true) with
    | none => none
    | some (.ok _, m1) => some (setLoadingState m1 false)
    | some (.error error, m1) =>
      some (setLoadingState
        (showNotification (logError m1 "Failed to delete project:" error)
          "Failed to delete project" "error") false)

/-- Model of `projects.find(p => p.id === projectId)`, as the index of the element
found. -/
def findIndexById (projectId : JsVal) : List JsVal → Except JsError (Option Nat)
  | [] => .ok none
  | p :: rest =>
    match propOf p "id" with
    | .error e => .error e
    | .ok v =>
      if strictEquals v projectId then .ok (some 0)
      else
        match findIndexById projectId rest with
        | .error e => .error e
        | .ok none => .ok none
        | .ok (some i) => .ok (some (i + 1))

/-- Model of `project.featured = featured` on a truthy `project`: an object takes the
property, an array takes it without any effect on its encoding, and on a primitive
value the assignment throws (class bodies are strict code). -/
def assignFeatured (project featured : JsVal) : Except JsError JsVal :=
  match project with
  | .obj fields => .ok (.obj (setField fields "featured" featured))
  | .arr xs => .ok (.arr xs)
  | _ => .error ⟨"Cannot create property \x27featured\x27 on a primitive value"⟩

/-- The body of `if (project) { ... }` in `toggleFeatured`, up to and including the
success notification: the element at index `i` of `projects` is `project`. -/
def featureStored (B : LocalBrowser) (featured : JsVal) (projects : List JsVal) (i : Nat)
    (project : JsVal) (w : LocalWorld) : Except JsError Unit × LocalWorld :=
  match assignFeatured project featured with
  | .error e => (.error e, w)
  | .ok changed =>
    (.ok (), (w.setItem "portfolio_projects"
        (B.jsonStringify (.arr (projects.set i changed)))).showNotification
      ("Project " ++ (if featured.truthy then "featured" else "unfeatured") ++ " successfully!")
      "success")

/-- The `try` block of `toggleFeatured` of `SimplePortfolioManager`. -/
def SimplePortfolioManager.toggleTry (B : LocalBrowser) (projectId featured : JsVal)
    (w : LocalWorld) : Except JsError Unit × LocalWorld :=
  match SimplePortfolioManager.getStoredProjects (B.reader w) with
  | .error e => (.error e, w)
  | .ok (.arr projects) =>
    match findIndexById projectId projects with
    | .error e => (.error e, w)
    | .ok none => (.ok (), w)
    | .ok (some i) =>
      if (projects.getD i .undefined).truthy then
        match featureStored B featured projects i (projects.getD i .undefined) w with
        | (.error e, w1) => (.error e, w1)
        | (.ok _, w1) => SimplePortfolioManager.reloadViews B w1
      else (.ok (), w)
  | .ok _ => (.error ⟨"projects.find is not a function"⟩, w)

/-- Model of `toggleFeatured(projectId, featured)` of `SimplePortfolioManager`. -/
def SimplePortfolioManager.toggleFeatured (B : LocalBrowser) (projectId featured : JsVal)
    (w : LocalWorld) : LocalWorld :=
  caught "Failed to update project" (SimplePortfolioManager.toggleTry B projectId featured w)

/-- Model of `document.getElementById(id).value` for a document given by the values of
its elements. -/
def domValue (dom : String → Option JsVal) (id : String) : Except JsError JsVal :=
  match dom id with
  | none => .error ⟨"Cannot read properties of null (reading \x27value\x27)"⟩
  | some v => .ok v

/-- Model of `x || document.getElementById(id).value`. -/
def orDomValue (dom : String → Option JsVal) (x : JsVal) (id : String) :
    Except JsError JsVal :=
  if x.truthy then .ok x else domValue dom id

/-- Model of
`document.getElementById('project-tags')?.value.split(',').map(t => t.trim()).filter(t => t) || []`. -/
def tagsFromDocument (dom : String → Option JsVal) : Except JsError JsVal :=
  match dom "project-tags" with
  | none => .ok (.arr [])
  | some (.str s) => .ok (.arr ((parseTags s).map JsVal.str))
  | some _ => .error ⟨"Cannot read properties of undefined (reading \x27split\x27)"⟩

/-- The `project` object that `handleProjectSubmit` of `SimplePortfolioManager` builds;
`now` is the reading of `Date.now()` and `createdAt` the text of
`new Date().toISOString()`. -/
def SimplePortfolioManager.projectFromDocument (dom : String → Option JsVal) (now : Nat)
    (createdAt : String) : Except JsError JsObj := do
  let title ← domValue dom "project-title"
  let category ← domValue dom "project-category"
  let description ← domValue dom "project-description"
  let thumbnail ← domValue dom "project-thumbnail"
  let video_url ← domValue dom "project-video"
  let external_links ← domValue dom "project-links"
  let tags ← tagsFromDocument dom
  pure [("id", .str (toString now)), ("title", title), ("category", category),
    ("description", description), ("thumbnail", thumbnail), ("video_url", video_url),
    ("external_links", external_links), ("tags", tags), ("featured", .bool false),
    ("created_at", .str createdAt)]

/-- The `project` object that `handleProjectSubmit` of `PortfolioManager` builds. -/
def PortfolioManager.projectFromForm (dom : String → Option JsVal)
    (formData : String → JsVal) (now : Nat) (createdAt : String) :
    Except JsError JsObj := do
  let title ← orDomValue dom (formData "title") "project-title"
  let category ← orDomValue dom (formData "category") "project-category"
  let description ← orDomValue dom (formData "description") "project-description"
  let thumbnail ← orDomValue dom (formData "thumbnail") "project-thumbnail"
  let video ← orDomValue dom (formData "video") "project-video"
  let links ← orDomValue dom (formData "links") "project-links"
  pure [("id", .str (toString now)), ("title", title), ("category", category),
    ("description", description), ("thumbnail", thumbnail), ("video", video),
    ("links", links), ("createdAt", .str createdAt)]

/-- The check `!project.title || !project.category` of the local submission handlers. -/
def lacksRequired (project : JsObj) : Bool :=
  !(lookupField project "title").truthy || !(lookupField project "category").truthy

/-- Model of `projects.push(project)` on a decoded value, as the array afterwards: only
an array has `push`. -/
def pushStored (project : JsObj) : JsVal → Except JsError (List JsVal)
  | .arr xs => .ok (xs ++ [.obj project])
  | _ => .error ⟨"projects.push is not a function"⟩

/-- The write of a local submission, up to and including `localStorage.setItem`, given
the decoded store content. -/
def addStored (B : LocalBrowser) (project : JsObj) (stored : JsVal) (w : LocalWorld) :
    Except JsError Unit × LocalWorld :=
  match pushStored project stored with
  | .error e => (.error e, w)
  | .ok projects => (.ok (), w.setItem "portfolio_projects" (B.jsonStringify (.arr projects)))

/-- The `try` block of `handleProjectSubmit` of `SimplePortfolioManager`. -/
def SimplePortfolioManager.submitTry (B : LocalBrowser) (project : JsObj) (w : LocalWorld) :
    Except JsError Unit × LocalWorld :=
  match SimplePortfolioManager.getStoredProjects (B.reader w) with
  | .error e => (.error e, w)
  | .ok stored =>
    match addStored B project stored w with
    | (.error e, w1) => (.error e, w1)
    | (.ok _, w1) =>
      SimplePortfolioManager.reloadViews B
        (w1.showNotification "Project added successfully!" "success").resetForm

/-- Model of `handleProjectSubmit(e)` of `SimplePortfolioManager` for a document given by
`dom`.  An error thrown while the project is built is not caught by the handler. -/
def SimplePortfolioManager.handleProjectSubmit (B : LocalBrowser)
    (dom : String → Option JsVal) (now : Nat) (createdAt : String) (w : LocalWorld) :
    Except JsError LocalWorld :=
  match SimplePortfolioManager.projectFromDocument dom now createdAt with
  | .error e => .error e
  | .ok project =>
    if lacksRequired project then
      .ok (w.showNotification "Please fill in all required fields" "error")
    else
      .ok (caught "Failed to add project" (SimplePortfolioManager.submitTry B project w))

/-- Model of `addProject(project)` of `PortfolioManager`. -/
def PortfolioManager.addProject (B : LocalBrowser) (project : JsObj) (w : LocalWorld) :
    Except JsError Unit × LocalWorld :=
  match PortfolioManager.getStoredProjects (B.reader w) with
  | .error e => (.error e, w)
  | .ok stored => addStored B project stored w

/-- The `try` block of `handleProjectSubmit` of `PortfolioManager`. -/
def PortfolioManager.submitTry (B : LocalBrowser) (project : JsObj) (w : LocalWorld) :
    Except JsError Unit × LocalWorld :=
  match PortfolioManager.addProject B project w with
  | (.error e, w1) => (.error e, w1)
  | (.ok _, w1) =>
    PortfolioManager.reloadViews B
      (w1.showNotification "Project added successfully!" "success").resetForm

/-- Model of `handleProjectSubmit(e)` of `PortfolioManager`. -/
def PortfolioManager.handleProjectSubmit (B : LocalBrowser) (dom : String → Option JsVal)
    (formData : String → JsVal) (now : Nat) (createdAt : String) (w : LocalWorld) :
    Except JsError LocalWorld :=
  match PortfolioManager.projectFromForm dom formData now createdAt with
  | .error e => .error e
  | .ok project =>
    if lacksRequired project then
      .ok (w.showNotification "Please fill in all required fields" "error")
    else
      .ok (caught "Failed to add project" (PortfolioManager.submitTry B project w))

/-- The text `[{"id":"1"}]`. -/
def oneProjectText : String := "[\x7b\"id\":\"1\"\x7d]"

/-- A decoder that knows two texts: `[]` and `[{"id":"1"}]`; it rejects every other
text. -/
def tableJsonParse (text : String) : Except JsError JsVal :=
  if text = "[]" then .ok (.arr [])
  else if text = oneProjectText then .ok (.arr [.obj [("id", .str "1")]])
  else .error ⟨"Unexpected token in JSON"⟩

/-- An encoder that knows the same two values as `tableJsonParse`; any other value is
outside its table and is written as `null`. -/
def tableJsonStringify : JsVal → String
  | .arr [] => "[]"
  | .arr [.obj [("id", .str "1")]] => oneProjectText
  | _ => "null"

/-- A browser with the table decoder and encoder, in which rendering never throws. -/
def tableBrowser : LocalBrowser :=
  { jsonParse := tableJsonParse, jsonStringify := tableJsonStringify,
    renderThrows := fun _ _ => none }

/-- A local store that holds one project, with id `1`, and no events yet. -/
def oneProjectWorld : LocalWorld :=
  { storage := fun k => if k = "portfolio_projects" then some oneProjectText else none,
    events := [] }

/-! ## Sequences of local actions -/

/-- The two managers that keep the projects in the local store: `SimplePortfolioManager`
of portfolio.js and `PortfolioManager` of main.js. -/
inductive LocalManager
  | simple
  | main

/-- A user action on the admin page: a submission of the project form, given by the
document, the form data, the reading of `Date.now()` and the text of
`new Date().toISOString()` at that moment, or a click on a delete button, given by the
answer to `confirm` and the id passed to `deleteProject`. -/
inductive LocalAction
  | submit (dom : String → Option JsVal) (formData : String → JsVal) (now : Nat)
      (createdAt : String)
  | delete (confirmed : Bool) (projectId : JsVal)

/-- The method `getStoredProjects()` of the manager. -/
def LocalManager.getStoredProjects : LocalManager → LocalEnv → Except JsError JsVal
  | .simple, L => SimplePortfolioManager.getStoredProjects L
  | .main, L => PortfolioManager.getStoredProjects L

/-- The `project` object that `handleProjectSubmit` of the manager builds. -/
def LocalManager.buildProject : LocalManager → (String → Option JsVal) → (String → JsVal) →
    Nat → String → Except JsError JsObj
  | .simple, dom, _, now, createdAt =>
    SimplePortfolioManager.projectFromDocument dom now createdAt
  | .main, dom, formData, now, createdAt =>
    PortfolioManager.projectFromForm dom formData now createdAt

/-- The method `handleProjectSubmit(e)` of the manager. -/
def LocalManager.handleProjectSubmit : LocalManager → LocalBrowser →
    (String → Option JsVal) → (String → JsVal) → Nat → String → LocalWorld →
    Except JsError LocalWorld
  | .simple, B, dom, _, now, createdAt, w =>
    SimplePortfolioManager.handleProjectSubmit B dom now createdAt w
  | .main, B, dom, formData, now, createdAt, w =>
    PortfolioManager.handleProjectSubmit B dom formData now createdAt w

/-- The method `deleteProject(projectId)` of the manager. -/
def LocalManager.deleteProject : LocalManager → LocalBrowser → Bool → JsVal → LocalWorld →
    LocalWorld
  | .simple, B, confirmed, projectId, w =>
    SimplePortfolioManager.deleteProject B confirmed projectId w
  | .main, B, confirmed, projectId, w => PortfolioManager.deleteProject B confirmed projectId w

/-- The world after one action.  A submission handler that throws while it builds the
project has changed nothing by then. -/
def LocalManager.perform (M : LocalManager) (B : LocalBrowser) (a : LocalAction)
    (w : LocalWorld) : LocalWorld :=
  match a with
  | .submit dom formData now createdAt =>
    match M.handleProjectSubmit B dom formData now createdAt w with
    | .ok w1 => w1
    | .error _ => w
  | .delete confirmed projectId => M.deleteProject B confirmed projectId w

/-- The world after a sequence of actions, performed one after the other. -/
def LocalManager.performAll (M : LocalManager) (B : LocalBrowser) :
    List LocalAction → LocalWorld → LocalWorld
  | [], w => w
  | a :: rest, w => M.performAll B rest (M.perform B a w)

/-- The list of projects expected in the store after an action, in terms of the list
before it: an accepted submission appends its project, a confirmed deletion removes the
records with the given id, and every other action leaves the list as it is. -/
def LocalManager.listAfter (M : LocalManager) (a : LocalAction) (L : List JsVal) :
    List JsVal :=
  match a with
  | .submit dom formData now createdAt =>
    match M.buildProject dom formData now createdAt with
    | .ok project => if lacksRequired project then L else L ++ [.obj project]
    | .error _ => L
  | .delete confirmed projectId =>
    if confirmed then L.filter (fun p => !strictEquals (p.get "id") projectId) else L

/-- The list of projects expected in the store after a sequence of actions. -/
def LocalManager.listAfterAll (M : LocalManager) : List LocalAction → List JsVal → List JsVal
  | [], L => L
  | a :: rest, L => M.listAfterAll rest (M.listAfter a L)

/-- The readings of `Date.now()` of the submissions among the actions, in order. -/
def submissionReadings : List LocalAction → List Nat
  | [] => []
  | .submit _ _ now _ :: rest => now :: submissionReadings rest
  | .delete _ _ :: rest => submissionReadings rest

/-- The ids of the records are pairwise distinct under `===`. -/
def distinctIds (L : List JsVal) : Prop :=
  L.Pairwise (fun p q => strictEquals (p.get "id") (q.get "id") = false)

/-- The codec gives back the list `L` from the text it writes for it, and that text is
not empty. -/
def codecKeeps (B : LocalBrowser) (L : List JsVal) : Prop :=
  B.jsonStringify (.arr L) ≠ "" ∧ B.jsonParse (B.jsonStringify (.arr L)) = .ok (.arr L)

/-- The codec keeps every list that the actions lead to from `L`. -/
def codecKeepsAlong (M : LocalManager) (B : LocalBrowser) : List LocalAction → List JsVal → Prop
  | [], _ => True
  | a :: rest, L => codecKeeps B (M.listAfter a L) ∧ codecKeepsAlong M B rest (M.listAfter a L)

/-- The number that a list of decimal digit characters writes, continuing from `acc`. -/
def digitsValue (acc : Nat) (cs : List Char) : Nat :=
  cs.foldl (fun a c => a * 10 + (c.toNat - 48)) acc

/-! ## Sample data for the local submissions -/

mutual
/-- Structural comparison of two values, used to look a value up in a codec table. -/
def JsVal.same : JsVal → JsVal → Bool
  | .undefined, .undefined => true
  | .null, .null => true
  | .bool a, .bool b => a == b
  | .num a, .num b => a == b
  | .str a, .str b => a == b
  | .arr xs, .arr ys => sameElements xs ys
  | .obj fs, .obj gs => sameFields fs gs
  | _, _ => false
/-- Structural comparison of two lists of values. -/
def sameElements : List JsVal → List JsVal → Bool
  | [], [] => true
  | x :: xs, y :: ys => x.same y && sameElements xs ys
  | _, _ => false
/-- Structural comparison of two property lists. -/
def sameFields : List (String × JsVal) → List (String × JsVal) → Bool
  | [], [] => true
  | (k, x) :: xs, (l, y) :: ys => k == l && x.same y && sameFields xs ys
  | _, _ => false
end

/-- An encoder given by a table of values and their JSON texts; a value outside the
table is written as `null`. -/
def tableStringify (table : List (JsVal × String)) (v : JsVal) : String :=
  match table.find? (fun entry => entry.1.same v) with
  | some entry => entry.2
  | none => "null"

/-- A decoder given by the same table; it rejects a text outside the table. -/
def tableParse (table : List (JsVal × String)) (text : String) : Except JsError JsVal :=
  match table.find? (fun entry => entry.2 == text) with
  | some entry => .ok entry.1
  | none => .error ⟨"Unexpected token in JSON"⟩

/-- A document whose project form holds the title `Statue` and the category `sculpture`,
with every other field empty. -/
def sculptureDocument : String → Option JsVal := fun id =>
  if id = "project-title" then some (.str "Statue")
  else if id = "project-category" then some (.str "sculpture")
  else some (.str "")

/-- A document whose project form holds the title `Reel` and the category `video`, with
every other field empty. -/
def reelDocument : String → Option JsVal := fun id =>
  if id = "project-title" then some (.str "Reel")
  else if id = "project-category" then some (.str "video")
  else some (.str "")

/-- A local store without any entry and no events yet. -/
def emptyLocalWorld : LocalWorld := { storage := fun _ => none, events := [] }

/-- The project that `PortfolioManager` builds from `reelDocument` at the clock reading
`now`, created at `2024-05-01T10:00:00.000Z`. -/
def reelProject (now : Nat) : JsObj :=
  [("id", .str (toString now)), ("title", .str "Reel"), ("category", .str "video"),
    ("description", .str ""), ("thumbnail", .str ""), ("video", .str ""),
    ("links", .str ""), ("createdAt", .str "2024-05-01T10:00:00.000Z")]

/-- The JSON text of `reelProject`, for an id given as text. -/
def reelJson (id : String) : String :=
  "\x7b\"id\":\"" ++ id ++ "\",\"title\":\"Reel\",\"category\":\"video\",\"description\":\"\","
    ++ "\"thumbnail\":\"\",\"video\":\"\",\"links\":\"\","
    ++ "\"createdAt\":\"2024-05-01T10:00:00.000Z\"\x7d"

/-- The lists of reel projects that the sample runs lead to, with their JSON texts. -/
def reelTable : List (JsVal × String) :=
  [(.arr [], "[]"),
    (.arr [.obj (reelProject 5)], "[" ++ reelJson "5" ++ "]"),
    (.arr [.obj (reelProject 5), .obj (reelProject 5)],
      "[" ++ reelJson "5" ++ "," ++ reelJson "5" ++ "]"),
    (.arr [.obj (reelProject 5), .obj (reelProject 6)],
      "[" ++ reelJson "5" ++ "," ++ reelJson "6" ++ "]"),
    (.arr [.obj (reelProject 6)], "[" ++ reelJson "6" ++ "]")]

/-- A browser with the codec of `reelTable`, in which rendering never throws. -/
def reelBrowser : LocalBrowser :=
  { jsonParse := tableParse reelTable, jsonStringify := tableStringify reelTable,
    renderThrows := fun _ _ => none }

/-- A submission of `reelDocument` at the clock reading `now`. -/
def reelSubmission (now : Nat) : LocalAction :=
  .submit reelDocument emptyFormData now "2024-05-01T10:00:00.000Z"

/-- The text `[{"id":"1","featured":true}]`. -/
def featuredProjectText : String := "[\x7b\"id\":\"1\",\"featured\":true\x7d]"

/-- The two lists that featuring the one project with id `1` leads through, with their
JSON texts. -/
def toggleTable : List (JsVal × String) :=
  [(.arr [.obj [("id", .str "1")]], oneProjectText),
    (.arr [.obj [("id", .str "1"), ("featured", .bool true)]], featuredProjectText)]

/-- A browser with the codec of `toggleTable`, in which rendering never throws. -/
def toggleBrowser : LocalBrowser :=
  { jsonParse := tableParse toggleTable, jsonStringify := tableStringify toggleTable,
    renderThrows := fun _ _ => none }

/-- A document whose project form holds the title `Reel`, the category `video` and the
tags input ` a, b ,,c ,  `, with every other field empty. -/
def taggedDocument : String → Option JsVal := fun id =>
  if id = "project-title" then some (.str "Reel")
  else if id = "project-category" then some (.str "video")
  else if id = "project-tags" then some (.str " a, b ,,c ,  ")
  else some (.str "")

/-- The environment of `emptyFormEnv` with the document `taggedDocument`. -/
def taggedFormEnv : Env := { emptyFormEnv with dom := taggedDocument }

/-- A profile store whose answer to the first create cannot be decoded: the lookup
finds no profile, the first POST is answered with status 200 and a body that is not
JSON, and later calls are answered with the new record. -/
def flakyProfileTransport : Transport := fun n _ _ =>
  if n = 0 then okResponse (.obj [("data", .arr [])])
  else if n = 1 then
    .ok { ok := true, status := 200, json := .error ⟨"Unexpected end of JSON input"⟩ }
  else okResponse (.obj [("id", .str "p1"), ("name", .str "Harsh")])

/-- The environment of `emptyFormEnv` in front of `flakyProfileTransport`. -/
def flakyProfileEnv : Env := { emptyFormEnv with net := flakyProfileTransport }

/-- A profile store that is out of reach during the second lookup: the first lookup
finds no profile, the create is answered with the new record `p1`, the next three calls
are rejected, and later calls are answered with a record `p2`. -/
def lostLookupTransport : Transport := fun n _ _ =>
  if n = 0 then okResponse (.obj [("data", .arr [])])
  else if n = 1 then okResponse (.obj [("id", .str "p1"), ("name", .str "Harsh")])
  else if n < 5 then .error ⟨"Failed to fetch"⟩
  else okResponse (.obj [("id", .str "p2"), ("name", .str "Harsh")])

/-- The environment of `emptyFormEnv` in front of `lostLookupTransport`. -/
def lostLookupEnv : Env := { emptyFormEnv with net := lostLookupTransport }

/-! ## The address pattern, in words -/

/-- A character that `[^\s@]` matches: neither white space nor `@`. -/
def isPlainChar (c : Char) : Bool := !isWhiteSpace c && c != '@'

/-- The form of an address in the words of the specification: a local part, `@`, and a
domain, where the local part and the domain are each non-empty and the string contains
no white space. -/
def specAddressForm (s : String) : Prop :=
  ∃ localPart domain : List Char, s.toList = localPart ++ '@' :: domain
    ∧ localPart ≠ [] ∧ domain ≠ []
    ∧ ∀ ch ∈ s.toList, isWhiteSpace ch = false

/-! ## Lemmas on the retry loop -/

theorem fetchCount_append (xs ys : List Event) :
    fetchCount (xs ++ ys) = fetchCount xs + fetchCount ys := by
  simp [fetchCount]

theorem waitCount_append (xs ys : List Event) :
    waitCount (xs ++ ys) = waitCount xs + waitCount ys := by
  simp [waitCount]

theorem handleResponse_events (r : FetchResult) :
    (handleResponse r).2 = [] ∨ (handleResponse r).2 = [.json] := by
  unfold handleResponse
  split
  · simp
  · split
    · simp
    · split <;> simp

theorem fetchCount_attemptEvents (net : Transport) (url : String) (m : RequestOptions)
    (c : Nat) : fetchCount (attemptEvents net url m c) = 1 := by
  rcases handleResponse_events (net c url m) with h | h <;>
    simp [attemptEvents, h, fetchCount, Event.isFetch]

theorem waitCount_attemptEvents (net : Transport) (url : String) (m : RequestOptions)
    (c : Nat) : waitCount (attemptEvents net url m c) = 0 := by
  rcases handleResponse_events (net c url m) with h | h <;>
    simp [attemptEvents, h, waitCount, Event.isWait]

theorem fetchCount_retriedAttempts (api : PortfolioAPI) (net : Transport) (url : String)
    (m : RequestOptions) (errs : Nat → JsError) (c0 : Nat) (a0 : Int) (j : Nat) :
    fetchCount (retriedAttempts api net url m errs c0 a0 j) = j := by
  induction j with
  | zero => simp [retriedAttempts, fetchCount]
  | succ j ih =>
    simp only [retriedAttempts, fetchCount_append, ih, fetchCount_attemptEvents]
    simp [fetchCount, Event.isFetch]

theorem waitCount_retriedAttempts (api : PortfolioAPI) (net : Transport) (url : String)
    (m : RequestOptions) (errs : Nat → JsError) (c0 : Nat) (a0 : Int) (j : Nat) :
    waitCount (retriedAttempts api net url m errs c0 a0 j) = j := by
  induction j with
  | zero => simp [retriedAttempts, waitCount]
  | succ j ih =>
    simp only [retriedAttempts, waitCount_append, ih, waitCount_attemptEvents]
    simp [waitCount, Event.isWait]

/-- One iteration whose attempt succeeds returns its value at once. -/
theorem apiRequestLoop_success (api : PortfolioAPI) (net : Transport) (url : String)
    (m : RequestOptions) (fuel : Nat) (a : Int) (tr : List Event) (v : JsVal)
    (ha : a ≤ api.retryCount)
    (hv : attemptOutcome (net (fetchCount tr) url m) = .ok v) :
    apiRequestLoop api net url m (fuel + 1) a tr
      = some (.ok v, tr ++ attemptEvents net url m (fetchCount tr)) := by
  simp [apiRequestLoop, ha, hv]

/-- The iteration of the last attempt, when it fails, logs and rethrows. -/
theorem apiRequestLoop_last_failure (api : PortfolioAPI) (net : Transport) (url : String)
    (m : RequestOptions) (fuel : Nat) (tr : List Event) (e : JsError)
    (he : attemptOutcome (net (fetchCount tr) url m) = .error e) :
    apiRequestLoop api net url m (fuel + 1) api.retryCount tr
      = some (.error e, tr ++ (attemptEvents net url m (fetchCount tr)
          ++ [.requestFailed api.retryCount e])) := by
  simp [apiRequestLoop, he]

/-- An iteration below the last attempt, when it fails, logs, waits and goes on. -/
theorem apiRequestLoop_retry (api : PortfolioAPI) (net : Transport) (url : String)
    (m : RequestOptions) (fuel : Nat) (a : Int) (tr : List Event) (e : JsError)
    (ha : a < api.retryCount)
    (he : attemptOutcome (net (fetchCount tr) url m) = .error e) :
    apiRequestLoop api net url m (fuel + 1) a tr
      = apiRequestLoop api net url m fuel (a + 1)
          (tr ++ (attemptEvents net url m (fetchCount tr)
            ++ [.requestFailed a e, .wait api.retryDelay])) := by
  have h1 : a ≤ api.retryCount := le_of_lt ha
  have h2 : a ≠ api.retryCount := ne_of_lt ha
  simp [apiRequestLoop, h1, h2, he]

/-- Past the last attempt the loop is left and the call resolves with `undefined`. -/
theorem apiRequestLoop_exit (api : PortfolioAPI) (net : Transport) (url : String)
    (m : RequestOptions) (fuel : Nat) (a : Int) (tr : List Event)
    (ha : api.retryCount < a) :
    apiRequestLoop api net url m (fuel + 1) a tr = some (.ok .undefined, tr) := by
  have h1 : ¬ a ≤ api.retryCount := not_le.mpr ha
  simp [apiRequestLoop, h1]

/-- A row of `j` failed attempts, all below the last attempt, is retried throughout. -/
theorem apiRequestLoop_retries (api : PortfolioAPI) (net : Transport) (url : String)
    (m : RequestOptions) (errs : Nat → JsError) (a : Int) (tr : List Event) :
    ∀ (j fuel : Nat),
      (∀ i, i < j → attemptOutcome (net (fetchCount tr + i) url m) = .error (errs i)) →
      a + (j : Int) ≤ api.retryCount →
      apiRequestLoop api net url m (fuel + j) a tr
        = apiRequestLoop api net url m fuel (a + j)
            (tr ++ retriedAttempts api net url m errs (fetchCount tr) a j) := by
  intro j
  induction j with
  | zero => intro fuel _ _; simp [retriedAttempts]
  | succ j ih =>
    intro fuel hfail hle
    have hstep := ih (fuel + 1) (fun i hi => hfail i (Nat.lt_succ_of_lt hi)) (by push_cast at hle; omega)
    have hrw : fuel + (j + 1) = fuel + 1 + j := by omega
    rw [hrw, hstep]
    have hc : fetchCount (tr ++ retriedAttempts api net url m errs (fetchCount tr) a j)
        = fetchCount tr + j := by
      rw [fetchCount_append, fetchCount_retriedAttempts]
    have hlt : a + (j : Int) < api.retryCount := by push_cast at hle; omega
    have he := hfail j (Nat.lt_succ_self j)
    rw [apiRequestLoop_retry api net url m fuel (a + j) _ (errs j) hlt (by rw [hc]; exact he)]
    rw [hc]
    simp [retriedAttempts, List.append_assoc, add_assoc]

/-- A run whose first `j` attempts fail and whose next attempt succeeds: the value of
that attempt is returned and the events are exactly those of the `j + 1` attempts. -/
theorem apiRequest_success_trace (api : PortfolioAPI) (net : Transport) (url : String)
    (options : RequestOptions) (tr : List Event) (errs : Nat → JsError) (j : Nat)
    (v : JsVal) (hj : ((j + 1 : Nat) : Int) ≤ api.retryCount)
    (hfail : ∀ i, i < j →
      attemptOutcome (net (fetchCount tr + i) url (mergeOptions options)) = .error (errs i))
    (hv : attemptOutcome (net (fetchCount tr + j) url (mergeOptions options)) = .ok v) :
    apiRequest api net url options tr
      = some (.ok v, tr ++ (retriedAttempts api net url (mergeOptions options) errs
          (fetchCount tr) 1 j
          ++ attemptEvents net url (mergeOptions options) (fetchCount tr + j))) := by
  unfold apiRequest
  obtain ⟨f, hf⟩ : ∃ f, api.retryCount.toNat + 1 = (f + 1) + j := ⟨api.retryCount.toNat - j, by omega⟩
  rw [hf, apiRequestLoop_retries api net url _ errs 1 tr j (f + 1) hfail (by push_cast at hj; omega)]
  have hc : fetchCount (tr ++ retriedAttempts api net url (mergeOptions options) errs
      (fetchCount tr) 1 j) = fetchCount tr + j := by
    rw [fetchCount_append, fetchCount_retriedAttempts]
  rw [apiRequestLoop_success api net url _ f (1 + j) _ v (by push_cast at hj; omega)
    (by rw [hc]; exact hv), hc, List.append_assoc]

/-- A run with `retryCount = n + 1` whose attempts all fail: the error of the last attempt
is thrown after exactly `n + 1` attempts, of which the first `n` are retried. -/
theorem apiRequest_exhausted_trace (api : PortfolioAPI) (net : Transport) (url : String)
    (options : RequestOptions) (tr : List Event) (errs : Nat → JsError) (n : Nat)
    (hn : api.retryCount = ((n + 1 : Nat) : Int))
    (hfail : ∀ i, i < n + 1 →
      attemptOutcome (net (fetchCount tr + i) url (mergeOptions options)) = .error (errs i)) :
    apiRequest api net url options tr
      = some (.error (errs n), tr ++ (retriedAttempts api net url (mergeOptions options) errs
          (fetchCount tr) 1 n
          ++ (attemptEvents net url (mergeOptions options) (fetchCount tr + n)
            ++ [.requestFailed api.retryCount (errs n)]))) := by
  unfold apiRequest
  have hf : api.retryCount.toNat + 1 = (1 + 1) + n := by omega
  rw [hf, apiRequestLoop_retries api net url _ errs 1 tr n (1 + 1)
    (fun i hi => hfail i (Nat.lt_succ_of_lt hi)) (by omega)]
  have hc : fetchCount (tr ++ retriedAttempts api net url (mergeOptions options) errs
      (fetchCount tr) 1 n) = fetchCount tr + n := by
    rw [fetchCount_append, fetchCount_retriedAttempts]
  have ha : (1 : Int) + (n : Int) = api.retryCount := by omega
  rw [ha, apiRequestLoop_last_failure api net url _ 1 _ (errs n)
    (by rw [hc]; exact hfail n (Nat.lt_succ_self n)), hc, List.append_assoc]

/-- A response with the success flag set and status 204 is handled without a decode. -/
theorem handleResponse_noContent (response : Response) (hok : response.ok = true)
    (hstatus : response.status = 204) :
    handleResponse (.ok response) = (.ok .null, []) := by
  simp [handleResponse, hok, hstatus]

/-- A response with the success flag set, a status other than 204 and a body that
decodes is handled by decoding the body once. -/
theorem handleResponse_body (response : Response) (body : JsVal)
    (hok : response.ok = true) (hstatus : response.status ≠ 204)
    (hbody : response.json = .ok body) :
    handleResponse (.ok response) = (.ok body, [.json]) := by
  simp [handleResponse, hok, hstatus, hbody]

theorem attemptOutcome_eq_thrownError (r : FetchResult)
    (h : ∃ e, attemptOutcome r = .error e) :
    attemptOutcome r = .error (thrownError (attemptOutcome r)) := by
  obtain ⟨e, he⟩ := h
  rw [he]; rfl

/-! ## The retrying transport client -/

/-- C1: for every `retryCount` and every `k` with `1 ≤ k ≤ retryCount`, if the first
`k - 1` attempts fail and attempt `k` gets a successful response that is not 204 and
whose body decodes, `apiRequest` returns exactly that decoded body and has made exactly
`k` transport calls. -/
theorem apiRequest_returns_first_success (api : PortfolioAPI) (net : Transport)
    (url : String) (options : RequestOptions) (tr : List Event) (k : Nat)
    (response : Response) (body : JsVal)
    (hk : 1 ≤ k) (hkN : (k : Int) ≤ api.retryCount)
    (hfail : ∀ i, i < k - 1 →
      ∃ e, attemptOutcome (net (fetchCount tr + i) url (mergeOptions options)) = .error e)
    (hresp : net (fetchCount tr + (k - 1)) url (mergeOptions options) = .ok response)
    (hok : response.ok = true) (hstatus : response.status ≠ 204)
    (hbody : response.json = .ok body) :
    ∃ tr', apiRequest api net url options tr = some (.ok body, tr')
      ∧ fetchCount tr' = fetchCount tr + k := by
  obtain ⟨j, rfl⟩ : ∃ j, k = j + 1 := ⟨k - 1, by omega⟩
  simp only [Nat.add_sub_cancel] at hfail hresp
  have hv : attemptOutcome (net (fetchCount tr + j) url (mergeOptions options)) = .ok body := by
    rw [hresp, attemptOutcome, handleResponse_body response body hok hstatus hbody]
  refine ⟨_, apiRequest_success_trace api net url options tr
    (fun i => thrownError (attemptOutcome (net (fetchCount tr + i) url (mergeOptions options))))
    j body hkN (fun i hi => attemptOutcome_eq_thrownError _ (hfail i hi)) hv, ?_⟩
  simp only [fetchCount_append, fetchCount_retriedAttempts, fetchCount_attemptEvents]

/-- C1 at the default configuration: the transport fails twice (a network failure, then
an HTTP 500), then succeeds; the third body is returned after exactly 3 calls. -/
theorem apiRequest_returns_first_success_witness :
    ∃ tr', apiRequest PortfolioAPI.constructor flakyTransport "/tables/projects" noOptions []
        = some (.ok (.str "done"), tr')
      ∧ fetchCount tr' = fetchCount [] + 3 :=
  apiRequest_returns_first_success PortfolioAPI.constructor flakyTransport
    "/tables/projects" noOptions [] 3 { ok := true, status := 200, json := .ok (.str "done") }
    (.str "done") (by decide) (by decide)
    (by
      intro i hi
      have h : i = 0 ∨ i = 1 := by omega
      rcases h with rfl | rfl
      · exact ⟨⟨"Failed to fetch"⟩, rfl⟩
      · exact ⟨⟨"HTTP error! status: 500"⟩, rfl⟩)
    rfl rfl (by decide) rfl

/-- C2: for every `retryCount = N ≥ 1`, if every attempt fails, attempt `i + 1` with the
error `errs i`, then `apiRequest` makes exactly `N` transport calls and fails with the
error of attempt `N`. -/
theorem apiRequest_exhaustion (api : PortfolioAPI) (net : Transport) (url : String)
    (options : RequestOptions) (tr : List Event) (errs : Nat → JsError) (N : Nat)
    (hN : api.retryCount = (N : Int)) (h1 : 1 ≤ N)
    (hfail : ∀ i, i < N →
      attemptOutcome (net (fetchCount tr + i) url (mergeOptions options)) = .error (errs i)) :
    ∃ tr', apiRequest api net url options tr = some (.error (errs (N - 1)), tr')
      ∧ fetchCount tr' = fetchCount tr + N := by
  obtain ⟨n, rfl⟩ : ∃ n, N = n + 1 := ⟨N - 1, by omega⟩
  refine ⟨_, apiRequest_exhausted_trace api net url options tr errs n hN hfail, ?_⟩
  simp only [fetchCount_append, fetchCount_retriedAttempts, fetchCount_attemptEvents]
  simp [fetchCount, Event.isFetch]

/-- C2 at the default configuration: every call is rejected, call `n` with the message
`down n`; the run fails after exactly 3 calls with the error of the third. -/
theorem apiRequest_exhaustion_witness :
    ∃ tr', apiRequest PortfolioAPI.constructor deadTransport "/tables/projects" noOptions []
        = some (.error ⟨"down 2"⟩, tr')
      ∧ fetchCount tr' = fetchCount [] + 3 :=
  apiRequest_exhaustion PortfolioAPI.constructor deadTransport "/tables/projects" noOptions []
    (fun i => ⟨"down " ++ toString i⟩) 3 rfl (by decide)
    (fun i _ => by simp [deadTransport, attemptOutcome, handleResponse, fetchCount])

theorem waitsExactlyAfterRetried_attemptEvents (n : Int) (d : Nat) (net : Transport)
    (url : String) (m : RequestOptions) (c : Nat) (rest : List Event) :
    waitsExactlyAfterRetried n d (attemptEvents net url m c ++ rest)
      = waitsExactlyAfterRetried n d rest := by
  rcases handleResponse_events (net c url m) with h | h <;>
    simp [attemptEvents, h, waitsExactlyAfterRetried]

/-- With enough fuel the loop always returns; the events it adds have waits exactly
after the retried failures, and an iteration that passes the loop test makes a
transport call. -/
theorem apiRequestLoop_total (api : PortfolioAPI) (net : Transport) (url : String)
    (m : RequestOptions) :
    ∀ (fuel : Nat) (a : Int) (tr : List Event), (api.retryCount + 1 - a).toNat < fuel →
      ∃ r added, apiRequestLoop api net url m fuel a tr = some (r, tr ++ added)
        ∧ waitsExactlyAfterRetried api.retryCount api.retryDelay added = true
        ∧ (a ≤ api.retryCount → 1 ≤ fetchCount added) := by
  intro fuel
  induction fuel with
  | zero => intro a tr h; omega
  | succ fuel ih =>
    intro a tr hfuel
    by_cases ha : a ≤ api.retryCount
    · cases hout : attemptOutcome (net (fetchCount tr) url m) with
      | ok v =>
        refine ⟨.ok v, attemptEvents net url m (fetchCount tr),
          apiRequestLoop_success api net url m fuel a tr v ha hout, ?_, ?_⟩
        · have := waitsExactlyAfterRetried_attemptEvents api.retryCount api.retryDelay
            net url m (fetchCount tr) []
          simpa [waitsExactlyAfterRetried] using this
        · intro _; rw [fetchCount_attemptEvents]
      | error e =>
        by_cases hlast : a = api.retryCount
        · subst hlast
          refine ⟨.error e, _, apiRequestLoop_last_failure api net url m fuel tr e hout, ?_, ?_⟩
          · rw [waitsExactlyAfterRetried_attemptEvents]
            simp [waitsExactlyAfterRetried]
          · intro _; rw [fetchCount_append, fetchCount_attemptEvents]; omega
        · have hlt : a < api.retryCount := lt_of_le_of_ne ha hlast
          obtain ⟨r, added, hrun, hwaits, _⟩ := ih (a + 1)
            (tr ++ (attemptEvents net url m (fetchCount tr)
              ++ [.requestFailed a e, .wait api.retryDelay])) (by omega)
          refine ⟨r, (attemptEvents net url m (fetchCount tr)
              ++ [.requestFailed a e, .wait api.retryDelay]) ++ added, ?_, ?_, ?_⟩
          · rw [apiRequestLoop_retry api net url m fuel a tr e hlt hout, hrun,
              List.append_assoc]
          · rw [List.append_assoc, waitsExactlyAfterRetried_attemptEvents]
            simp [waitsExactlyAfterRetried, hlt, hwaits]
          · intro _
            rw [fetchCount_append, fetchCount_append, fetchCount_attemptEvents]; omega
    · refine ⟨.ok .undefined, [], ?_, ?_, ?_⟩
      · rw [apiRequestLoop_exit api net url m fuel a tr (not_le.mp ha)]; simp
      · simp [waitsExactlyAfterRetried]
      · intro h; exact absurd h ha

/-- The three kinds of failure are exactly the cases in which the `try` block throws. -/
theorem attemptOutcome_error_iff (r : FetchResult) :
    (∃ e, attemptOutcome r = .error e) ↔ attemptFails r = true := by
  cases r with
  | error e => simp [attemptOutcome, handleResponse, attemptFails]
  | ok response =>
    cases hok : response.ok <;> by_cases hs : response.status = 204 <;>
      cases hj : response.json <;>
      simp [attemptOutcome, handleResponse, attemptFails, hok, hs, hj]

/-- C3: whenever an attempt (the `k`-th, reached because the `k - 1` before it failed)
receives a response with the success flag set and status 204, `apiRequest` returns `null`
and its last event is that attempt's transport call: the body decoder is not invoked for
the response and no further attempt is made. -/
theorem apiRequest_noContent_returns_null (api : PortfolioAPI) (net : Transport)
    (url : String) (options : RequestOptions) (tr : List Event) (k : Nat)
    (response : Response)
    (hk : 1 ≤ k) (hkN : (k : Int) ≤ api.retryCount)
    (hfail : ∀ i, i < k - 1 →
      ∃ e, attemptOutcome (net (fetchCount tr + i) url (mergeOptions options)) = .error e)
    (hresp : net (fetchCount tr + (k - 1)) url (mergeOptions options) = .ok response)
    (hok : response.ok = true) (hstatus : response.status = 204) :
    ∃ earlier, apiRequest api net url options tr
        = some (.ok .null, tr ++ (earlier ++ [.fetch url (mergeOptions options)]))
      ∧ fetchCount earlier = k - 1 := by
  obtain ⟨j, rfl⟩ : ∃ j, k = j + 1 := ⟨k - 1, by omega⟩
  simp only [Nat.add_sub_cancel] at hfail hresp ⊢
  have hh := handleResponse_noContent response hok hstatus
  have hv : attemptOutcome (net (fetchCount tr + j) url (mergeOptions options)) = .ok .null := by
    rw [hresp, attemptOutcome, hh]
  refine ⟨_, ?_, fetchCount_retriedAttempts api net url (mergeOptions options)
    (fun i => thrownError (attemptOutcome (net (fetchCount tr + i) url (mergeOptions options))))
    (fetchCount tr) 1 j⟩
  rw [apiRequest_success_trace api net url options tr _ j .null hkN
    (fun i hi => attemptOutcome_eq_thrownError _ (hfail i hi)) hv]
  simp [attemptEvents, hresp, hh]

/-- C3 on a run with the default configuration: the first response is a 200 whose body
does not decode, the second is a 204; `null` is returned right after the second call. -/
theorem apiRequest_noContent_returns_null_witness :
    ∃ earlier, apiRequest PortfolioAPI.constructor noContentTransport "/tables/projects/7"
        noOptions []
        = some (.ok .null, [] ++ (earlier ++ [.fetch "/tables/projects/7" (mergeOptions noOptions)]))
      ∧ fetchCount earlier = 2 - 1 :=
  apiRequest_noContent_returns_null PortfolioAPI.constructor noContentTransport
    "/tables/projects/7" noOptions [] 2
    { ok := true, status := 204, json := .error ⟨"Unexpected end of JSON input"⟩ }
    (by decide) (by decide)
    (by
      intro i hi
      have h : i = 0 := by omega
      subst h
      exact ⟨⟨"Unexpected token"⟩, rfl⟩)
    rfl rfl rfl

/-- C4: the `try` block of an attempt throws exactly when the transport call rejects, or
the success flag is false, or the status is not 204 and the body does not decode; with the
success flag false the message is `HTTP error! status: <status>` and the body is not
decoded; and whichever of the three ways the first `j` attempts fail in, if `j` is below
`retryCount` all of them are retried, so that at least `j + 1` transport calls are made. -/
theorem attempt_failure_classification (api : PortfolioAPI) (net : Transport)
    (url : String) (options : RequestOptions) (tr : List Event) :
    (∀ r : FetchResult, (∃ e, attemptOutcome r = .error e) ↔ attemptFails r = true)
    ∧ (∀ response : Response, response.ok = false →
        handleResponse (.ok response)
          = (.error ⟨"HTTP error! status: " ++ toString response.status⟩, []))
    ∧ (∀ j : Nat, (j : Int) < api.retryCount →
        (∀ i, i < j →
          attemptFails (net (fetchCount tr + i) url (mergeOptions options)) = true) →
        ∃ r added, apiRequest api net url options tr = some (r, tr ++ added)
          ∧ j + 1 ≤ fetchCount added) := by
  refine ⟨attemptOutcome_error_iff, ?_, ?_⟩
  · intro response hok
    simp [handleResponse, hok]
  · intro j hj hfail
    obtain ⟨f, hf⟩ : ∃ f, api.retryCount.toNat + 1 = (f + 1) + j :=
      ⟨api.retryCount.toNat - j, by omega⟩
    have hsteps := apiRequestLoop_retries api net url (mergeOptions options)
      (fun i => thrownError (attemptOutcome (net (fetchCount tr + i) url (mergeOptions options))))
      1 tr j (f + 1)
      (fun i hi => attemptOutcome_eq_thrownError _ ((attemptOutcome_error_iff _).mpr (hfail i hi)))
      (by omega)
    obtain ⟨r, added, hrun, _, hcalls⟩ := apiRequestLoop_total api net url (mergeOptions options)
      (f + 1) (1 + j) (tr ++ retriedAttempts api net url (mergeOptions options)
        (fun i => thrownError (attemptOutcome (net (fetchCount tr + i) url (mergeOptions options))))
        (fetchCount tr) 1 j) (by omega)
    refine ⟨r, retriedAttempts api net url (mergeOptions options)
        (fun i => thrownError (attemptOutcome (net (fetchCount tr + i) url (mergeOptions options))))
        (fetchCount tr) 1 j ++ added, ?_, ?_⟩
    · unfold apiRequest
      rw [hf, hsteps, hrun, List.append_assoc]
    · rw [fetchCount_append, fetchCount_retriedAttempts]
      have := hcalls (by omega)
      omega

/-- C4 on a run with `retryCount = 4` whose first three attempts fail in the three
different ways: all three are retried, so at least four transport calls are made. -/
theorem attempt_failure_classification_witness :
    ∃ r added, apiRequest { PortfolioAPI.constructor with retryCount := 4 }
        threeKindsTransport "/tables/projects" noOptions [] = some (r, [] ++ added)
      ∧ 3 + 1 ≤ fetchCount added :=
  (attempt_failure_classification { PortfolioAPI.constructor with retryCount := 4 }
    threeKindsTransport "/tables/projects" noOptions []).2.2 3 (by decide)
    (by
      intro i hi
      have h : i = 0 ∨ i = 1 ∨ i = 2 := by omega
      rcases h with rfl | rfl | rfl <;> rfl)

/-- C5: every run of `apiRequest` returns, and in its events a wait directly follows the
log line of a failed attempt exactly when that attempt's index is below `retryCount`,
every wait lasts `retryDelay` (1000 ms by default), and there is no other wait; a run
whose first success is at attempt `k` performs `k - 1` waits, and an exhausted run
performs `retryCount - 1` waits. -/
theorem apiRequest_uniform_retry_interval (api : PortfolioAPI) (net : Transport)
    (url : String) (options : RequestOptions) (tr : List Event) :
    (∃ r added, apiRequest api net url options tr = some (r, tr ++ added)
        ∧ waitsExactlyAfterRetried api.retryCount api.retryDelay added = true)
    ∧ PortfolioAPI.constructor.retryDelay = 1000
    ∧ (∀ (k : Nat) (v : JsVal), 1 ≤ k → (k : Int) ≤ api.retryCount →
        (∀ i, i < k - 1 →
          ∃ e, attemptOutcome (net (fetchCount tr + i) url (mergeOptions options)) = .error e) →
        attemptOutcome (net (fetchCount tr + (k - 1)) url (mergeOptions options)) = .ok v →
        ∃ added, apiRequest api net url options tr = some (.ok v, tr ++ added)
          ∧ waitCount added = k - 1)
    ∧ (∀ N : Nat, api.retryCount = (N : Int) → 1 ≤ N →
        (∀ i, i < N →
          ∃ e, attemptOutcome (net (fetchCount tr + i) url (mergeOptions options)) = .error e) →
        ∃ e added, apiRequest api net url options tr = some (.error e, tr ++ added)
          ∧ waitCount added = N - 1) := by
  refine ⟨?_, rfl, ?_, ?_⟩
  · obtain ⟨r, added, hrun, hwaits, _⟩ := apiRequestLoop_total api net url
      (mergeOptions options) (api.retryCount.toNat + 1) 1 tr (by omega)
    exact ⟨r, added, hrun, hwaits⟩
  · intro k v hk hkN hfail hv
    obtain ⟨j, rfl⟩ : ∃ j, k = j + 1 := ⟨k - 1, by omega⟩
    simp only [Nat.add_sub_cancel] at hfail hv ⊢
    refine ⟨_, apiRequest_success_trace api net url options tr
      (fun i => thrownError (attemptOutcome (net (fetchCount tr + i) url (mergeOptions options))))
      j v hkN (fun i hi => attemptOutcome_eq_thrownError _ (hfail i hi)) hv, ?_⟩
    rw [waitCount_append, waitCount_retriedAttempts, waitCount_attemptEvents, Nat.add_zero]
  · intro N hN h1 hfail
    obtain ⟨n, rfl⟩ : ∃ n, N = n + 1 := ⟨N - 1, by omega⟩
    refine ⟨_, _, apiRequest_exhausted_trace api net url options tr
      (fun i => thrownError (attemptOutcome (net (fetchCount tr + i) url (mergeOptions options))))
      n hN (fun i hi => attemptOutcome_eq_thrownError _ (hfail i hi)), ?_⟩
    rw [waitCount_append, waitCount_retriedAttempts, waitCount_append, waitCount_attemptEvents]
    simp [waitCount, Event.isWait]

/-- C5 at the default configuration: the transport fails twice and then succeeds; the
run performs exactly two waits. -/
theorem apiRequest_uniform_retry_interval_witness :
    ∃ added, apiRequest PortfolioAPI.constructor flakyTransport "/tables/projects" noOptions []
        = some (.ok (.str "done"), [] ++ added)
      ∧ waitCount added = 3 - 1 :=
  (apiRequest_uniform_retry_interval PortfolioAPI.constructor flakyTransport
    "/tables/projects" noOptions []).2.2.1 3 (.str "done") (by decide) (by decide)
    (by
      intro i hi
      have h : i = 0 ∨ i = 1 := by omega
      rcases h with rfl | rfl
      · exact ⟨⟨"Failed to fetch"⟩, rfl⟩
      · exact ⟨⟨"HTTP error! status: 500"⟩, rfl⟩)
    rfl

/-! ## The validation gate -/

theorem includesString_iff (xs : List String) (v : JsVal) :
    includesString xs v = true ↔ ∃ c, c ∈ xs ∧ v = .str c := by
  cases v <;> simp [includesString]

theorem includesString_truthy (v : JsVal)
    (h : includesString ["video", "motion", "design", "thumbnail"] v = true) :
    v.truthy = true := by
  obtain ⟨c, hc, rfl⟩ := (includesString_iff _ _).mp h
  simp only [List.mem_cons, List.mem_singleton, List.not_mem_nil, or_false] at hc
  rcases hc with rfl | rfl | rfl | rfl <;> decide

/-- C6: `validateProject` returns `true` exactly when the title is non-empty (truthy; for
a text title, not the empty string) and the category is one of `video`, `motion`,
`design`, `thumbnail`; in every other case it throws, and for a non-empty title with a
non-empty category outside the enumeration (such as `sculpture`) the error is the
invalid-category one. -/
theorem validateProject_accepts_iff (project : JsObj) :
    (validateProject project = .ok true ↔
      (lookupField project "title").truthy = true
        ∧ ∃ c, c ∈ ["video", "motion", "design", "thumbnail"]
            ∧ lookupField project "category" = .str c)
    ∧ (validateProject project = .ok true ∨ ∃ e, validateProject project = .error e)
    ∧ (∀ title : String, (JsVal.str title).truthy = true ↔ title ≠ "")
    ∧ ((lookupField project "title").truthy = true →
        (lookupField project "category").truthy = true →
        (¬ ∃ c, c ∈ ["video", "motion", "design", "thumbnail"]
            ∧ lookupField project "category" = .str c) →
        validateProject project
          = .error ⟨"Invalid category. Must be one of: video, motion, design, thumbnail"⟩) := by
  rw [← includesString_iff]
  refine ⟨?_, ?_, ?_, ?_⟩
  · constructor
    · intro h
      cases ht : (lookupField project "title").truthy <;>
        cases hc : (lookupField project "category").truthy <;>
        cases hi : includesString ["video", "motion", "design", "thumbnail"]
          (lookupField project "category") <;>
        simp [validateProject, List.filter, ht, hc, hi] at h ⊢
    · rintro ⟨ht, hi⟩
      have hc := includesString_truthy _ hi
      simp [validateProject, List.filter, ht, hc, hi]
  · cases ht : (lookupField project "title").truthy <;>
      cases hc : (lookupField project "category").truthy <;>
      cases hi : includesString ["video", "motion", "design", "thumbnail"]
        (lookupField project "category") <;>
      simp [validateProject, List.filter, ht, hc, hi]
  · intro title
    simp [JsVal.truthy]
  · intro ht hc hi
    have hi' : includesString ["video", "motion", "design", "thumbnail"]
        (lookupField project "category") = false := by
      simpa using hi
    simp [validateProject, List.filter, ht, hc, hi']
    decide

/-- C6 on the project `{title: 'Statue', category: 'sculpture'}`: it is rejected with the
invalid-category error. -/
theorem validateProject_accepts_iff_witness :
    validateProject [("title", .str "Statue"), ("category", .str "sculpture")]
      = .error ⟨"Invalid category. Must be one of: video, motion, design, thumbnail"⟩ :=
  (validateProject_accepts_iff [("title", .str "Statue"), ("category", .str "sculpture")]).2.2.2
    (by decide) (by decide) (by simp [lookupField])

/-- C7: a project whose title or category is empty or absent is rejected with the
missing-fields error, which lists exactly the missing ones, title before category, joined
with `, `; this error is thrown whatever the category is, so it takes precedence over the
invalid-category error. -/
theorem validateProject_missing_fields (project : JsObj) :
    ((lookupField project "title").truthy = false →
        (lookupField project "category").truthy = true →
        validateProject project = .error ⟨"Missing required fields: title"⟩)
    ∧ ((lookupField project "title").truthy = true →
        (lookupField project "category").truthy = false →
        validateProject project = .error ⟨"Missing required fields: category"⟩)
    ∧ ((lookupField project "title").truthy = false →
        (lookupField project "category").truthy = false →
        validateProject project = .error ⟨"Missing required fields: title, category"⟩) := by
  refine ⟨?_, ?_, ?_⟩ <;> intro ht hc <;>
    simp [validateProject, List.filter, ht, hc] <;> decide

/-- C7 on the project `{category: 'sculpture'}`: the error lists `title`, and the
category, although outside the enumeration, is not what is reported. -/
theorem validateProject_missing_fields_witness :
    validateProject [("category", .str "sculpture")]
      = .error ⟨"Missing required fields: title"⟩ :=
  (validateProject_missing_fields [("category", .str "sculpture")]).1 (by decide) (by decide)

/-- C9: `validateProfile` returns `true` exactly when name and tagline are non-empty and
the email is absent or empty or matches the address pattern; otherwise it throws.  An
absent or empty email never causes rejection, and a present email that does not match
the pattern always does. -/
theorem validateProfile_accepts_iff (profile : JsObj) :
    (validateProfile profile = .ok true ↔
      (lookupField profile "name").truthy = true
        ∧ (lookupField profile "tagline").truthy = true
        ∧ ((lookupField profile "email").truthy = false
            ∨ emailPatternTest (lookupField profile "email") = true))
    ∧ (validateProfile profile = .ok true ∨ ∃ e, validateProfile profile = .error e)
    ∧ ((lookupField profile "email").truthy = false →
        (validateProfile profile = .ok true ↔
          (lookupField profile "name").truthy = true
            ∧ (lookupField profile "tagline").truthy = true))
    ∧ ((lookupField profile "email").truthy = true →
        emailPatternTest (lookupField profile "email") = false →
        ∃ e, validateProfile profile = .error e) := by
  cases hn : (lookupField profile "name").truthy <;>
    cases ht : (lookupField profile "tagline").truthy <;>
    cases he : (lookupField profile "email").truthy <;>
    cases hp : emailPatternTest (lookupField profile "email") <;>
    simp [validateProfile, List.filter, hn, ht, he, hp]

/-- C9 on a profile with name and tagline and the email `not-an-address`: rejected. -/
theorem validateProfile_accepts_iff_witness :
    ∃ e, validateProfile [("name", .str "Harsh"), ("tagline", .str "Editor"),
      ("email", .str "not-an-address")] = .error e :=
  (validateProfile_accepts_iff [("name", .str "Harsh"), ("tagline", .str "Editor"),
    ("email", .str "not-an-address")]).2.2.2 (by decide) (by decide)

/-- C10: `validateContactMessage` returns `true` exactly when name, email and message are
non-empty and the email matches the address pattern; otherwise it throws.  The outcome
is the same for any two messages that agree on name, email and message, whatever their
service and budget. -/
theorem validateContactMessage_accepts_iff (message : JsObj) :
    (validateContactMessage message = .ok true ↔
      (lookupField message "name").truthy = true
        ∧ (lookupField message "email").truthy = true
        ∧ (lookupField message "message").truthy = true
        ∧ emailPatternTest (lookupField message "email") = true)
    ∧ (validateContactMessage message = .ok true
        ∨ ∃ e, validateContactMessage message = .error e)
    ∧ (∀ other : JsObj,
        lookupField other "name" = lookupField message "name" →
        lookupField other "email" = lookupField message "email" →
        lookupField other "message" = lookupField message "message" →
        validateContactMessage other = validateContactMessage message) := by
  refine ⟨?_, ?_, ?_⟩
  · cases hn : (lookupField message "name").truthy <;>
      cases he : (lookupField message "email").truthy <;>
      cases hm : (lookupField message "message").truthy <;>
      cases hp : emailPatternTest (lookupField message "email") <;>
      simp [validateContactMessage, List.filter, hn, he, hm, hp]
  · cases hn : (lookupField message "name").truthy <;>
      cases he : (lookupField message "email").truthy <;>
      cases hm : (lookupField message "message").truthy <;>
      cases hp : emailPatternTest (lookupField message "email") <;>
      simp [validateContactMessage, List.filter, hn, he, hm, hp]
  · intro other hn he hm
    simp [validateContactMessage, List.filter, hn, he, hm]

/-- C10 on two messages that differ in service and budget only: same outcome. -/
theorem validateContactMessage_accepts_iff_witness :
    validateContactMessage [("name", .str "A"), ("email", .str "a@b.com"),
        ("service", .str "video"), ("budget", .num 500), ("message", .str "hi")]
      = validateContactMessage [("name", .str "A"), ("email", .str "a@b.com"),
        ("service", .null), ("budget", .null), ("message", .str "hi")] :=
  (validateContactMessage_accepts_iff [("name", .str "A"), ("email", .str "a@b.com"),
      ("service", .null), ("budget", .null), ("message", .str "hi")]).2.2
    [("name", .str "A"), ("email", .str "a@b.com"),
      ("service", .str "video"), ("budget", .num 500), ("message", .str "hi")] rfl rfl rfl

/-- The call `apiRequest` always returns, and with `retryCount ≥ 1` it makes a transport call. -/
theorem apiRequest_total (api : PortfolioAPI) (net : Transport) (url : String)
    (options : RequestOptions) (tr : List Event) :
    ∃ r added, apiRequest api net url options tr = some (r, tr ++ added)
      ∧ (1 ≤ api.retryCount → 1 ≤ fetchCount added) := by
  obtain ⟨r, added, hrun, _, hcalls⟩ := apiRequestLoop_total api net url
    (mergeOptions options) (api.retryCount.toNat + 1) 1 tr (by omega)
  exact ⟨r, added, hrun, hcalls⟩

/-- An accepted contact submission does reach the transport: with `retryCount ≥ 1` the
handler finishes with at least one more transport call recorded. -/
theorem handleContactSubmit_accepted_calls_transport (env : Env)
    (formData : String → JsVal) (m : Manager)
    (haccept : validateContactMessage (messageFromForm formData) = .ok true)
    (hN : 1 ≤ m.api.retryCount) :
    ∃ m', handleContactSubmit env formData m = some m'
      ∧ fetchCount m.trace < fetchCount m'.trace := by
  obtain ⟨r, added, hrun, hcalls⟩ := apiRequest_total m.api env.net
    (m.api.baseURL ++ "/contact_messages")
    { method := some "POST", headers := none,
      body := some (.obj (setField (setField (messageFromForm formData) "status" (.str "new"))
        "created_at" (env.now m.trace))) } m.trace
  have h1 := hcalls hN
  cases r with
  | error e =>
    simp only [handleContactSubmit, contactSubmitTry, haccept, createContactMessage,
      setLoadingState, hrun]
    refine ⟨_, rfl, ?_⟩
    simp [showNotification, logError, fetchCount_append]
    omega
  | ok v =>
    simp only [handleContactSubmit, contactSubmitTry, haccept, createContactMessage,
      setLoadingState, hrun]
    refine ⟨_, rfl, ?_⟩
    simp [showNotification, resetForm, fetchCount_append]
    omega

/-- C8: in the API-backed manager, when the validator rejects the data of a project,
profile or contact submission, the handler finishes having added only the log line and
the error notification to the events: it issues no transport request (no create or
update call and no reload), so the transport call count is what it was. -/
theorem validation_rejects_before_transport (env : Env) (formData : String → JsVal)
    (m : Manager) :
    (∀ project e, projectFromForm env formData = .ok project →
        validateProject project = .error e →
        ∃ m', handleProjectSubmit env formData m = some m'
          ∧ m'.trace = m.trace ++ [.consoleError "Failed to add project:" e,
              .notification (messageOr e "Failed to add project") "error"]
          ∧ fetchCount m'.trace = fetchCount m.trace)
    ∧ (∀ profileData e, profileFromDocument env = .ok profileData →
        validateProfile profileData = .error e →
        ∃ m', handleProfileSubmit env m = some m'
          ∧ m'.trace = m.trace ++ [.consoleError "Failed to update profile:" e,
              .notification (messageOr e "Failed to update profile") "error"]
          ∧ fetchCount m'.trace = fetchCount m.trace)
    ∧ (∀ e, validateContactMessage (messageFromForm formData) = .error e →
        ∃ m', handleContactSubmit env formData m = some m'
          ∧ m'.trace = m.trace ++ [.consoleError "Failed to send message:" e,
              .notification (messageOr e "Failed to send message. Please try again.") "error"]
          ∧ fetchCount m'.trace = fetchCount m.trace) := by
  refine ⟨?_, ?_, ?_⟩
  · intro project e hbuild hreject
    refine ⟨setLoadingState
        (showNotification (logError (setLoadingState m true) "Failed to add project:" e)
          (messageOr e "Failed to add project") "error") false,
      by simp only [handleProjectSubmit, projectSubmitTry, hbuild, hreject], ?_, ?_⟩
    · simp [setLoadingState, showNotification, logError]
    · simp [setLoadingState, showNotification, logError, fetchCount, Event.isFetch]
  · intro profileData e hbuild hreject
    refine ⟨setLoadingState
        (showNotification (logError (setLoadingState m true) "Failed to update profile:" e)
          (messageOr e "Failed to update profile") "error") false,
      by simp only [handleProfileSubmit, profileSubmitTry, hbuild, hreject], ?_, ?_⟩
    · simp [setLoadingState, showNotification, logError]
    · simp [setLoadingState, showNotification, logError, fetchCount, Event.isFetch]
  · intro e hreject
    refine ⟨setLoadingState
        (showNotification (logError (setLoadingState m true) "Failed to send message:" e)
          (messageOr e "Failed to send message. Please try again.") "error") false,
      by simp only [handleContactSubmit, contactSubmitTry, hreject], ?_, ?_⟩
    · simp [setLoadingState, showNotification, logError]
    · simp [setLoadingState, showNotification, logError, fetchCount, Event.isFetch]

/-- C8 on an empty project form submitted to a fresh manager: the title and category are
missing, the handler reports it, and the transport call count stays 0. -/
theorem validation_rejects_before_transport_witness :
    ∃ m', handleProjectSubmit emptyFormEnv emptyFormData freshManager = some m'
      ∧ m'.trace = freshManager.trace
          ++ [.consoleError "Failed to add project:" ⟨"Missing required fields: title, category"⟩,
            .notification (messageOr ⟨"Missing required fields: title, category"⟩
              "Failed to add project") "error"]
      ∧ fetchCount m'.trace = fetchCount freshManager.trace :=
  (validation_rejects_before_transport emptyFormEnv emptyFormData freshManager).1
    [("title", .str ""), ("category", .str ""), ("description", .str ""),
      ("thumbnail", .str ""), ("video_url", .str ""), ("external_links", .str ""),
      ("featured", .bool false), ("tags", .arr [])]
    ⟨"Missing required fields: title, category"⟩ rfl rfl

/-! ## The address pattern -/

theorem notSpaceAt_rmatch_iff (x : List CharKind) :
    notSpaceAt.rmatch x = true ↔ ∃ k, x = [k] ∧ (k = .dot ∨ k = .other) := by
  have h := RegularExpression.add_rmatch_iff (.char .dot) (.char .other) x
  rw [RegularExpression.char_rmatch_iff, RegularExpression.char_rmatch_iff] at h
  constructor
  · intro hx
    rcases h.mp hx with rfl | rfl
    · exact ⟨.dot, rfl, Or.inl rfl⟩
    · exact ⟨.other, rfl, Or.inr rfl⟩
  · rintro ⟨k, rfl, hk | hk⟩
    · exact h.mpr (Or.inl (by rw [hk]))
    · exact h.mpr (Or.inr (by rw [hk]))

theorem star_notSpaceAt_rmatch_iff (x : List CharKind) :
    (RegularExpression.star notSpaceAt).rmatch x = true ↔ ∀ k ∈ x, k = .dot ∨ k = .other := by
  rw [RegularExpression.star_rmatch_iff]
  constructor
  · rintro ⟨S, rfl, hS⟩ k hk
    obtain ⟨t, ht, hkt⟩ := List.mem_flatten.mp hk
    obtain ⟨k', rfl, hk'⟩ := (notSpaceAt_rmatch_iff t).mp (hS t ht).2
    rw [List.mem_singleton.mp hkt]; exact hk'
  · intro hx
    refine ⟨x.map (fun k => [k]), ?_, ?_⟩
    · induction x with
      | nil => rfl
      | cons k ks ih =>
        simp only [List.map_cons, List.flatten_cons, List.singleton_append, List.cons.injEq,
          true_and]
        exact ih (fun k' hk' => hx k' (List.mem_cons_of_mem _ hk'))
    · intro t ht
      obtain ⟨k, hk, rfl⟩ := List.mem_map.mp ht
      exact ⟨by simp, (notSpaceAt_rmatch_iff [k]).mpr ⟨k, rfl, hx k hk⟩⟩

theorem oneOrMore_notSpaceAt_rmatch_iff (x : List CharKind) :
    (oneOrMore notSpaceAt).rmatch x = true ↔ x ≠ [] ∧ ∀ k ∈ x, k = .dot ∨ k = .other := by
  have h := RegularExpression.mul_rmatch_iff notSpaceAt (.star notSpaceAt) x
  constructor
  · intro hx
    obtain ⟨t, u, rfl, ht, hu⟩ := h.mp hx
    obtain ⟨k, rfl, hk⟩ := (notSpaceAt_rmatch_iff t).mp ht
    refine ⟨by simp, ?_⟩
    intro k' hk'
    rcases List.mem_append.mp hk' with h1 | h1
    · rw [List.mem_singleton.mp h1]; exact hk
    · exact (star_notSpaceAt_rmatch_iff u).mp hu k' h1
  · rintro ⟨hne, hx⟩
    cases x with
    | nil => exact absurd rfl hne
    | cons k ks =>
      exact h.mpr ⟨[k], ks, rfl, (notSpaceAt_rmatch_iff [k]).mpr ⟨k, rfl, hx k (List.mem_cons_self _ _)⟩,
        (star_notSpaceAt_rmatch_iff ks).mpr (fun k' hk' => hx k' (List.mem_cons_of_mem _ hk'))⟩

theorem emailPattern_rmatch_iff (x : List CharKind) :
    emailPattern.rmatch x = true ↔
      ∃ a b c, x = a ++ CharKind.at :: (b ++ CharKind.dot :: c)
        ∧ (a ≠ [] ∧ ∀ k ∈ a, k = .dot ∨ k = .other)
        ∧ (b ≠ [] ∧ ∀ k ∈ b, k = .dot ∨ k = .other)
        ∧ (c ≠ [] ∧ ∀ k ∈ c, k = .dot ∨ k = .other) := by
  constructor
  · intro hx
    obtain ⟨a, r1, rfl, ha, h1⟩ := (RegularExpression.mul_rmatch_iff _ _ x).mp hx
    obtain ⟨t, r2, rfl, ht, h2⟩ := (RegularExpression.mul_rmatch_iff _ _ r1).mp h1
    obtain ⟨b, r3, rfl, hb, h3⟩ := (RegularExpression.mul_rmatch_iff _ _ r2).mp h2
    obtain ⟨d, c, rfl, hd, hc⟩ := (RegularExpression.mul_rmatch_iff _ _ r3).mp h3
    rw [(RegularExpression.char_rmatch_iff _ _).mp ht, (RegularExpression.char_rmatch_iff _ _).mp hd]
    exact ⟨a, b, c, by simp, (oneOrMore_notSpaceAt_rmatch_iff a).mp ha,
      (oneOrMore_notSpaceAt_rmatch_iff b).mp hb, (oneOrMore_notSpaceAt_rmatch_iff c).mp hc⟩
  · rintro ⟨a, b, c, rfl, ha, hb, hc⟩
    refine (RegularExpression.mul_rmatch_iff _ _ _).mpr ⟨a, _, rfl,
      (oneOrMore_notSpaceAt_rmatch_iff a).mpr ha, ?_⟩
    refine (RegularExpression.mul_rmatch_iff _ _ _).mpr ⟨[.at], _, rfl,
      (RegularExpression.char_rmatch_iff _ _).mpr rfl, ?_⟩
    refine (RegularExpression.mul_rmatch_iff _ _ _).mpr ⟨b, _, rfl,
      (oneOrMore_notSpaceAt_rmatch_iff b).mpr hb, ?_⟩
    exact (RegularExpression.mul_rmatch_iff _ _ _).mpr ⟨[.dot], c, rfl,
      (RegularExpression.char_rmatch_iff _ _).mpr rfl, (oneOrMore_notSpaceAt_rmatch_iff c).mpr hc⟩

theorem classify_eq_at (c : Char) : classify c = .at ↔ c = '@' := by
  unfold classify
  constructor
  · intro h
    split at h
    · cases h
    · split at h
      · assumption
      · split at h <;> cases h
  · rintro rfl
    decide

theorem classify_eq_dot (c : Char) : classify c = .dot ↔ c = '.' := by
  unfold classify
  constructor
  · intro h
    split at h
    · cases h
    · split at h
      · cases h
      · split at h
        · assumption
        · cases h
  · rintro rfl
    decide

theorem classify_plain (c : Char) :
    (classify c = .dot ∨ classify c = .other) ↔ isPlainChar c = true := by
  unfold classify isPlainChar
  by_cases hw : isWhiteSpace c = true
  · rw [if_pos hw, hw]; simp
  · rw [if_neg hw]
    have hw' : isWhiteSpace c = false := by simpa using hw
    rw [hw']
    by_cases ha : c = '@'
    · rw [if_pos ha]; simp [ha]
    · rw [if_neg ha]
      by_cases hd : c = '.'
      · rw [if_pos hd]; simp [ha]
      · rw [if_neg hd]; simp [ha]

theorem map_classify_plain (cs : List Char) :
    (∀ k ∈ cs.map classify, k = .dot ∨ k = .other) ↔ ∀ ch ∈ cs, isPlainChar ch = true := by
  simp only [List.mem_map, forall_exists_index, and_imp, forall_apply_eq_imp_iff₂, classify_plain]

theorem emailPattern_chars_iff (cs : List Char) :
    emailPattern.rmatch (cs.map classify) = true ↔
      ∃ a b c : List Char, cs = a ++ '@' :: (b ++ '.' :: c)
        ∧ a ≠ [] ∧ b ≠ [] ∧ c ≠ []
        ∧ ∀ ch ∈ a ++ b ++ c, isPlainChar ch = true := by
  rw [emailPattern_rmatch_iff]
  constructor
  · rintro ⟨a, b, c, hx, ⟨ha0, ha⟩, ⟨hb0, hb⟩, ⟨hc0, hc⟩⟩
    obtain ⟨a', r1, rfl, rfl, h1⟩ := List.map_eq_append_iff.mp hx
    obtain ⟨x1, r2, rfl, hx1, h2⟩ := List.map_eq_cons_iff.mp h1
    obtain ⟨b', r3, rfl, rfl, h3⟩ := List.map_eq_append_iff.mp h2
    obtain ⟨x2, c', rfl, hx2, rfl⟩ := List.map_eq_cons_iff.mp h3
    rw [(classify_eq_at x1).mp hx1, (classify_eq_dot x2).mp hx2]
    refine ⟨a', b', c', rfl, ?_, ?_, ?_, ?_⟩
    · intro h; exact ha0 (by rw [h]; rfl)
    · intro h; exact hb0 (by rw [h]; rfl)
    · intro h; exact hc0 (by rw [h]; rfl)
    · intro ch hch
      rcases List.mem_append.mp hch with h | h
      · rcases List.mem_append.mp h with h | h
        · exact (map_classify_plain a').mp ha ch h
        · exact (map_classify_plain b').mp hb ch h
      · exact (map_classify_plain c').mp hc ch h
  · rintro ⟨a, b, c, rfl, ha0, hb0, hc0, hall⟩
    refine ⟨a.map classify, b.map classify, c.map classify, ?_, ⟨?_, ?_⟩, ⟨?_, ?_⟩, ⟨?_, ?_⟩⟩
    · simp only [List.map_append, List.map_cons]
      rw [(classify_eq_at '@').mpr rfl, (classify_eq_dot '.').mpr rfl]
    · simpa using ha0
    · exact (map_classify_plain a).mpr (fun ch h => hall ch (by simp [h]))
    · simpa using hb0
    · exact (map_classify_plain b).mpr (fun ch h => hall ch (by simp [h]))
    · simpa using hc0
    · exact (map_classify_plain c).mpr (fun ch h => hall ch (by simp [h]))

/-- The pattern test on a string, in terms of its characters. -/
theorem emailPatternTest_str_iff (s : String) :
    emailPatternTest (.str s) = true ↔
      ∃ a b c : List Char, s.toList = a ++ '@' :: (b ++ '.' :: c)
        ∧ a ≠ [] ∧ b ≠ [] ∧ c ≠ []
        ∧ ∀ ch ∈ a ++ b ++ c, isPlainChar ch = true :=
  emailPattern_chars_iff s.toList

/-- C11, as stated, fails: `a@b` is a non-empty string of the form local part, `@`,
domain, both non-empty and without white space, and it does not pass the format check. -/
theorem addressForm_not_sufficient :
    ¬ ∀ s : String, s ≠ "" → (emailPatternTest (.str s) = true ↔ specAddressForm s) := by
  intro h
  have hform : specAddressForm "a@b" :=
    ⟨['a'], ['b'], rfl, by simp, by simp, by decide⟩
  have hpass := (h "a@b" (by decide)).mpr hform
  exact absurd hpass (by decide)

/-- C11, amended: a string passes the format check used by `validateProfile` and
`validateContactMessage` exactly when it is a local part, `@`, a name, `.` and a rest,
where the local part, the name and the rest are each non-empty and contain neither white
space nor `@`; every string that passes has the form the specification describes. -/
theorem emailPatternTest_iff_dotted_address (s : String) :
    (emailPatternTest (.str s) = true ↔
      ∃ a b c : List Char, s.toList = a ++ '@' :: (b ++ '.' :: c)
        ∧ a ≠ [] ∧ b ≠ [] ∧ c ≠ []
        ∧ ∀ ch ∈ a ++ b ++ c, isPlainChar ch = true)
    ∧ (emailPatternTest (.str s) = true → specAddressForm s) := by
  refine ⟨emailPatternTest_str_iff s, ?_⟩
  intro hpass
  obtain ⟨a, b, c, hs, ha, hb, hc, hall⟩ := (emailPatternTest_str_iff s).mp hpass
  refine ⟨a, b ++ '.' :: c, hs, ha, by simp, ?_⟩
  intro ch hch
  rw [hs] at hch
  have hplain : ∀ x, isPlainChar x = true → isWhiteSpace x = false := by
    intro x hx
    simp only [isPlainChar, Bool.and_eq_true, Bool.not_eq_true'] at hx
    exact hx.1
  simp only [List.mem_append, List.mem_cons] at hch
  rcases hch with h | rfl | h | rfl | h
  · exact hplain ch (hall ch (by simp [h]))
  · decide
  · exact hplain ch (hall ch (by simp [h]))
  · decide
  · exact hplain ch (hall ch (by simp [h]))

/-- C11, amended, on `a@b.com`: it passes, and so it has the described form. -/
theorem emailPatternTest_iff_dotted_address_witness : specAddressForm "a@b.com" :=
  (emailPatternTest_iff_dotted_address "a@b.com").2 (by decide)

/-- C12: for every non-empty email, a profile with name and tagline and a contact
message with name and message, both carrying that email, are accepted or rejected
together: the two validators apply the same format check. -/
theorem validators_share_email_check (profile message : JsObj) (email : String)
    (hemail : email ≠ "")
    (hname : (lookupField profile "name").truthy = true)
    (htagline : (lookupField profile "tagline").truthy = true)
    (hpemail : lookupField profile "email" = .str email)
    (hmname : (lookupField message "name").truthy = true)
    (hmessage : (lookupField message "message").truthy = true)
    (hmemail : lookupField message "email" = .str email) :
    validateProfile profile = .ok true ↔ validateContactMessage message = .ok true := by
  have ht : (JsVal.str email).truthy = true := by simp [JsVal.truthy, hemail]
  cases hp : emailPatternTest (.str email) <;>
    simp [validateProfile, validateContactMessage, List.filter, hname, htagline, hpemail,
      hmname, hmessage, hmemail, ht, hp]

/-- C12 on the email `a@b`: both validators reject it. -/
theorem validators_share_email_check_witness :
    validateProfile [("name", .str "A"), ("tagline", .str "T"), ("email", .str "a@b")]
        = .ok true
      ↔ validateContactMessage [("name", .str "A"), ("email", .str "a@b"),
          ("message", .str "hi")] = .ok true :=
  validators_share_email_check _ _ "a@b" (by decide) (by decide) (by decide) rfl
    (by decide) (by decide) rfl

/-! ## Request bodies -/

theorem lookupField_setField_same (o : JsObj) (field : String) (v : JsVal) :
    lookupField (setField o field v) field = v := by
  induction o with
  | nil => simp [setField, lookupField]
  | cons kv rest ih =>
    obtain ⟨k, w⟩ := kv
    by_cases hk : k = field
    · simp [setField, lookupField, hk]
    · simp [setField, lookupField, hk, ih]

theorem lookupField_setField_other (o : JsObj) (field other : String) (v : JsVal)
    (h : other ≠ field) :
    lookupField (setField o field v) other = lookupField o other := by
  induction o with
  | nil => simp [setField, lookupField, Ne.symm h]
  | cons kv rest ih =>
    obtain ⟨k, w⟩ := kv
    by_cases hk : k = field
    · subst hk
      simp [setField, lookupField, Ne.symm h]
    · by_cases hk2 : k = other
      · subst hk2
        simp [setField, lookupField, h]
      · simp [setField, lookupField, hk, hk2, ih]

/-- Every transport call of the loop carries the same URL and the same options. -/
theorem apiRequestLoop_fetches (api : PortfolioAPI) (net : Transport) (url : String)
    (m : RequestOptions) :
    ∀ (fuel : Nat) (a : Int) (tr : List Event) (r : Except JsError JsVal) (tr' : List Event),
      apiRequestLoop api net url m fuel a tr = some (r, tr') →
      ∃ added, tr' = tr ++ added ∧ ∀ ev ∈ added, ev.isFetch = true → ev = .fetch url m := by
  intro fuel
  induction fuel with
  | zero => intro a tr r tr' h; simp [apiRequestLoop] at h
  | succ fuel ih =>
    intro a tr r tr' h
    have hev : ∀ ev ∈ attemptEvents net url m (fetchCount tr),
        ev.isFetch = true → ev = .fetch url m := by
      intro ev hmem hf
      rcases handleResponse_events (net (fetchCount tr) url m) with h0 | h0 <;>
        simp only [attemptEvents, h0, List.mem_cons, List.mem_singleton, List.not_mem_nil,
          or_false] at hmem
      · exact hmem
      · rcases hmem with rfl | rfl
        · rfl
        · simp [Event.isFetch] at hf
    by_cases ha : a ≤ api.retryCount
    · cases hout : attemptOutcome (net (fetchCount tr) url m) with
      | ok v =>
        rw [apiRequestLoop_success api net url m fuel a tr v ha hout] at h
        simp only [Option.some.injEq, Prod.mk.injEq] at h
        exact ⟨_, h.2.symm, hev⟩
      | error e =>
        by_cases hlast : a = api.retryCount
        · subst hlast
          rw [apiRequestLoop_last_failure api net url m fuel tr e hout] at h
          simp only [Option.some.injEq, Prod.mk.injEq] at h
          refine ⟨_, h.2.symm, ?_⟩
          intro ev hmem hf
          rcases List.mem_append.mp hmem with h1 | h1
          · exact hev ev h1 hf
          · rw [List.mem_singleton.mp h1] at hf; simp [Event.isFetch] at hf
        · have hlt : a < api.retryCount := lt_of_le_of_ne ha hlast
          rw [apiRequestLoop_retry api net url m fuel a tr e hlt hout] at h
          obtain ⟨added, rfl, hadded⟩ := ih _ _ _ _ h
          refine ⟨(attemptEvents net url m (fetchCount tr)
            ++ [.requestFailed a e, .wait api.retryDelay]) ++ added,
            by rw [List.append_assoc], ?_⟩
          intro ev hmem hf
          rcases List.mem_append.mp hmem with h1 | h1
          · rcases List.mem_append.mp h1 with h2 | h2
            · exact hev ev h2 hf
            · simp only [List.mem_cons, List.mem_singleton, List.not_mem_nil, or_false] at h2
              rcases h2 with rfl | rfl <;> simp [Event.isFetch] at hf
          · exact hadded ev h1 hf
    · rw [apiRequestLoop_exit api net url m fuel a tr (not_le.mp ha)] at h
      simp only [Option.some.injEq, Prod.mk.injEq] at h
      exact ⟨[], by simp [h.2], by simp⟩

/-- The call `apiRequest` always returns; all its transport calls carry the given URL
and the merged options; with `retryCount ≥ 1` there is at least one, and exactly one
when the first attempt succeeds. -/
theorem apiRequest_requests (api : PortfolioAPI) (net : Transport) (url : String)
    (options : RequestOptions) (tr : List Event) :
    ∃ r added, apiRequest api net url options tr = some (r, tr ++ added)
      ∧ (∀ ev ∈ added, ev.isFetch = true → ev = .fetch url (mergeOptions options))
      ∧ (1 ≤ api.retryCount → 1 ≤ fetchCount added)
      ∧ (1 ≤ api.retryCount →
          (∃ v, attemptOutcome (net (fetchCount tr) url (mergeOptions options)) = .ok v) →
          fetchCount added = 1) := by
  obtain ⟨r, added, hrun, hcalls⟩ := apiRequest_total api net url options tr
  obtain ⟨added', hadd, hfetch⟩ := apiRequestLoop_fetches api net url (mergeOptions options)
    _ _ _ _ _ hrun
  have hsame : added' = added := (List.append_cancel_left hadd).symm
  subst hsame
  refine ⟨r, added', hrun, hfetch, hcalls, ?_⟩
  rintro hN ⟨v, hv⟩
  have hfirst := apiRequest_success_trace api net url options tr (fun _ => ⟨""⟩) 0 v
    (by simpa using hN) (fun i hi => absurd hi (Nat.not_lt_zero i)) (by simpa using hv)
  rw [hrun] at hfirst
  simp only [Option.some.injEq, Prod.mk.injEq] at hfirst
  have hlist := List.append_cancel_left hfirst.2
  rw [hlist]
  simp [retriedAttempts, fetchCount_attemptEvents]

/-- C13: for every `messageData`, also one that brings its own `status` or
`created_at`, `createContactMessage` returns, each of its transport calls is a POST to
`<base>/contact_messages` with one and the same body, and in that body `status` is
`new`, `created_at` is the clock reading at the call, and every other field is as in
`messageData`. -/
theorem createContactMessage_forces_status (api : PortfolioAPI) (env : Env)
    (messageData : JsObj) (tr : List Event) :
    ∃ r added body, createContactMessage api env messageData tr = some (r, tr ++ added)
      ∧ (1 ≤ api.retryCount → 1 ≤ fetchCount added)
      ∧ (∀ ev ∈ added, ev.isFetch = true →
          ev = .fetch (api.baseURL ++ "/contact_messages")
            { method := some "POST", headers := some defaultHeaders,
              body := some (.obj body) })
      ∧ lookupField body "status" = .str "new"
      ∧ lookupField body "created_at" = .str (env.toISOString (env.clock tr.length))
      ∧ ∀ field, field ≠ "status" → field ≠ "created_at" →
          lookupField body field = lookupField messageData field := by
  obtain ⟨r, added, hrun, hfetch, hcalls, _⟩ := apiRequest_requests api env.net
    (api.baseURL ++ "/contact_messages")
    { method := some "POST", headers := none,
      body := some (.obj (setField (setField messageData "status" (.str "new"))
        "created_at" (env.now tr))) } tr
  refine ⟨r, added, setField (setField messageData "status" (.str "new"))
    "created_at" (env.now tr), hrun, hcalls, hfetch, ?_, ?_, ?_⟩
  · rw [lookupField_setField_other _ _ _ _ (by decide), lookupField_setField_same]
  · rw [lookupField_setField_same]; rfl
  · intro field h1 h2
    rw [lookupField_setField_other _ _ _ _ h2, lookupField_setField_other _ _ _ _ h1]

/-- C13 on the message `{name: 'A', email: 'a@b.com', message: 'hi', status: 'archived'}`
sent by a default client: the body submitted has `status` equal to `new`. -/
theorem createContactMessage_forces_status_witness :
    ∃ r added body, createContactMessage PortfolioAPI.constructor emptyFormEnv
        [("name", .str "A"), ("email", .str "a@b.com"), ("message", .str "hi"),
          ("status", .str "archived")] [] = some (r, [] ++ added)
      ∧ (1 ≤ PortfolioAPI.constructor.retryCount → 1 ≤ fetchCount added)
      ∧ (∀ ev ∈ added, ev.isFetch = true →
          ev = .fetch (PortfolioAPI.constructor.baseURL ++ "/contact_messages")
            { method := some "POST", headers := some defaultHeaders,
              body := some (.obj body) })
      ∧ lookupField body "status" = .str "new"
      ∧ lookupField body "created_at"
          = .str (emptyFormEnv.toISOString (emptyFormEnv.clock ([] : List Event).length))
      ∧ ∀ field, field ≠ "status" → field ≠ "created_at" →
          lookupField body field
            = lookupField [("name", .str "A"), ("email", .str "a@b.com"),
                ("message", .str "hi"), ("status", .str "archived")] field :=
  createContactMessage_forces_status PortfolioAPI.constructor emptyFormEnv
    [("name", .str "A"), ("email", .str "a@b.com"), ("message", .str "hi"),
      ("status", .str "archived")] []

/-- C14: for every `projectData`, `createProject` returns, each of its transport calls is
a POST to `<base>/projects` with one and the same body, and in that body `created_at` is
the clock reading at the call, whatever the caller supplied, while `category` and every
other field are as in `projectData`. -/
theorem createProject_stamps_created_at (api : PortfolioAPI) (env : Env)
    (projectData : JsObj) (tr : List Event) :
    ∃ r added body, createProject api env projectData tr = some (r, tr ++ added)
      ∧ (1 ≤ api.retryCount → 1 ≤ fetchCount added)
      ∧ (∀ ev ∈ added, ev.isFetch = true →
          ev = .fetch (api.baseURL ++ "/projects")
            { method := some "POST", headers := some defaultHeaders,
              body := some (.obj body) })
      ∧ lookupField body "created_at" = .str (env.toISOString (env.clock tr.length))
      ∧ lookupField body "category" = lookupField projectData "category"
      ∧ ∀ field, field ≠ "created_at" →
          lookupField body field = lookupField projectData field := by
  obtain ⟨r, added, hrun, hfetch, hcalls, _⟩ := apiRequest_requests api env.net
    (api.baseURL ++ "/projects")
    { method := some "POST", headers := none,
      body := some (.obj (setField projectData "created_at" (env.now tr))) } tr
  refine ⟨r, added, setField projectData "created_at" (env.now tr), hrun, hcalls, hfetch,
    ?_, ?_, ?_⟩
  · rw [lookupField_setField_same]; rfl
  · rw [lookupField_setField_other _ _ _ _ (by decide)]
  · intro field h1
    rw [lookupField_setField_other _ _ _ _ h1]

/-- C14 on a project that brings its own `created_at`: the body keeps the category and
carries the clock reading. -/
theorem createProject_stamps_created_at_witness :
    ∃ r added body, createProject PortfolioAPI.constructor emptyFormEnv
        [("title", .str "Reel"), ("category", .str "video"),
          ("created_at", .str "1999-01-01T00:00:00.000Z")] [] = some (r, [] ++ added)
      ∧ (1 ≤ PortfolioAPI.constructor.retryCount → 1 ≤ fetchCount added)
      ∧ (∀ ev ∈ added, ev.isFetch = true →
          ev = .fetch (PortfolioAPI.constructor.baseURL ++ "/projects")
            { method := some "POST", headers := some defaultHeaders,
              body := some (.obj body) })
      ∧ lookupField body "created_at"
          = .str (emptyFormEnv.toISOString (emptyFormEnv.clock ([] : List Event).length))
      ∧ lookupField body "category"
          = lookupField [("title", .str "Reel"), ("category", .str "video"),
              ("created_at", .str "1999-01-01T00:00:00.000Z")] "category"
      ∧ ∀ field, field ≠ "created_at" →
          lookupField body field
            = lookupField [("title", .str "Reel"), ("category", .str "video"),
                ("created_at", .str "1999-01-01T00:00:00.000Z")] field :=
  createProject_stamps_created_at PortfolioAPI.constructor emptyFormEnv
    [("title", .str "Reel"), ("category", .str "video"),
      ("created_at", .str "1999-01-01T00:00:00.000Z")] []

/-- The request of `updateProject`: a PUT to `<base>/projects/<id>` whose body is
`projectData` with `updated_at` set to the clock reading at the call. -/
theorem updateProject_request (api : PortfolioAPI) (env : Env) (id : JsVal)
    (projectData : JsObj) (tr : List Event) :
    ∃ r added, updateProject api env id projectData tr = some (r, tr ++ added)
      ∧ (1 ≤ api.retryCount → 1 ≤ fetchCount added)
      ∧ (∀ ev ∈ added, ev.isFetch = true →
          ev = .fetch (api.baseURL ++ "/projects/" ++ id.toJsString)
            { method := some "PUT", headers := some defaultHeaders,
              body := some (.obj (setField projectData "updated_at" (env.now tr))) }) := by
  obtain ⟨r, added, hrun, hfetch, hcalls, _⟩ := apiRequest_requests api env.net
    (api.baseURL ++ "/projects/" ++ id.toJsString)
    { method := some "PUT", headers := none,
      body := some (.obj (setField projectData "updated_at" (env.now tr))) } tr
  exact ⟨r, added, hrun, hcalls, hfetch⟩

/-- C15: `updateProject(id, data)` returns, each of its transport calls is a PUT to
`<base>/projects/<id>` with one and the same body, and in that body `updated_at` is the
clock reading at the call, whatever the caller supplied, while every other field is as
in `data`; an update made later, after any further events, stamps the clock reading of
its own call, which under a non-decreasing clock is not before the earlier one. -/
theorem updateProject_stamps_updated_at (api : PortfolioAPI) (env : Env) (id : JsVal)
    (projectData : JsObj) (tr : List Event) :
    ∃ r added body, updateProject api env id projectData tr = some (r, tr ++ added)
      ∧ (1 ≤ api.retryCount → 1 ≤ fetchCount added)
      ∧ (∀ ev ∈ added, ev.isFetch = true →
          ev = .fetch (api.baseURL ++ "/projects/" ++ id.toJsString)
            { method := some "PUT", headers := some defaultHeaders,
              body := some (.obj body) })
      ∧ lookupField body "updated_at" = .str (env.toISOString (env.clock tr.length))
      ∧ (∀ field, field ≠ "updated_at" →
          lookupField body field = lookupField projectData field)
      ∧ ∀ (later : List Event) (id2 : JsVal) (data2 : JsObj), ∃ r2 added2 body2,
          updateProject api env id2 data2 (tr ++ added ++ later)
            = some (r2, tr ++ added ++ later ++ added2)
          ∧ (∀ ev ∈ added2, ev.isFetch = true →
              ev = .fetch (api.baseURL ++ "/projects/" ++ id2.toJsString)
                { method := some "PUT", headers := some defaultHeaders,
                  body := some (.obj body2) })
          ∧ lookupField body2 "updated_at"
              = .str (env.toISOString (env.clock (tr ++ added ++ later).length))
          ∧ (Monotone env.clock →
              env.clock tr.length ≤ env.clock (tr ++ added ++ later).length) := by
  obtain ⟨r, added, hrun, hcalls, hfetch⟩ := updateProject_request api env id projectData tr
  refine ⟨r, added, setField projectData "updated_at" (env.now tr), hrun, hcalls, hfetch,
    ?_, ?_, ?_⟩
  · rw [lookupField_setField_same]; rfl
  · intro field h1
    rw [lookupField_setField_other _ _ _ _ h1]
  · intro later id2 data2
    obtain ⟨r2, added2, hrun2, _, hfetch2⟩ :=
      updateProject_request api env id2 data2 (tr ++ added ++ later)
    refine ⟨r2, added2, setField data2 "updated_at" (env.now (tr ++ added ++ later)),
      hrun2, hfetch2, ?_, ?_⟩
    · rw [lookupField_setField_same]; rfl
    · intro hmono
      apply hmono
      simp only [List.length_append]
      omega

/-- C15 on `updateProject('7', {featured: true})` by a default client: the body carries
`featured` unchanged next to the stamped `updated_at`. -/
theorem updateProject_stamps_updated_at_witness :
    ∃ r added body, updateProject PortfolioAPI.constructor emptyFormEnv (.str "7")
        [("featured", .bool true)] [] = some (r, [] ++ added)
      ∧ (∀ ev ∈ added, ev.isFetch = true →
          ev = .fetch "/tables/projects/7"
            { method := some "PUT", headers := some defaultHeaders,
              body := some (.obj body) })
      ∧ lookupField body "featured" = .bool true := by
  obtain ⟨r, added, body, hrun, _, hfetch, _, hother, _⟩ :=
    updateProject_stamps_updated_at PortfolioAPI.constructor emptyFormEnv (.str "7")
      [("featured", .bool true)] []
  exact ⟨r, added, body, hrun, hfetch, by rw [hother "featured" (by decide)]; rfl⟩

/-! ## Profile upsert and derived views -/

/-- Two updates in a row against the profile store make four transport calls: a lookup
and a create, then a lookup and an update of the record created. -/
theorem updateProfile_twice_requests :
    (match updateProfile PortfolioAPI.constructor profileStoreEnv sampleProfile
        firstUpdateTrace with
      | some (_, tr) => tr.filterMap requestLine
      | none => [])
      = [("/tables/profile?limit=1", none), ("/tables/profile", some "POST"),
         ("/tables/profile?limit=1", none), ("/tables/profile/p1", some "PUT")] := by
  rfl

theorem filterRecords_eq_filter (keep : JsVal → Except JsError Bool) (p : JsVal → Bool)
    (xs : List JsVal) (h : ∀ x ∈ xs, keep x = .ok (p x)) :
    filterRecords keep xs = .ok (xs.filter p) := by
  induction xs with
  | nil => rfl
  | cons x xs ih =>
    have hx := h x (List.mem_cons_self _ _)
    have hxs := ih (fun y hy => h y (List.mem_cons_of_mem _ hy))
    cases hp : p x <;> simp [filterRecords, hx, hxs, hp, List.filter]

theorem propOf_of_ne (v : JsVal) (name : String) (h1 : v ≠ .null) (h2 : v ≠ .undefined) :
    propOf v name = .ok (v.get name) := by
  cases v <;> simp_all [propOf]

/-- C17: for a list response whose `data` is the array `records` (none of them `null`),
`getProjectsByCategory(c)` returns exactly the records whose category is strictly equal
to `c`, and `getFeaturedProjects()` exactly those whose `featured` flag is set, both in
the original order; for a response without `data` both return the empty list. -/
theorem derived_views_filter_fetched_page (api : PortfolioAPI) (env : Env)
    (category : JsVal) (tr : List Event) :
    (∀ fields records tr1,
        getProjects api env 1 100 category.toJsString "created_at" tr
          = some (.ok (.obj fields), tr1) →
        lookupField fields "data" = .arr records →
        (∀ x ∈ records, x ≠ .null ∧ x ≠ .undefined) →
        getProjectsByCategory api env category tr
          = some (.ok (.arr (records.filter
              (fun x => strictEquals (x.get "category") category))), tr1))
    ∧ (∀ fields records tr1,
        getProjects api env 1 100 "" "created_at" tr = some (.ok (.obj fields), tr1) →
        lookupField fields "data" = .arr records →
        (∀ x ∈ records, x ≠ .null ∧ x ≠ .undefined) →
        getFeaturedProjects api env tr
          = some (.ok (.arr (records.filter (fun x => (x.get "featured").truthy))), tr1))
    ∧ (∀ fields tr1,
        getProjects api env 1 100 category.toJsString "created_at" tr
          = some (.ok (.obj fields), tr1) →
        (lookupField fields "data").truthy = false →
        getProjectsByCategory api env category tr = some (.ok (.arr []), tr1))
    ∧ (∀ fields tr1,
        getProjects api env 1 100 "" "created_at" tr = some (.ok (.obj fields), tr1) →
        (lookupField fields "data").truthy = false →
        getFeaturedProjects api env tr = some (.ok (.arr []), tr1))
    ∧ (∀ (v : JsVal) (c : String), strictEquals v (.str c) = true ↔ v = .str c) := by
  refine ⟨?_, ?_, ?_, ?_, ?_⟩
  · intro fields records tr1 hrun hdata hrec
    have hfilter := filterRecords_eq_filter (hasCategory category)
      (fun x => strictEquals (x.get "category") category) records
      (fun x hx => by simp [hasCategory, propOf_of_ne x "category" (hrec x hx).1 (hrec x hx).2])
    simp [getProjectsByCategory, hrun, propOf, JsVal.get, hdata, filterData, JsVal.truthy,
      hfilter]
  · intro fields records tr1 hrun hdata hrec
    have hfilter := filterRecords_eq_filter isFeatured
      (fun x => (x.get "featured").truthy) records
      (fun x hx => by simp [isFeatured, propOf_of_ne x "featured" (hrec x hx).1 (hrec x hx).2])
    simp [getFeaturedProjects, hrun, propOf, JsVal.get, hdata, filterData, JsVal.truthy,
      hfilter]
  · intro fields tr1 hrun hdata
    simp [getProjectsByCategory, hrun, propOf, JsVal.get, filterData, hdata]
  · intro fields tr1 hrun hdata
    simp [getFeaturedProjects, hrun, propOf, JsVal.get, filterData, hdata]
  · intro v c
    cases v <;> simp [strictEquals]

/-- C17 on a page of three records: the category view for `video` holds the first and
the third record, in that order. -/
theorem derived_views_filter_fetched_page_witness :
    getProjectsByCategory PortfolioAPI.constructor catalogEnv (.str "video") []
      = some (.ok (.arr (sampleRecords.filter
          (fun x => strictEquals (x.get "category") (.str "video")))),
        [.fetch "/tables/projects?" (mergeOptions noOptions), .json]) :=
  (derived_views_filter_fetched_page PortfolioAPI.constructor catalogEnv (.str "video") []).1
    [("data", .arr sampleRecords)] sampleRecords _ rfl rfl
    (by
      intro x hx
      simp only [sampleRecords, List.mem_cons, List.mem_singleton, List.not_mem_nil,
        or_false] at hx
      rcases hx with rfl | rfl | rfl <;> simp)

/-! ## Fallback chain and local store -/

/-- When `getProjects` fails, `loadPortfolioDataFromAPI` logs, notifies, and then rejects
with the `TypeError` of the `super` call: nothing is rendered after the request and
`loadingState` stays `true`. -/
theorem loadPortfolioDataFromAPI_of_failure (env : Env) (m : Manager) (e : JsError)
    (tr1 : List Event)
    (h : getProjects m.api env 1 100 "" "created_at" m.trace = some (.error e, tr1)) :
    loadPortfolioDataFromAPI env m
      = some (.error superLoadPortfolioDataError,
          { api := m.api, loadingState := true,
            trace := tr1 ++ [.consoleError "Failed to load portfolio data:" e,
              .notification "Failed to load portfolio data. Using local data." "error"] }) := by
  simp [loadPortfolioDataFromAPI, setLoadingState, h, portfolioLoaded, showNotification,
    logError]

/-- C18, at a failing input: a fresh manager behind a transport that rejects every call.
After the three attempts `loadPortfolioDataFromAPI` itself fails, with the `TypeError`
of `super.loadPortfolioData()`; it has rendered nothing, from no source, and has left
`loadingState` set. -/
theorem loadPortfolioDataFromAPI_fails_without_fallback :
    ∃ m', loadPortfolioDataFromAPI emptyFormEnv freshManager
        = some (.error superLoadPortfolioDataError, m')
      ∧ m'.trace.filter Event.isRender = []
      ∧ fetchCount m'.trace = 3
      ∧ m'.loadingState = true :=
  ⟨_, loadPortfolioDataFromAPI_of_failure emptyFormEnv freshManager ⟨"down 2"⟩ _ rfl,
    rfl, rfl, rfl⟩

/-- C19: in `SimplePortfolioManager`, when the key holds an entry that decodes (a JSON
text, which is never the empty string), `getStoredProjects`, `getStoredProfile` and
`getStoredMessages` return the decoded value, an empty list included; when the key holds
no entry they return the four sample projects, the default profile, and the empty
list. -/
theorem simple_getStored_or_defaults (L : LocalEnv) :
    (∀ s v, L.getItem "portfolio_projects" = some s → s ≠ "" → L.jsonParse s = .ok v →
        SimplePortfolioManager.getStoredProjects L = .ok v)
    ∧ (∀ s v, L.getItem "portfolio_profile" = some s → s ≠ "" → L.jsonParse s = .ok v →
        SimplePortfolioManager.getStoredProfile L = .ok v)
    ∧ (∀ s v, L.getItem "portfolio_messages" = some s → s ≠ "" → L.jsonParse s = .ok v →
        SimplePortfolioManager.getStoredMessages L = .ok v)
    ∧ (L.getItem "portfolio_projects" = none →
        SimplePortfolioManager.getStoredProjects L
          = .ok SimplePortfolioManager.getDefaultProjects)
    ∧ (L.getItem "portfolio_profile" = none →
        SimplePortfolioManager.getStoredProfile L
          = .ok SimplePortfolioManager.getDefaultProfile)
    ∧ (L.getItem "portfolio_messages" = none →
        SimplePortfolioManager.getStoredMessages L = .ok (.arr []))
    ∧ (∃ p1 p2 p3 p4, SimplePortfolioManager.getDefaultProjects = .arr [p1, p2, p3, p4]) := by
  refine ⟨?_, ?_, ?_, ?_, ?_, ?_, ⟨_, _, _, _, rfl⟩⟩
  · intro s v hs hne hv
    simp [SimplePortfolioManager.getStoredProjects, hs, hne, hv]
  · intro s v hs hne hv
    simp [SimplePortfolioManager.getStoredProfile, hs, hne, hv]
  · intro s v hs hne hv
    simp [SimplePortfolioManager.getStoredMessages, hs, hne, hv]
  · intro hs
    simp [SimplePortfolioManager.getStoredProjects, hs]
  · intro hs
    simp [SimplePortfolioManager.getStoredProfile, hs]
  · intro hs
    simp [SimplePortfolioManager.getStoredMessages, hs]

/-- C19 on a store whose projects key holds `[]`: the empty list is returned, not the
sample projects. -/
theorem simple_getStored_or_defaults_witness :
    SimplePortfolioManager.getStoredProjects emptyListStore = .ok (.arr []) :=
  (simple_getStored_or_defaults emptyListStore).1 "[]" (.arr []) rfl (by decide) rfl

/-- C20, as stated, fails: with the text `{oops` under the keys, which the decoder
rejects, the getters of both local-store managers fail with the decoder's error. -/
theorem getStored_fails_on_corrupt_entry :
    SimplePortfolioManager.getStoredProjects corruptStore
      = .error ⟨"Unexpected token in JSON"⟩
    ∧ SimplePortfolioManager.getStoredProfile corruptStore
      = .error ⟨"Unexpected token in JSON"⟩
    ∧ SimplePortfolioManager.getStoredMessages corruptStore
      = .error ⟨"Unexpected token in JSON"⟩
    ∧ PortfolioManager.getStoredProjects corruptStore = .error ⟨"Unexpected token in JSON"⟩
    ∧ PortfolioManager.getStoredProfile corruptStore = .error ⟨"Unexpected token in JSON"⟩ :=
  ⟨rfl, rfl, rfl, rfl, rfl⟩

/-- C20, amended: for every string held under a local-store key, a getter of either
local-store manager returns the defaults when the string is empty (it is treated as no
local data), and otherwise returns or fails exactly as the decoder does on that string:
an entry that does not decode makes the getter fail with the decoder's error. -/
theorem getStored_follows_decoder (L : LocalEnv) :
    (∀ s, L.getItem "portfolio_projects" = some s → s ≠ "" →
        SimplePortfolioManager.getStoredProjects L = L.jsonParse s
          ∧ PortfolioManager.getStoredProjects L = L.jsonParse s)
    ∧ (∀ s, L.getItem "portfolio_profile" = some s → s ≠ "" →
        SimplePortfolioManager.getStoredProfile L = L.jsonParse s
          ∧ PortfolioManager.getStoredProfile L = L.jsonParse s)
    ∧ (∀ s, L.getItem "portfolio_messages" = some s → s ≠ "" →
        SimplePortfolioManager.getStoredMessages L = L.jsonParse s)
    ∧ (L.getItem "portfolio_projects" = some "" →
        SimplePortfolioManager.getStoredProjects L
            = .ok SimplePortfolioManager.getDefaultProjects
          ∧ PortfolioManager.getStoredProjects L = .ok (.arr []))
    ∧ (L.getItem "portfolio_profile" = some "" →
        SimplePortfolioManager.getStoredProfile L
            = .ok SimplePortfolioManager.getDefaultProfile
          ∧ PortfolioManager.getStoredProfile L = .ok PortfolioManager.defaultProfile)
    ∧ (L.getItem "portfolio_messages" = some "" →
        SimplePortfolioManager.getStoredMessages L = .ok (.arr [])) := by
  refine ⟨?_, ?_, ?_, ?_, ?_, ?_⟩
  · intro s hs hne
    simp [SimplePortfolioManager.getStoredProjects, PortfolioManager.getStoredProjects, hs, hne]
  · intro s hs hne
    simp [SimplePortfolioManager.getStoredProfile, PortfolioManager.getStoredProfile, hs, hne]
  · intro s hs hne
    simp [SimplePortfolioManager.getStoredMessages, hs, hne]
  · intro hs
    simp [SimplePortfolioManager.getStoredProjects, PortfolioManager.getStoredProjects, hs]
  · intro hs
    simp [SimplePortfolioManager.getStoredProfile, PortfolioManager.getStoredProfile, hs]
  · intro hs
    simp [SimplePortfolioManager.getStoredMessages, hs]

/-- C20, amended, on a store whose keys hold the empty string: the getters return the
defaults, as for a store without entries. -/
theorem getStored_follows_decoder_witness :
    SimplePortfolioManager.getStoredProjects emptyStringStore
        = .ok SimplePortfolioManager.getDefaultProjects
      ∧ PortfolioManager.getStoredProjects emptyStringStore = .ok (.arr []) :=
  (getStored_follows_decoder emptyStringStore).2.2.2.1 rfl

/-! ## Behaviour under failure and reconfiguration -/

/-- The result of the loop, when the loop test passes, is the outcome of one of the
attempts it makes. -/
theorem apiRequestLoop_result (api : PortfolioAPI) (net : Transport) (url : String)
    (m : RequestOptions) :
    ∀ (fuel : Nat) (a : Int) (tr : List Event) (r : Except JsError JsVal) (tr' : List Event),
      apiRequestLoop api net url m fuel a tr = some (r, tr') → a ≤ api.retryCount →
      ∃ c, fetchCount tr ≤ c ∧ r = attemptOutcome (net c url m) := by
  intro fuel
  induction fuel with
  | zero => intro a tr r tr' h; simp [apiRequestLoop] at h
  | succ fuel ih =>
    intro a tr r tr' h ha
    cases hout : attemptOutcome (net (fetchCount tr) url m) with
    | ok v =>
      rw [apiRequestLoop_success api net url m fuel a tr v ha hout] at h
      simp only [Option.some.injEq, Prod.mk.injEq] at h
      exact ⟨fetchCount tr, le_refl _, by rw [hout]; exact h.1.symm⟩
    | error e =>
      by_cases hlast : a = api.retryCount
      · subst hlast
        rw [apiRequestLoop_last_failure api net url m fuel tr e hout] at h
        simp only [Option.some.injEq, Prod.mk.injEq] at h
        exact ⟨fetchCount tr, le_refl _, by rw [hout]; exact h.1.symm⟩
      · have hlt : a < api.retryCount := lt_of_le_of_ne ha hlast
        rw [apiRequestLoop_retry api net url m fuel a tr e hlt hout] at h
        obtain ⟨c, hc, hr⟩ := ih _ _ _ _ h (by omega)
        refine ⟨c, ?_, hr⟩
        rw [fetchCount_append] at hc
        omega

/-- The lookup `getProfile` always yields a value, and its transport calls are the
lookup with `limit=1`. -/
theorem getProfile_total (api : PortfolioAPI) (env : Env) (tr : List Event) :
    ∃ v added, getProfile api env tr = some (.ok v, tr ++ added) := by
  obtain ⟨r, added, hrun, _⟩ := apiRequest_total api env.net
    (api.baseURL ++ "/profile?limit=1") noOptions tr
  cases r with
  | error e =>
    exact ⟨.null, added ++ [.consoleError "Failed to get profile:" e],
      by simp only [getProfile, hrun, List.append_assoc]⟩
  | ok response =>
    cases hfirst : firstRecord response with
    | error e =>
      exact ⟨.null, added ++ [.consoleError "Failed to get profile:" e],
        by simp only [getProfile, hrun, hfirst, List.append_assoc]⟩
    | ok v => exact ⟨v, added, by simp only [getProfile, hrun, hfirst]⟩

/-- C25: `getProfile` never fails.  It returns the first record of the response data,
and `null` when the data is empty or absent or when the lookup request fails; in that
last case `updateProfile` does not fail at the lookup but goes on to a create, every
transport call of which is a POST to `<base>/profile`. -/
theorem getProfile_never_fails (api : PortfolioAPI) (env : Env) (profileData : JsObj)
    (tr : List Event) :
    (∃ v added, getProfile api env tr = some (.ok v, tr ++ added))
    ∧ (∀ fields p rest tr1,
        apiRequest api env.net (api.baseURL ++ "/profile?limit=1") noOptions tr
          = some (.ok (.obj fields), tr1) →
        lookupField fields "data" = .arr (p :: rest) →
        getProfile api env tr = some (.ok p, tr1))
    ∧ (∀ fields tr1,
        apiRequest api env.net (api.baseURL ++ "/profile?limit=1") noOptions tr
          = some (.ok (.obj fields), tr1) →
        lookupField fields "data" = .arr [] →
        getProfile api env tr = some (.ok .null, tr1))
    ∧ (∀ fields tr1,
        apiRequest api env.net (api.baseURL ++ "/profile?limit=1") noOptions tr
          = some (.ok (.obj fields), tr1) →
        (lookupField fields "data").truthy = false →
        getProfile api env tr = some (.ok .null, tr1))
    ∧ (∀ e tr1,
        apiRequest api env.net (api.baseURL ++ "/profile?limit=1") noOptions tr
          = some (.error e, tr1) →
        getProfile api env tr
            = some (.ok .null, tr1 ++ [.consoleError "Failed to get profile:" e])
          ∧ ∃ r added, updateProfile api env profileData tr
              = some (r, (tr1 ++ [.consoleError "Failed to get profile:" e]) ++ added)
            ∧ (∀ ev ∈ added, ev.isFetch = true →
                ev = .fetch (api.baseURL ++ "/profile")
                  { method := some "POST", headers := some defaultHeaders,
                    body := some (.obj (setField profileData "updated_at"
                      (env.now (tr1 ++ [.consoleError "Failed to get profile:" e])))) })
            ∧ (1 ≤ api.retryCount → 1 ≤ fetchCount added)) := by
  refine ⟨getProfile_total api env tr, ?_, ?_, ?_, ?_⟩
  · intro fields p rest tr1 hrun hdata
    simp [getProfile, hrun, firstRecord, propOf, JsVal.get, hdata, JsVal.truthy,
      lengthPositive, firstElement]
  · intro fields tr1 hrun hdata
    simp [getProfile, hrun, firstRecord, propOf, JsVal.get, hdata, JsVal.truthy,
      lengthPositive]
  · intro fields tr1 hrun hdata
    simp [getProfile, hrun, firstRecord, propOf, JsVal.get, hdata]
  · intro e tr1 hrun
    have hlookup : getProfile api env tr
        = some (.ok .null, tr1 ++ [.consoleError "Failed to get profile:" e]) := by
      simp only [getProfile, hrun]
    refine ⟨hlookup, ?_⟩
    obtain ⟨r, added, hwrite, hfetch, hcalls, _⟩ := apiRequest_requests api env.net
      (api.baseURL ++ "/profile")
      { method := some "POST", headers := none,
        body := some (.obj (setField profileData "updated_at"
          (env.now (tr1 ++ [.consoleError "Failed to get profile:" e])))) }
      (tr1 ++ [.consoleError "Failed to get profile:" e])
    cases r with
    | error e2 =>
      refine ⟨.error e2, added ++ [.consoleError "Failed to update profile:" e2],
        by simp [updateProfile, hlookup, JsVal.truthy, hwrite], ?_, ?_⟩
      · intro ev hmem hf
        rcases List.mem_append.mp hmem with h1 | h1
        · exact hfetch ev h1 hf
        · rw [List.mem_singleton.mp h1] at hf; simp [Event.isFetch] at hf
      · intro hN
        rw [fetchCount_append]; exact Nat.le_add_right_of_le (hcalls hN)
    | ok v =>
      exact ⟨.ok v, added, by simp [updateProfile, hlookup, JsVal.truthy, hwrite],
        hfetch, hcalls⟩

/-- C25 behind a transport that rejects every call: the lookup is exhausted after three
calls, `getProfile` yields `null`, and `updateProfile` goes on to at least one more
transport call. -/
theorem getProfile_never_fails_witness :
    getProfile PortfolioAPI.constructor emptyFormEnv []
        = some (.ok .null, deadLookupTrace ++ [.consoleError "Failed to get profile:" ⟨"down 2"⟩])
      ∧ ∃ r added, updateProfile PortfolioAPI.constructor emptyFormEnv sampleProfile []
          = some (r, (deadLookupTrace
              ++ [.consoleError "Failed to get profile:" ⟨"down 2"⟩]) ++ added)
        ∧ 1 ≤ fetchCount added := by
  obtain ⟨hnull, r, added, hrun, _, hcalls⟩ :=
    (getProfile_never_fails PortfolioAPI.constructor emptyFormEnv sampleProfile []).2.2.2.2
      ⟨"down 2"⟩ deadLookupTrace rfl
  exact ⟨hnull, r, added, hrun, hcalls (by decide)⟩

/-- C26: with `retryCount ≤ 0` the loop body is never entered: `apiRequest` makes no
transport call, adds no event, and resolves with `undefined`; with `retryCount ≥ 1` it
makes at least one transport call and its result is the outcome of one of its attempts,
a value taken from a response or an error. -/
theorem apiRequest_without_attempts (api : PortfolioAPI) (net : Transport) (url : String)
    (options : RequestOptions) (tr : List Event) :
    (api.retryCount ≤ 0 → apiRequest api net url options tr = some (.ok .undefined, tr))
    ∧ (1 ≤ api.retryCount →
        ∃ r added c, apiRequest api net url options tr = some (r, tr ++ added)
          ∧ 1 ≤ fetchCount added
          ∧ r = attemptOutcome (net c url (mergeOptions options))) := by
  constructor
  · intro hN
    unfold apiRequest
    exact apiRequestLoop_exit api net url (mergeOptions options) _ 1 tr (by omega)
  · intro hN
    obtain ⟨r, added, hrun, hcalls⟩ := apiRequest_total api net url options tr
    obtain ⟨c, _, hr⟩ := apiRequestLoop_result api net url (mergeOptions options)
      _ _ _ _ _ hrun hN
    exact ⟨r, added, c, hrun, hcalls hN, hr⟩

/-- C26 on a client reconfigured to `retryCount = 0`: no transport call, result
`undefined`. -/
theorem apiRequest_without_attempts_witness :
    apiRequest { PortfolioAPI.constructor with retryCount := 0 } flakyTransport
      "/tables/projects" noOptions [] = some (.ok .undefined, []) :=
  (apiRequest_without_attempts { PortfolioAPI.constructor with retryCount := 0 }
    flakyTransport "/tables/projects" noOptions []).1 (by decide)

/-- On the success path `loadPortfolioDataFromAPI` ends with `loadingState` false. -/
theorem loadPortfolioDataFromAPI_of_success (env : Env) (m : Manager) (response : JsVal)
    (data : JsVal) (tr1 : List Event)
    (h : getProjects m.api env 1 100 "" "created_at" m.trace = some (.ok response, tr1))
    (hdata : propOf response "data" = .ok data)
    (hrender : env.renderThrows "portfolio-grid" (if data.truthy then data else .arr []) = none) :
    ∃ m', loadPortfolioDataFromAPI env m = some (.ok (), m') ∧ m'.loadingState = false := by
  simp [loadPortfolioDataFromAPI, setLoadingState, h, portfolioLoaded, hdata, renderView,
    hrender]

/-- C27, at a failing input: a fresh manager, whose `loadingState` is false, behind a
transport that rejects every call.  When `loadPortfolioDataFromAPI` finishes, by
rejecting with the `TypeError` of `super.loadPortfolioData()`, `loadingState` is
`true`: the `setLoadingState(false)` of the failure path was not reached. -/
theorem loadPortfolioDataFromAPI_leaves_loading_set :
    freshManager.loadingState = false
    ∧ ∃ e m', loadPortfolioDataFromAPI emptyFormEnv freshManager = some (.error e, m')
        ∧ m'.loadingState = true :=
  ⟨rfl, _, _, loadPortfolioDataFromAPI_of_failure emptyFormEnv freshManager ⟨"down 2"⟩ _ rfl,
    rfl⟩

/-! ## Tag parsing -/

theorem splitOnComma_ne_nil (cs : List Char) : splitOnComma cs ≠ [] := by
  induction cs with
  | nil => simp [splitOnComma]
  | cons c cs ih =>
    unfold splitOnComma
    split
    · simp
    · split <;> simp

theorem intercalate_cons_cons (sep x y : List Char) (rest : List (List Char)) :
    List.intercalate sep (x :: y :: rest) = x ++ sep ++ List.intercalate sep (y :: rest) := by
  simp [List.intercalate, List.intersperse]

/-- Joining the pieces with commas gives the input back. -/
theorem intercalate_splitOnComma (cs : List Char) :
    List.intercalate [','] (splitOnComma cs) = cs := by
  induction cs with
  | nil => simp [splitOnComma, List.intercalate, List.intersperse]
  | cons c cs ih =>
    unfold splitOnComma
    by_cases hc : c = ','
    · rw [if_pos hc]
      cases hs : splitOnComma cs with
      | nil => exact absurd hs (splitOnComma_ne_nil cs)
      | cons y rest =>
        rw [intercalate_cons_cons, ← hs, ih, hc]
        rfl
    · rw [if_neg hc]
      cases hs : splitOnComma cs with
      | nil => exact absurd hs (splitOnComma_ne_nil cs)
      | cons y rest =>
        rw [hs] at ih
        cases rest with
        | nil =>
          simp only [List.intercalate, List.intersperse, List.flatten_cons, List.flatten_nil,
            List.append_nil] at ih ⊢
          rw [ih]
        | cons z rest' =>
          rw [intercalate_cons_cons] at ih ⊢
          simp only [List.cons_append, List.append_assoc] at ih ⊢
          rw [ih]

/-- No piece contains a comma. -/
theorem comma_not_mem_splitOnComma (cs : List Char) :
    ∀ piece ∈ splitOnComma cs, ',' ∉ piece := by
  induction cs with
  | nil => simp [splitOnComma]
  | cons c cs ih =>
    unfold splitOnComma
    by_cases hc : c = ','
    · rw [if_pos hc]
      intro piece hp
      rcases List.mem_cons.mp hp with rfl | h
      · simp
      · exact ih piece h
    · rw [if_neg hc]
      cases hs : splitOnComma cs with
      | nil => exact absurd hs (splitOnComma_ne_nil cs)
      | cons y rest =>
        rw [hs] at ih
        intro piece hp
        rcases List.mem_cons.mp hp with rfl | h
        · intro hmem
          rcases List.mem_cons.mp hmem with h1 | h1
          · exact hc h1.symm
          · exact ih y (List.mem_cons_self _ _) h1
        · exact ih piece (List.mem_cons_of_mem _ h)

/-- The characters of a piece are characters of the input. -/
theorem mem_of_mem_splitOnComma (cs : List Char) :
    ∀ piece ∈ splitOnComma cs, ∀ c ∈ piece, c ∈ cs := by
  induction cs with
  | nil => simp [splitOnComma]
  | cons c cs ih =>
    unfold splitOnComma
    by_cases hc : c = ','
    · rw [if_pos hc]
      intro piece hp x hx
      rcases List.mem_cons.mp hp with rfl | h
      · simp at hx
      · exact List.mem_cons_of_mem _ (ih piece h x hx)
    · rw [if_neg hc]
      cases hs : splitOnComma cs with
      | nil => exact absurd hs (splitOnComma_ne_nil cs)
      | cons y rest =>
        rw [hs] at ih
        intro piece hp x hx
        rcases List.mem_cons.mp hp with rfl | h
        · rcases List.mem_cons.mp hx with h1 | h1
          · rw [h1]; exact List.mem_cons_self _ _
          · exact List.mem_cons_of_mem _ (ih y (List.mem_cons_self _ _) x h1)
        · exact List.mem_cons_of_mem _ (ih piece (List.mem_cons_of_mem _ h) x hx)

/-- Trimming removes a prefix and a suffix of white space, and what is left neither
starts nor ends with white space. -/
theorem trimChars_spec (cs : List Char) :
    (∃ pre post, cs = pre ++ trimChars cs ++ post
        ∧ (∀ c ∈ pre, isWhiteSpace c = true) ∧ (∀ c ∈ post, isWhiteSpace c = true))
    ∧ (∀ c, (trimChars cs).head? = some c → isWhiteSpace c = false)
    ∧ (∀ c, (trimChars cs).getLast? = some c → isWhiteSpace c = false) := by
  have h1 := List.takeWhile_append_dropWhile isWhiteSpace cs
  have h2 := List.takeWhile_append_dropWhile isWhiteSpace (cs.dropWhile isWhiteSpace).reverse
  have h3 : cs.dropWhile isWhiteSpace
      = trimChars cs ++ ((cs.dropWhile isWhiteSpace).reverse.takeWhile isWhiteSpace).reverse := by
    have := congrArg List.reverse h2
    simp only [List.reverse_append, List.reverse_reverse] at this
    exact this.symm
  have hlast : ∀ c, (trimChars cs).getLast? = some c → isWhiteSpace c = false := by
    intro c hc
    unfold trimChars at hc
    rw [List.getLast?_reverse] at hc
    have := List.head?_dropWhile_not isWhiteSpace (cs.dropWhile isWhiteSpace).reverse
    rw [hc] at this
    exact this
  refine ⟨⟨cs.takeWhile isWhiteSpace,
    ((cs.dropWhile isWhiteSpace).reverse.takeWhile isWhiteSpace).reverse, ?_, ?_, ?_⟩, ?_, hlast⟩
  · rw [List.append_assoc, ← h3, h1]
  · intro c hc; exact List.mem_takeWhile_imp hc
  · intro c hc; exact List.mem_takeWhile_imp (List.mem_reverse.mp hc)
  · intro c hc
    have hhead : (cs.dropWhile isWhiteSpace).head? = some c := by
      rw [h3, List.head?_append, hc]; rfl
    have := List.head?_dropWhile_not isWhiteSpace cs
    rw [hhead] at this
    exact this

/-- A piece of white space only is trimmed to nothing. -/
theorem trimChars_eq_nil (cs : List Char) (h : ∀ c ∈ cs, isWhiteSpace c = true) :
    trimChars cs = [] := by
  have : cs.dropWhile isWhiteSpace = [] := by
    rw [List.dropWhile_eq_nil_iff]; exact h
  simp [trimChars, this]

/-- The tags of an input, as lists of characters: no tag is empty, none starts or ends
with white space, and each is the trimmed form of a piece. -/
theorem parseTags_tag_spec (value : String) :
    ∀ tag ∈ parseTags value,
      tag ≠ ""
      ∧ (∃ piece ∈ splitOnComma value.toList, tag = String.mk (trimChars piece))
      ∧ (∀ c, tag.toList.head? = some c → isWhiteSpace c = false)
      ∧ (∀ c, tag.toList.getLast? = some c → isWhiteSpace c = false) := by
  intro tag htag
  simp only [parseTags, List.mem_map, List.mem_filter] at htag
  obtain ⟨chars, ⟨⟨piece, hpiece, rfl⟩, hne⟩, rfl⟩ := htag
  refine ⟨?_, ⟨piece, hpiece, rfl⟩, (trimChars_spec piece).2.1, (trimChars_spec piece).2.2⟩
  intro h
  have : trimChars piece = [] := by
    have := congrArg String.toList h
    simpa using this
  simp [this] at hne

/-- An input that is empty or made of commas and white space only has no tags. -/
theorem parseTags_eq_nil (value : String)
    (h : ∀ c ∈ value.toList, c = ',' ∨ isWhiteSpace c = true) : parseTags value = [] := by
  have hall : ∀ piece ∈ splitOnComma value.toList, trimChars piece = [] := by
    intro piece hp
    apply trimChars_eq_nil
    intro c hc
    rcases h c (mem_of_mem_splitOnComma _ piece hp c hc) with h1 | h1
    · exact absurd (h1 ▸ hc) (comma_not_mem_splitOnComma _ piece hp)
    · exact h1
  simp only [parseTags, List.map_eq_nil_iff, List.filter_eq_nil_iff, List.mem_map,
    forall_exists_index, and_imp, forall_apply_eq_imp_iff₂]
  intro piece hp
  simp [hall piece hp]

/-- The project built by `projectFromForm` starts with an empty `tags` list. -/
theorem projectFromForm_tags (env : Env) (formData : String → JsVal) (project : JsObj)
    (h : projectFromForm env formData = .ok project) :
    lookupField project "tags" = .arr [] := by
  unfold projectFromForm at h
  cases h1 : orElementValue env (formData "title") "project-title" <;>
    simp only [h1, bind, Except.bind] at h <;> try cases h
  cases h2 : orElementValue env (formData "category") "project-category" <;>
    simp only [h2] at h <;> try cases h
  cases h3 : orElementValue env (formData "description") "project-description" <;>
    simp only [h3] at h <;> try cases h
  cases h4 : orElementValue env (formData "thumbnail") "project-thumbnail" <;>
    simp only [h4] at h <;> try cases h
  cases h5 : orElementValue env (formData "video") "project-video" <;>
    simp only [h5] at h <;> try cases h
  cases h6 : orElementValue env (formData "links") "project-links" <;>
    simp only [h6] at h <;> try cases h
  simp [lookupField]

/-! ## Local deletion -/

/-- C22: in all three managers a declined confirmation makes `deleteProject` return at
once: the local store and the events are exactly what they were (no write, no transport
request, no notification); so whenever the store or the events have changed, the
confirmation was given. -/
theorem deleteProject_declined_changes_nothing (B : LocalBrowser) (env : Env)
    (projectId : JsVal) (w : LocalWorld) (m : Manager) :
    SimplePortfolioManager.deleteProject B false projectId w = w
    ∧ PortfolioManager.deleteProject B false projectId w = w
    ∧ EnhancedPortfolioManager.deleteProject env false projectId m = some m
    ∧ (∀ confirmed, SimplePortfolioManager.deleteProject B confirmed projectId w ≠ w →
        confirmed = true)
    ∧ (∀ confirmed, PortfolioManager.deleteProject B confirmed projectId w ≠ w →
        confirmed = true)
    ∧ (∀ confirmed, EnhancedPortfolioManager.deleteProject env confirmed projectId m ≠ some m →
        confirmed = true) := by
  refine ⟨rfl, rfl, rfl, ?_, ?_, ?_⟩ <;> intro confirmed h <;> cases confirmed <;>
    first
      | rfl
      | exact absurd rfl h

/-- C22 on a store that holds one project: a declined deletion leaves it there. -/
theorem deleteProject_declined_changes_nothing_witness :
    SimplePortfolioManager.deleteProject tableBrowser false (.str "1") oneProjectWorld
      = oneProjectWorld :=
  (deleteProject_declined_changes_nothing tableBrowser emptyFormEnv (.str "1")
    oneProjectWorld freshManager).1

/-- The relation between a state and a later one in which the store is the same and
events were only added: what rendering and notifying do. -/
theorem renderView_keeps_store (B : LocalBrowser) (w : LocalWorld) (view : String)
    (data : JsVal) :
    (w.renderView B view data).2.storage = w.storage
      ∧ ∃ rest, (w.renderView B view data).2.events = w.events ++ rest := by
  unfold LocalWorld.renderView
  split <;> exact ⟨rfl, _, rfl⟩

theorem simple_loadPortfolioData_keeps_store (B : LocalBrowser) (w : LocalWorld) :
    (SimplePortfolioManager.loadPortfolioData B w).2.storage = w.storage
      ∧ ∃ rest, (SimplePortfolioManager.loadPortfolioData B w).2.events = w.events ++ rest := by
  unfold SimplePortfolioManager.loadPortfolioData
  split
  · exact ⟨rfl, [], by simp⟩
  · exact renderView_keeps_store B w _ _

theorem simple_loadAdminProjects_keeps_store (B : LocalBrowser) (w : LocalWorld) :
    (SimplePortfolioManager.loadAdminProjects B w).2.storage = w.storage
      ∧ ∃ rest, (SimplePortfolioManager.loadAdminProjects B w).2.events = w.events ++ rest := by
  unfold SimplePortfolioManager.loadAdminProjects
  split
  · exact ⟨rfl, [], by simp⟩
  · exact renderView_keeps_store B w _ _

theorem main_loadPortfolioData_keeps_store (B : LocalBrowser) (w : LocalWorld) :
    (PortfolioManager.loadPortfolioData B w).storage = w.storage
      ∧ ∃ rest, (PortfolioManager.loadPortfolioData B w).events = w.events ++ rest := by
  unfold PortfolioManager.loadPortfolioData
  split
  · exact ⟨rfl, [], by simp⟩
  · exact renderView_keeps_store B w _ _

theorem main_loadAdminProjects_keeps_store (B : LocalBrowser) (w : LocalWorld) :
    (PortfolioManager.loadAdminProjects B w).2.storage = w.storage
      ∧ ∃ rest, (PortfolioManager.loadAdminProjects B w).2.events = w.events ++ rest := by
  unfold PortfolioManager.loadAdminProjects
  split
  · exact ⟨rfl, [], by simp⟩
  · exact renderView_keeps_store B w _ _

theorem simple_reloadViews_keeps_store (B : LocalBrowser) (w : LocalWorld) :
    (SimplePortfolioManager.reloadViews B w).2.storage = w.storage
      ∧ ∃ rest, (SimplePortfolioManager.reloadViews B w).2.events = w.events ++ rest := by
  obtain ⟨hs1, r1, he1⟩ := simple_loadPortfolioData_keeps_store B w
  unfold SimplePortfolioManager.reloadViews
  cases hload : SimplePortfolioManager.loadPortfolioData B w with
  | mk res wa =>
    rw [hload] at hs1 he1
    simp only at hs1 he1
    cases res with
    | error e => exact ⟨hs1, r1, he1⟩
    | ok u =>
      obtain ⟨hs2, r2, he2⟩ := simple_loadAdminProjects_keeps_store B wa
      exact ⟨by simp [hs2, hs1], r1 ++ r2, by simp [he2, he1]⟩

theorem main_reloadViews_keeps_store (B : LocalBrowser) (w : LocalWorld) :
    (PortfolioManager.reloadViews B w).2.storage = w.storage
      ∧ ∃ rest, (PortfolioManager.reloadViews B w).2.events = w.events ++ rest := by
  obtain ⟨hs1, r1, he1⟩ := main_loadPortfolioData_keeps_store B w
  obtain ⟨hs2, r2, he2⟩ := main_loadAdminProjects_keeps_store B
    (PortfolioManager.loadPortfolioData B w)
  unfold PortfolioManager.reloadViews
  exact ⟨by simp [hs2, hs1], r1 ++ r2, by simp [he2, he1]⟩

/-- The `catch` block keeps the store and only adds events. -/
theorem caught_keeps_store (failure : String) (r : Except JsError Unit × LocalWorld) :
    (caught failure r).storage = r.2.storage
      ∧ ∃ rest, (caught failure r).events = r.2.events ++ rest := by
  obtain ⟨res, w⟩ := r
  cases res with
  | error e => exact ⟨rfl, [.notification failure "error"], rfl⟩
  | ok u => exact ⟨rfl, [], by simp [caught]⟩

/-- The filter of the local deletion on records none of which is `null`. -/
theorem filterStored_keepOtherId (projectId : JsVal) (L : List JsVal)
    (hrec : ∀ p ∈ L, p ≠ .null ∧ p ≠ .undefined) :
    filterStored (keepOtherId projectId) (.arr L)
      = .ok (L.filter (fun p => !strictEquals (p.get "id") projectId)) := by
  unfold filterStored
  exact filterRecords_eq_filter _ _ L
    (fun p hp => by simp [keepOtherId, propOf_of_ne p "id" (hrec p hp).1 (hrec p hp).2])

/-- A confirmed deletion in `SimplePortfolioManager` when the getter reads the list `L`:
the store is written with the filtered list, the success is notified, and after that
only events are added. -/
theorem simple_delete_of_read (B : LocalBrowser) (w : LocalWorld) (projectId : JsVal)
    (L : List JsVal)
    (hread : SimplePortfolioManager.getStoredProjects (B.reader w) = .ok (.arr L))
    (hrec : ∀ p ∈ L, p ≠ .null ∧ p ≠ .undefined) :
    (SimplePortfolioManager.deleteProject B true projectId w).storage
        = (w.setItem "portfolio_projects" (B.jsonStringify
            (.arr (L.filter (fun p => !strictEquals (p.get "id") projectId))))).storage
      ∧ ∃ rest, (SimplePortfolioManager.deleteProject B true projectId w).events
          = w.events ++ .notification "Project deleted successfully!" "success" :: rest := by
  have htry : SimplePortfolioManager.deleteTry B projectId w
      = SimplePortfolioManager.reloadViews B
          ((w.setItem "portfolio_projects" (B.jsonStringify
            (.arr (L.filter (fun p => !strictEquals (p.get "id") projectId))))).showNotification
            "Project deleted successfully!" "success") := by
    simp only [SimplePortfolioManager.deleteTry, hread, deleteStored,
      filterStored_keepOtherId projectId L hrec]
  obtain ⟨hs1, r1, he1⟩ := simple_reloadViews_keeps_store B
    ((w.setItem "portfolio_projects" (B.jsonStringify
      (.arr (L.filter (fun p => !strictEquals (p.get "id") projectId))))).showNotification
      "Project deleted successfully!" "success")
  obtain ⟨hs2, r2, he2⟩ := caught_keeps_store "Failed to delete project"
    (SimplePortfolioManager.deleteTry B projectId w)
  rw [htry] at hs2 he2
  have hdel : SimplePortfolioManager.deleteProject B true projectId w
      = caught "Failed to delete project" (SimplePortfolioManager.deleteTry B projectId w) := rfl
  rw [hdel, htry]
  refine ⟨by rw [hs2, hs1]; rfl, r1 ++ r2, ?_⟩
  rw [he2, he1]
  simp [LocalWorld.showNotification, LocalWorld.setItem]

/-- The same for `PortfolioManager`. -/
theorem main_delete_of_read (B : LocalBrowser) (w : LocalWorld) (projectId : JsVal)
    (L : List JsVal)
    (hread : PortfolioManager.getStoredProjects (B.reader w) = .ok (.arr L))
    (hrec : ∀ p ∈ L, p ≠ .null ∧ p ≠ .undefined) :
    (PortfolioManager.deleteProject B true projectId w).storage
        = (w.setItem "portfolio_projects" (B.jsonStringify
            (.arr (L.filter (fun p => !strictEquals (p.get "id") projectId))))).storage
      ∧ ∃ rest, (PortfolioManager.deleteProject B true projectId w).events
          = w.events ++ .notification "Project deleted successfully!" "success" :: rest := by
  have htry : PortfolioManager.deleteTry B projectId w
      = PortfolioManager.reloadViews B
          ((w.setItem "portfolio_projects" (B.jsonStringify
            (.arr (L.filter (fun p => !strictEquals (p.get "id") projectId))))).showNotification
            "Project deleted successfully!" "success") := by
    simp only [PortfolioManager.deleteTry, hread, deleteStored,
      filterStored_keepOtherId projectId L hrec]
  obtain ⟨hs1, r1, he1⟩ := main_reloadViews_keeps_store B
    ((w.setItem "portfolio_projects" (B.jsonStringify
      (.arr (L.filter (fun p => !strictEquals (p.get "id") projectId))))).showNotification
      "Project deleted successfully!" "success")
  obtain ⟨hs2, r2, he2⟩ := caught_keeps_store "Failed to delete project"
    (PortfolioManager.deleteTry B projectId w)
  rw [htry] at hs2 he2
  have hdel : PortfolioManager.deleteProject B true projectId w
      = caught "Failed to delete project" (PortfolioManager.deleteTry B projectId w) := rfl
  rw [hdel, htry]
  refine ⟨by rw [hs2, hs1]; rfl, r1 ++ r2, ?_⟩
  rw [he2, he1]
  simp [LocalWorld.showNotification, LocalWorld.setItem]

/-- Both getters read a non-empty entry through the decoder. -/
theorem getStoredProjects_of_entry (B : LocalBrowser) (w : LocalWorld) (s : String)
    (hs : w.storage "portfolio_projects" = some s) (hne : s ≠ "") :
    SimplePortfolioManager.getStoredProjects (B.reader w) = B.jsonParse s
      ∧ PortfolioManager.getStoredProjects (B.reader w) = B.jsonParse s := by
  simp [SimplePortfolioManager.getStoredProjects, PortfolioManager.getStoredProjects,
    LocalBrowser.reader, hs, hne]

/-- A confirmed deletion in `SimplePortfolioManager` of the records with id `projectId` from a
stored list `L`, and the same deletion once more. -/
theorem simple_delete_entry (B : LocalBrowser) (w : LocalWorld) (projectId : JsVal)
    (s : String) (L : List JsVal)
    (hs : w.storage "portfolio_projects" = some s) (hne : s ≠ "")
    (hparse : B.jsonParse s = .ok (.arr L))
    (hrec : ∀ p ∈ L, p ≠ .null ∧ p ≠ .undefined) :
    (((SimplePortfolioManager.deleteProject B true projectId w).storage "portfolio_projects"
          = some (B.jsonStringify
              (.arr (L.filter (fun p => !strictEquals (p.get "id") projectId)))))
      ∧ (∀ k, k ≠ "portfolio_projects" →
          (SimplePortfolioManager.deleteProject B true projectId w).storage k = w.storage k)
      ∧ ∃ rest, (SimplePortfolioManager.deleteProject B true projectId w).events
          = w.events ++ .notification "Project deleted successfully!" "success" :: rest)
    ∧ (B.jsonStringify (.arr (L.filter (fun p => !strictEquals (p.get "id") projectId))) ≠ "" →
        B.jsonParse (B.jsonStringify
            (.arr (L.filter (fun p => !strictEquals (p.get "id") projectId))))
          = .ok (.arr (L.filter (fun p => !strictEquals (p.get "id") projectId))) →
        (SimplePortfolioManager.deleteProject B true projectId
            (SimplePortfolioManager.deleteProject B true projectId w)).storage
          = (SimplePortfolioManager.deleteProject B true projectId w).storage
        ∧ ∃ rest, (SimplePortfolioManager.deleteProject B true projectId
              (SimplePortfolioManager.deleteProject B true projectId w)).events
            = (SimplePortfolioManager.deleteProject B true projectId w).events
              ++ .notification "Project deleted successfully!" "success" :: rest) := by
  have hread : SimplePortfolioManager.getStoredProjects (B.reader w) = .ok (.arr L) := by
    rw [← hparse]
    exact (getStoredProjects_of_entry B w s hs hne).1
  obtain ⟨hst, hev⟩ := simple_delete_of_read B w projectId L hread hrec
  have hkey : (SimplePortfolioManager.deleteProject B true projectId w).storage "portfolio_projects"
      = some (B.jsonStringify
          (.arr (L.filter (fun p => !strictEquals (p.get "id") projectId)))) := by
    rw [hst]; simp [LocalWorld.setItem]
  refine ⟨⟨hkey, ?_, hev⟩, ?_⟩
  · intro k hk
    rw [hst]; simp [LocalWorld.setItem, hk]
  · intro htext hround
    have hrec2 : ∀ p ∈ L.filter (fun p => !strictEquals (p.get "id") projectId),
        p ≠ .null ∧ p ≠ .undefined := fun p hp => hrec p (List.mem_filter.mp hp).1
    have hread2 : SimplePortfolioManager.getStoredProjects
        (B.reader (SimplePortfolioManager.deleteProject B true projectId w))
        = .ok (.arr (L.filter (fun p => !strictEquals (p.get "id") projectId))) := by
      rw [← hround]
      exact (getStoredProjects_of_entry B _ _ hkey htext).1
    obtain ⟨hst2, hev2⟩ := simple_delete_of_read B _ projectId _ hread2 hrec2
    refine ⟨?_, hev2⟩
    rw [hst2, List.filter_filter]
    funext k
    by_cases hk : k = "portfolio_projects"
    · subst hk
      simp [LocalWorld.setItem, hkey]
    · simp [LocalWorld.setItem, hk]

/-- A confirmed deletion in `PortfolioManager` of the records with id `projectId` from a
stored list `L`, and the same deletion once more. -/
theorem main_delete_entry (B : LocalBrowser) (w : LocalWorld) (projectId : JsVal)
    (s : String) (L : List JsVal)
    (hs : w.storage "portfolio_projects" = some s) (hne : s ≠ "")
    (hparse : B.jsonParse s = .ok (.arr L))
    (hrec : ∀ p ∈ L, p ≠ .null ∧ p ≠ .undefined) :
    (((PortfolioManager.deleteProject B true projectId w).storage "portfolio_projects"
          = some (B.jsonStringify
              (.arr (L.filter (fun p => !strictEquals (p.get "id") projectId)))))
      ∧ (∀ k, k ≠ "portfolio_projects" →
          (PortfolioManager.deleteProject B true projectId w).storage k = w.storage k)
      ∧ ∃ rest, (PortfolioManager.deleteProject B true projectId w).events
          = w.events ++ .notification "Project deleted successfully!" "success" :: rest)
    ∧ (B.jsonStringify (.arr (L.filter (fun p => !strictEquals (p.get "id") projectId))) ≠ "" →
        B.jsonParse (B.jsonStringify
            (.arr (L.filter (fun p => !strictEquals (p.get "id") projectId))))
          = .ok (.arr (L.filter (fun p => !strictEquals (p.get "id") projectId))) →
        (PortfolioManager.deleteProject B true projectId
            (PortfolioManager.deleteProject B true projectId w)).storage
          = (PortfolioManager.deleteProject B true projectId w).storage
        ∧ ∃ rest, (PortfolioManager.deleteProject B true projectId
              (PortfolioManager.deleteProject B true projectId w)).events
            = (PortfolioManager.deleteProject B true projectId w).events
              ++ .notification "Project deleted successfully!" "success" :: rest) := by
  have hread : PortfolioManager.getStoredProjects (B.reader w) = .ok (.arr L) := by
    rw [← hparse]
    exact (getStoredProjects_of_entry B w s hs hne).2
  obtain ⟨hst, hev⟩ := main_delete_of_read B w projectId L hread hrec
  have hkey : (PortfolioManager.deleteProject B true projectId w).storage "portfolio_projects"
      = some (B.jsonStringify
          (.arr (L.filter (fun p => !strictEquals (p.get "id") projectId)))) := by
    rw [hst]; simp [LocalWorld.setItem]
  refine ⟨⟨hkey, ?_, hev⟩, ?_⟩
  · intro k hk
    rw [hst]; simp [LocalWorld.setItem, hk]
  · intro htext hround
    have hrec2 : ∀ p ∈ L.filter (fun p => !strictEquals (p.get "id") projectId),
        p ≠ .null ∧ p ≠ .undefined := fun p hp => hrec p (List.mem_filter.mp hp).1
    have hread2 : PortfolioManager.getStoredProjects
        (B.reader (PortfolioManager.deleteProject B true projectId w))
        = .ok (.arr (L.filter (fun p => !strictEquals (p.get "id") projectId))) := by
      rw [← hround]
      exact (getStoredProjects_of_entry B _ _ hkey htext).2
    obtain ⟨hst2, hev2⟩ := main_delete_of_read B _ projectId _ hread2 hrec2
    refine ⟨?_, hev2⟩
    rw [hst2, List.filter_filter]
    funext k
    by_cases hk : k = "portfolio_projects"
    · subst hk
      simp [LocalWorld.setItem, hkey]
    · simp [LocalWorld.setItem, hk]

/-- C28: for every stored project list `L` (records, none of them `null`) and every id,
a confirmed local `deleteProject` in either local-store manager leaves the store holding
exactly the records of `L` whose id is not strictly equal to the given one, all copies
of a matching record removed and the others kept in their order, the other keys
untouched; applied a second time, with the text just written read back as that list, it
leaves the store as it is. -/
theorem local_delete_is_filter (B : LocalBrowser) (w : LocalWorld) (projectId : JsVal)
    (s : String) (L : List JsVal)
    (hs : w.storage "portfolio_projects" = some s) (hne : s ≠ "")
    (hparse : B.jsonParse s = .ok (.arr L))
    (hrec : ∀ p ∈ L, p ≠ .null ∧ p ≠ .undefined) :
    (SimplePortfolioManager.deleteProject B true projectId w).storage "portfolio_projects"
        = some (B.jsonStringify
            (.arr (L.filter (fun p => !strictEquals (p.get "id") projectId))))
    ∧ (PortfolioManager.deleteProject B true projectId w).storage "portfolio_projects"
        = some (B.jsonStringify
            (.arr (L.filter (fun p => !strictEquals (p.get "id") projectId))))
    ∧ (∀ k, k ≠ "portfolio_projects" →
        (SimplePortfolioManager.deleteProject B true projectId w).storage k = w.storage k
          ∧ (PortfolioManager.deleteProject B true projectId w).storage k = w.storage k)
    ∧ (∀ p, p ∈ L.filter (fun p => !strictEquals (p.get "id") projectId)
        ↔ p ∈ L ∧ strictEquals (p.get "id") projectId = false)
    ∧ (L.filter (fun p => !strictEquals (p.get "id") projectId)).Sublist L
    ∧ (B.jsonStringify (.arr (L.filter (fun p => !strictEquals (p.get "id") projectId))) ≠ "" →
        B.jsonParse (B.jsonStringify
            (.arr (L.filter (fun p => !strictEquals (p.get "id") projectId))))
          = .ok (.arr (L.filter (fun p => !strictEquals (p.get "id") projectId))) →
        (SimplePortfolioManager.deleteProject B true projectId
            (SimplePortfolioManager.deleteProject B true projectId w)).storage
          = (SimplePortfolioManager.deleteProject B true projectId w).storage
        ∧ (PortfolioManager.deleteProject B true projectId
            (PortfolioManager.deleteProject B true projectId w)).storage
          = (PortfolioManager.deleteProject B true projectId w).storage) := by
  obtain ⟨⟨h1, h2, _⟩, h3⟩ := simple_delete_entry B w projectId s L hs hne hparse hrec
  obtain ⟨⟨g1, g2, _⟩, g3⟩ := main_delete_entry B w projectId s L hs hne hparse hrec
  refine ⟨h1, g1, fun k hk => ⟨h2 k hk, g2 k hk⟩, ?_, List.filter_sublist _, ?_⟩
  · intro p
    simp [List.mem_filter]
  · intro htext hround
    exact ⟨(h3 htext hround).1, (g3 htext hround).1⟩

/-- C28 on the store that holds the one project with id `1`: after the confirmed
deletion of `1` the store holds the empty list. -/
theorem local_delete_is_filter_witness :
    (SimplePortfolioManager.deleteProject tableBrowser true (.str "1")
        oneProjectWorld).storage "portfolio_projects" = some "[]" :=
  (local_delete_is_filter tableBrowser oneProjectWorld (.str "1") oneProjectText
    [.obj [("id", .str "1")]] rfl (by decide) rfl (by simp)).1

/-- C21, as stated, fails: the store holds one project, with id `1`; the first confirmed
deletion of `1` empties the store and notifies the success, and the second confirmed
deletion of `1` notifies the success again: no not-found error is raised. -/
theorem second_delete_reports_success :
    tableBrowser.jsonParse oneProjectText = .ok (.arr [.obj [("id", .str "1")]])
    ∧ (SimplePortfolioManager.deleteProject tableBrowser true (.str "1")
        oneProjectWorld).storage "portfolio_projects" = some "[]"
    ∧ (SimplePortfolioManager.deleteProject tableBrowser true (.str "1")
        (SimplePortfolioManager.deleteProject tableBrowser true (.str "1")
          oneProjectWorld)).events
      = [.notification "Project deleted successfully!" "success",
         .render "portfolio-grid" (.arr []), .render "admin-projects-list" (.arr []),
         .notification "Project deleted successfully!" "success",
         .render "portfolio-grid" (.arr []), .render "admin-projects-list" (.arr [])] :=
  ⟨rfl, rfl, rfl⟩

/-! ## Local toggle of the featured flag -/

theorem findIndexById_first (projectId : JsVal) (fields : JsObj) (post : List JsVal) :
    ∀ pre : List JsVal,
      (∀ p ∈ pre, (p ≠ .null ∧ p ≠ .undefined) ∧ strictEquals (p.get "id") projectId = false) →
      strictEquals (lookupField fields "id") projectId = true →
      findIndexById projectId (pre ++ .obj fields :: post) = .ok (some pre.length) := by
  intro pre
  induction pre with
  | nil =>
    intro _ hid
    simp [findIndexById, propOf, JsVal.get, hid]
  | cons q pre ih =>
    intro hpre hid
    have hq := hpre q (List.mem_cons_self _ _)
    have hrest := ih (fun p hp => hpre p (List.mem_cons_of_mem _ hp)) hid
    simp [findIndexById, propOf_of_ne q "id" hq.1.1 hq.1.2, hq.2, hrest]

theorem findIndexById_none (projectId : JsVal) :
    ∀ L : List JsVal,
      (∀ p ∈ L, (p ≠ .null ∧ p ≠ .undefined) ∧ strictEquals (p.get "id") projectId = false) →
      findIndexById projectId L = .ok none := by
  intro L
  induction L with
  | nil => intro _; rfl
  | cons q L ih =>
    intro h
    have hq := h q (List.mem_cons_self _ _)
    have hrest := ih (fun p hp => h p (List.mem_cons_of_mem _ hp))
    simp [findIndexById, propOf_of_ne q "id" hq.1.1 hq.1.2, hq.2, hrest]

theorem getD_append_cons (pre post : List JsVal) (a d : JsVal) :
    (pre ++ a :: post).getD pre.length d = a := by
  induction pre with
  | nil => rfl
  | cons q pre ih => simpa using ih

theorem set_append_cons (pre post : List JsVal) (a b : JsVal) :
    (pre ++ a :: post).set pre.length b = pre ++ b :: post := by
  induction pre with
  | nil => rfl
  | cons q pre ih => simp [ih]

/-- C29: in `SimplePortfolioManager`, when the stored list is `pre ++ project :: post`
with `project` the first record that has the given id, `toggleFeatured(id, f)` writes
the same list with `featured` of that record set to `f`, its other fields, the other
records, the order and the other keys of the store unchanged, and notifies the success;
when no stored record has the id, it changes nothing: no write, no notification. -/
theorem toggleFeatured_sets_first_match (B : LocalBrowser) (w : LocalWorld)
    (projectId featured : JsVal) (s : String) (L : List JsVal)
    (hs : w.storage "portfolio_projects" = some s) (hne : s ≠ "")
    (hparse : B.jsonParse s = .ok (.arr L)) :
    (∀ pre fields post, L = pre ++ .obj fields :: post →
        (∀ p ∈ pre, (p ≠ .null ∧ p ≠ .undefined)
          ∧ strictEquals (p.get "id") projectId = false) →
        strictEquals (lookupField fields "id") projectId = true →
        (SimplePortfolioManager.toggleFeatured B projectId featured w).storage
            "portfolio_projects"
          = some (B.jsonStringify
              (.arr (pre ++ .obj (setField fields "featured" featured) :: post)))
        ∧ (∀ k, k ≠ "portfolio_projects" →
            (SimplePortfolioManager.toggleFeatured B projectId featured w).storage k
              = w.storage k)
        ∧ lookupField (setField fields "featured" featured) "featured" = featured
        ∧ (∀ field, field ≠ "featured" →
            lookupField (setField fields "featured" featured) field
              = lookupField fields field)
        ∧ ∃ rest, (SimplePortfolioManager.toggleFeatured B projectId featured w).events
            = w.events ++ .notification
                ("Project " ++ (if featured.truthy then "featured" else "unfeatured")
                  ++ " successfully!") "success" :: rest)
    ∧ ((∀ p ∈ L, (p ≠ .null ∧ p ≠ .undefined)
          ∧ strictEquals (p.get "id") projectId = false) →
        SimplePortfolioManager.toggleFeatured B projectId featured w = w) := by
  have hread : SimplePortfolioManager.getStoredProjects (B.reader w) = .ok (.arr L) := by
    rw [← hparse]; exact (getStoredProjects_of_entry B w s hs hne).1
  constructor
  · intro pre fields post hL hpre hid
    subst hL
    have htry : SimplePortfolioManager.toggleTry B projectId featured w
        = SimplePortfolioManager.reloadViews B
            ((w.setItem "portfolio_projects" (B.jsonStringify
              (.arr (pre ++ .obj (setField fields "featured" featured) :: post)))).showNotification
              ("Project " ++ (if featured.truthy then "featured" else "unfeatured")
                ++ " successfully!") "success") := by
      simp only [SimplePortfolioManager.toggleTry, hread,
        findIndexById_first projectId fields post pre hpre hid, getD_append_cons,
        JsVal.truthy, if_true, featureStored, assignFeatured, set_append_cons]
    obtain ⟨hs1, r1, he1⟩ := simple_reloadViews_keeps_store B
      ((w.setItem "portfolio_projects" (B.jsonStringify
        (.arr (pre ++ .obj (setField fields "featured" featured) :: post)))).showNotification
        ("Project " ++ (if featured.truthy then "featured" else "unfeatured")
          ++ " successfully!") "success")
    obtain ⟨hs2, r2, he2⟩ := caught_keeps_store "Failed to update project"
      (SimplePortfolioManager.toggleTry B projectId featured w)
    rw [htry] at hs2 he2
    have hst : (SimplePortfolioManager.toggleFeatured B projectId featured w).storage
        = (w.setItem "portfolio_projects" (B.jsonStringify
            (.arr (pre ++ .obj (setField fields "featured" featured) :: post)))).storage := by
      unfold SimplePortfolioManager.toggleFeatured
      rw [htry, hs2, hs1]; rfl
    refine ⟨by rw [hst]; simp [LocalWorld.setItem], ?_, lookupField_setField_same _ _ _,
      fun field hf => lookupField_setField_other _ _ _ _ hf, r1 ++ r2, ?_⟩
    · intro k hk
      rw [hst]; simp [LocalWorld.setItem, hk]
    · unfold SimplePortfolioManager.toggleFeatured
      rw [htry, he2, he1]
      simp [LocalWorld.showNotification, LocalWorld.setItem]
  · intro hnone
    simp [SimplePortfolioManager.toggleFeatured, SimplePortfolioManager.toggleTry, hread,
      findIndexById_none projectId L hnone, caught]

/-- C29 on the store that holds the one project with id `1`: featuring the project `1`
writes the list with `featured` set on it, and toggling the project `2`, which is not
there, changes nothing. -/
theorem toggleFeatured_sets_first_match_witness :
    (SimplePortfolioManager.toggleFeatured toggleBrowser (.str "1") (.bool true)
        oneProjectWorld).storage "portfolio_projects" = some featuredProjectText
      ∧ SimplePortfolioManager.toggleFeatured toggleBrowser (.str "2") (.bool true)
          oneProjectWorld = oneProjectWorld :=
  ⟨((toggleFeatured_sets_first_match toggleBrowser oneProjectWorld (.str "1") (.bool true)
      oneProjectText [.obj [("id", .str "1")]] rfl (by decide) rfl).1
      [] [("id", .str "1")] [] rfl (by simp) rfl).1,
    (toggleFeatured_sets_first_match toggleBrowser oneProjectWorld (.str "2") (.bool true)
      oneProjectText [.obj [("id", .str "1")]] rfl (by decide) rfl).2
      (by simp [JsVal.get, lookupField, strictEquals])⟩

/-! ## Local submissions -/

theorem digitChar_value (k : Nat) (h : k < 10) : (Nat.digitChar k).toNat - 48 = k := by
  interval_cases k <;> rfl

theorem toDigitsCore_value :
    ∀ fuel n ds, n < fuel →
      ∃ front, Nat.toDigitsCore 10 fuel n ds = front ++ ds ∧ digitsValue 0 front = n := by
  intro fuel
  induction fuel with
  | zero => intro n ds h; omega
  | succ fuel ih =>
    intro n ds h
    unfold Nat.toDigitsCore
    by_cases hz : n / 10 = 0
    · refine ⟨[Nat.digitChar (n % 10)], by simp [hz], ?_⟩
      have := digitChar_value (n % 10) (Nat.mod_lt _ (by decide))
      simp [digitsValue, this]
      omega
    · obtain ⟨front, hf, hv⟩ := ih (n / 10) (Nat.digitChar (n % 10) :: ds) (by omega)
      refine ⟨front ++ [Nat.digitChar (n % 10)], by simp [hz, hf], ?_⟩
      have := digitChar_value (n % 10) (Nat.mod_lt _ (by decide))
      simp only [digitsValue, List.foldl_append, List.foldl_cons, List.foldl_nil] at hv ⊢
      rw [hv, this]
      omega

theorem toString_nat_value (n : Nat) : digitsValue 0 (toString n).toList = n := by
  obtain ⟨front, hf, hv⟩ := toDigitsCore_value (n + 1) n [] (by omega)
  have : (toString n).toList = front := by
    show (Nat.repr n).toList = front
    simp [Nat.repr, Nat.toDigits, hf, List.asString]
  rw [this, hv]

/-- The decimal texts of two clock readings are equal only for equal readings. -/
theorem toString_nat_injective (a b : Nat) (h : toString a = toString b) : a = b := by
  rw [← toString_nat_value a, ← toString_nat_value b, h]

/-- The id of the project that `SimplePortfolioManager` builds is the decimal text of the
clock reading. -/
theorem simple_project_id (dom : String → Option JsVal) (now : Nat) (createdAt : String)
    (project : JsObj)
    (h : SimplePortfolioManager.projectFromDocument dom now createdAt = .ok project) :
    lookupField project "id" = .str (toString now) := by
  unfold SimplePortfolioManager.projectFromDocument at h
  cases h1 : domValue dom "project-title" <;>
    simp only [h1, bind, Except.bind] at h <;> try cases h
  cases h2 : domValue dom "project-category" <;> simp only [h2] at h <;> try cases h
  cases h3 : domValue dom "project-description" <;> simp only [h3] at h <;> try cases h
  cases h4 : domValue dom "project-thumbnail" <;> simp only [h4] at h <;> try cases h
  cases h5 : domValue dom "project-video" <;> simp only [h5] at h <;> try cases h
  cases h6 : domValue dom "project-links" <;> simp only [h6] at h <;> try cases h
  cases h7 : tagsFromDocument dom <;> simp only [h7] at h <;> try cases h
  simp [lookupField]

/-- The id of the project that `PortfolioManager` builds is the decimal text of the clock
reading. -/
theorem main_project_id (dom : String → Option JsVal) (formData : String → JsVal) (now : Nat)
    (createdAt : String) (project : JsObj)
    (h : PortfolioManager.projectFromForm dom formData now createdAt = .ok project) :
    lookupField project "id" = .str (toString now) := by
  unfold PortfolioManager.projectFromForm at h
  cases h1 : orDomValue dom (formData "title") "project-title" <;>
    simp only [h1, bind, Except.bind] at h <;> try cases h
  cases h2 : orDomValue dom (formData "category") "project-category" <;>
    simp only [h2] at h <;> try cases h
  cases h3 : orDomValue dom (formData "description") "project-description" <;>
    simp only [h3] at h <;> try cases h
  cases h4 : orDomValue dom (formData "thumbnail") "project-thumbnail" <;>
    simp only [h4] at h <;> try cases h
  cases h5 : orDomValue dom (formData "video") "project-video" <;>
    simp only [h5] at h <;> try cases h
  cases h6 : orDomValue dom (formData "links") "project-links" <;>
    simp only [h6] at h <;> try cases h
  simp [lookupField]

theorem buildProject_id (M : LocalManager) (dom : String → Option JsVal)
    (formData : String → JsVal) (now : Nat) (createdAt : String) (project : JsObj)
    (h : M.buildProject dom formData now createdAt = .ok project) :
    lookupField project "id" = .str (toString now) := by
  cases M
  · exact simple_project_id dom now createdAt project h
  · exact main_project_id dom formData now createdAt project h

/-- An accepted submission in `SimplePortfolioManager` when the getter reads the list
`L`: the store is written with `L` and the project after it, the success is notified,
and after that only events are added. -/
theorem simple_submit_of_read (B : LocalBrowser) (w : LocalWorld) (project : JsObj)
    (L : List JsVal)
    (hread : SimplePortfolioManager.getStoredProjects (B.reader w) = .ok (.arr L)) :
    (caught "Failed to add project" (SimplePortfolioManager.submitTry B project w)).storage
        = (w.setItem "portfolio_projects"
            (B.jsonStringify (.arr (L ++ [.obj project])))).storage
      ∧ ∃ rest, (caught "Failed to add project"
            (SimplePortfolioManager.submitTry B project w)).events
          = w.events ++ .notification "Project added successfully!" "success" :: rest := by
  have htry : SimplePortfolioManager.submitTry B project w
      = SimplePortfolioManager.reloadViews B
          ((w.setItem "portfolio_projects"
            (B.jsonStringify (.arr (L ++ [.obj project])))).showNotification
            "Project added successfully!" "success").resetForm := by
    simp only [SimplePortfolioManager.submitTry, hread, addStored, pushStored]
  obtain ⟨hs1, r1, he1⟩ := simple_reloadViews_keeps_store B
    ((w.setItem "portfolio_projects"
      (B.jsonStringify (.arr (L ++ [.obj project])))).showNotification
      "Project added successfully!" "success").resetForm
  obtain ⟨hs2, r2, he2⟩ := caught_keeps_store "Failed to add project"
    (SimplePortfolioManager.submitTry B project w)
  rw [htry] at hs2 he2
  rw [htry]
  refine ⟨by rw [hs2, hs1]; rfl, .formReset :: (r1 ++ r2), ?_⟩
  rw [he2, he1]
  simp [LocalWorld.showNotification, LocalWorld.setItem, LocalWorld.resetForm]

/-- The same for `PortfolioManager`. -/
theorem main_submit_of_read (B : LocalBrowser) (w : LocalWorld) (project : JsObj)
    (L : List JsVal)
    (hread : PortfolioManager.getStoredProjects (B.reader w) = .ok (.arr L)) :
    (caught "Failed to add project" (PortfolioManager.submitTry B project w)).storage
        = (w.setItem "portfolio_projects"
            (B.jsonStringify (.arr (L ++ [.obj project])))).storage
      ∧ ∃ rest, (caught "Failed to add project"
            (PortfolioManager.submitTry B project w)).events
          = w.events ++ .notification "Project added successfully!" "success" :: rest := by
  have htry : PortfolioManager.submitTry B project w
      = PortfolioManager.reloadViews B
          ((w.setItem "portfolio_projects"
            (B.jsonStringify (.arr (L ++ [.obj project])))).showNotification
            "Project added successfully!" "success").resetForm := by
    simp only [PortfolioManager.submitTry, PortfolioManager.addProject, hread, addStored,
      pushStored]
  obtain ⟨hs1, r1, he1⟩ := main_reloadViews_keeps_store B
    ((w.setItem "portfolio_projects"
      (B.jsonStringify (.arr (L ++ [.obj project])))).showNotification
      "Project added successfully!" "success").resetForm
  obtain ⟨hs2, r2, he2⟩ := caught_keeps_store "Failed to add project"
    (PortfolioManager.submitTry B project w)
  rw [htry] at hs2 he2
  rw [htry]
  refine ⟨by rw [hs2, hs1]; rfl, .formReset :: (r1 ++ r2), ?_⟩
  rw [he2, he1]
  simp [LocalWorld.showNotification, LocalWorld.setItem, LocalWorld.resetForm]

/-- C24: the local submission handlers do not check the category against the
enumeration.  For the form with title `Statue` and category `sculpture`, on a store
without entries, `handleProjectSubmit` of `PortfolioManager` and of
`SimplePortfolioManager` write a record with category `sculpture` and notify the success
(for every codec, clock reading and creation text), while `validateProject`, which
`EnhancedPortfolioManager` calls first, rejects the same category. -/
theorem local_submit_writes_unlisted_category (B : LocalBrowser) (now : Nat)
    (createdAt : String) :
    (∃ w1, PortfolioManager.handleProjectSubmit B sculptureDocument emptyFormData now
          createdAt emptyLocalWorld = .ok w1
        ∧ w1.storage "portfolio_projects" = some (B.jsonStringify (.arr [.obj
            [("id", .str (toString now)), ("title", .str "Statue"),
              ("category", .str "sculpture"), ("description", .str ""),
              ("thumbnail", .str ""), ("video", .str ""), ("links", .str ""),
              ("createdAt", .str createdAt)]]))
        ∧ ∃ rest, w1.events
            = .notification "Project added successfully!" "success" :: rest)
    ∧ (∃ w2 defaults, SimplePortfolioManager.handleProjectSubmit B sculptureDocument now
          createdAt emptyLocalWorld = .ok w2
        ∧ SimplePortfolioManager.getDefaultProjects = .arr defaults
        ∧ w2.storage "portfolio_projects" = some (B.jsonStringify (.arr (defaults ++ [.obj
            [("id", .str (toString now)), ("title", .str "Statue"),
              ("category", .str "sculpture"), ("description", .str ""),
              ("thumbnail", .str ""), ("video_url", .str ""), ("external_links", .str ""),
              ("tags", .arr []), ("featured", .bool false),
              ("created_at", .str createdAt)]])))
        ∧ ∃ rest, w2.events
            = .notification "Project added successfully!" "success" :: rest)
    ∧ validateProject [("title", .str "Statue"), ("category", .str "sculpture")]
        = .error ⟨"Invalid category. Must be one of: video, motion, design, thumbnail"⟩ := by
  refine ⟨?_, ?_, rfl⟩
  · obtain ⟨hst, rest, hev⟩ := main_submit_of_read B emptyLocalWorld
      [("id", .str (toString now)), ("title", .str "Statue"),
        ("category", .str "sculpture"), ("description", .str ""),
        ("thumbnail", .str ""), ("video", .str ""), ("links", .str ""),
        ("createdAt", .str createdAt)] [] rfl
    refine ⟨_, rfl, ?_, rest, ?_⟩
    · exact (congrFun hst "portfolio_projects").trans (by simp [LocalWorld.setItem])
    · exact hev.trans (by simp [emptyLocalWorld])
  · obtain ⟨hst, rest, hev⟩ := simple_submit_of_read B emptyLocalWorld
      [("id", .str (toString now)), ("title", .str "Statue"),
        ("category", .str "sculpture"), ("description", .str ""),
        ("thumbnail", .str ""), ("video_url", .str ""), ("external_links", .str ""),
        ("tags", .arr []), ("featured", .bool false),
        ("created_at", .str createdAt)] _ rfl
    refine ⟨_, _, rfl, rfl, ?_, rest, ?_⟩
    · exact (congrFun hst "portfolio_projects").trans (by simp [LocalWorld.setItem])
    · exact hev.trans (by simp [emptyLocalWorld])

/-! ## Ids along a sequence of local actions -/

/-- The getter reads the list that was written last, when the codec keeps it. -/
theorem read_of_written (M : LocalManager) (B : LocalBrowser) (w w1 : LocalWorld)
    (L : List JsVal)
    (hst : w1.storage = (w.setItem "portfolio_projects" (B.jsonStringify (.arr L))).storage)
    (hk : codecKeeps B L) :
    M.getStoredProjects (B.reader w1) = .ok (.arr L) := by
  cases M <;>
    simp [LocalManager.getStoredProjects, SimplePortfolioManager.getStoredProjects,
      PortfolioManager.getStoredProjects, LocalBrowser.reader, hst, LocalWorld.setItem,
      hk.1, hk.2]

/-- The getter reads the same from two worlds with the same store. -/
theorem read_of_same_store (M : LocalManager) (B : LocalBrowser) (w w1 : LocalWorld)
    (hst : w1.storage = w.storage) :
    M.getStoredProjects (B.reader w1) = M.getStoredProjects (B.reader w) := by
  cases M <;>
    simp [LocalManager.getStoredProjects, SimplePortfolioManager.getStoredProjects,
      PortfolioManager.getStoredProjects, LocalBrowser.reader, hst]

/-- One action takes a store that reads as `L` to a store that reads as the list expected
after the action. -/
theorem perform_read (M : LocalManager) (B : LocalBrowser) (a : LocalAction)
    (w : LocalWorld) (L : List JsVal)
    (hread : M.getStoredProjects (B.reader w) = .ok (.arr L))
    (hrec : ∀ p ∈ L, p ≠ .null ∧ p ≠ .undefined)
    (hk : codecKeeps B (M.listAfter a L)) :
    M.getStoredProjects (B.reader (M.perform B a w)) = .ok (.arr (M.listAfter a L)) := by
  cases a with
  | submit dom formData now createdAt =>
    cases M with
    | simple =>
      simp only [LocalManager.perform, LocalManager.handleProjectSubmit,
        LocalManager.listAfter, LocalManager.buildProject,
        SimplePortfolioManager.handleProjectSubmit] at hk ⊢
      cases hb : SimplePortfolioManager.projectFromDocument dom now createdAt with
      | error e => simpa [hb] using hread
      | ok project =>
        rw [hb] at hk
        by_cases hl : lacksRequired project = true
        · simp only [hl, if_true] at hk ⊢
          exact (read_of_same_store LocalManager.simple B w _ rfl).trans hread
        · simp only [hl, if_false] at hk ⊢
          exact read_of_written LocalManager.simple B w _ _
            (simple_submit_of_read B w project L hread).1 hk
    | main =>
      simp only [LocalManager.perform, LocalManager.handleProjectSubmit,
        LocalManager.listAfter, LocalManager.buildProject,
        PortfolioManager.handleProjectSubmit] at hk ⊢
      cases hb : PortfolioManager.projectFromForm dom formData now createdAt with
      | error e => simpa [hb] using hread
      | ok project =>
        rw [hb] at hk
        by_cases hl : lacksRequired project = true
        · simp only [hl, if_true] at hk ⊢
          exact (read_of_same_store LocalManager.main B w _ rfl).trans hread
        · simp only [hl, if_false] at hk ⊢
          exact read_of_written LocalManager.main B w _ _
            (main_submit_of_read B w project L hread).1 hk
  | delete confirmed projectId =>
    cases confirmed with
    | false =>
      cases M <;> simpa [LocalManager.perform, LocalManager.deleteProject,
        LocalManager.listAfter, SimplePortfolioManager.deleteProject,
        PortfolioManager.deleteProject] using hread
    | true =>
      cases M with
      | simple =>
        simp only [LocalManager.listAfter, if_true] at hk ⊢
        exact read_of_written LocalManager.simple B w _ _
          (simple_delete_of_read B w projectId L hread hrec).1 hk
      | main =>
        simp only [LocalManager.listAfter, if_true] at hk ⊢
        exact read_of_written LocalManager.main B w _ _
          (main_delete_of_read B w projectId L hread hrec).1 hk

/-- A record in the list after an action was in the list before it, or the action is a
submission and the id of the record is the decimal text of its clock reading. -/
theorem listAfter_mem (M : LocalManager) (a : LocalAction) (L : List JsVal) (p : JsVal)
    (hp : p ∈ M.listAfter a L) :
    p ∈ L ∨ ((p ≠ .null ∧ p ≠ .undefined)
      ∧ ∃ n ∈ submissionReadings [a], p.get "id" = .str (toString n)) := by
  cases a with
  | submit dom formData now createdAt =>
    simp only [LocalManager.listAfter] at hp
    cases hb : M.buildProject dom formData now createdAt with
    | error e => rw [hb] at hp; exact Or.inl hp
    | ok project =>
      rw [hb] at hp
      by_cases hl : lacksRequired project = true
      · simp only [hl, if_true] at hp; exact Or.inl hp
      · simp only [hl, if_false] at hp
        rcases List.mem_append.1 hp with h | h
        · exact Or.inl h
        · right
          have hpe : p = .obj project := by simpa using h
          subst hpe
          exact ⟨⟨by simp, by simp⟩, now, by simp [submissionReadings],
            buildProject_id M dom formData now createdAt project hb⟩
  | delete confirmed projectId =>
    simp only [LocalManager.listAfter] at hp
    cases confirmed with
    | false => exact Or.inl (by simpa using hp)
    | true =>
      simp only [if_true] at hp
      exact Or.inl (List.mem_filter.1 hp).1

/-- An action keeps the ids pairwise distinct when the text of its clock reading is not
an id in the list. -/
theorem listAfter_distinct (M : LocalManager) (a : LocalAction) (L : List JsVal)
    (hd : distinctIds L)
    (hfresh : ∀ n ∈ submissionReadings [a], ∀ p ∈ L,
      strictEquals (p.get "id") (.str (toString n)) = false) :
    distinctIds (M.listAfter a L) := by
  cases a with
  | submit dom formData now createdAt =>
    simp only [LocalManager.listAfter]
    cases hb : M.buildProject dom formData now createdAt with
    | error e => exact hd
    | ok project =>
      by_cases hl : lacksRequired project = true
      · simpa [hl] using hd
      · simp only [if_neg hl]
        unfold distinctIds at hd ⊢
        rw [List.pairwise_append]
        refine ⟨hd, List.pairwise_singleton _ _, ?_⟩
        intro p hp q hq
        have hqe : q = .obj project := by simpa using hq
        subst hqe
        have hid : (JsVal.obj project).get "id" = .str (toString now) :=
          buildProject_id M dom formData now createdAt project hb
        rw [hid]
        exact hfresh now (by simp [submissionReadings]) p hp
  | delete confirmed projectId =>
    simp only [LocalManager.listAfter]
    cases confirmed with
    | false => simpa using hd
    | true => simpa using List.Pairwise.filter _ hd

theorem submissionReadings_cons (a : LocalAction) (rest : List LocalAction) :
    submissionReadings (a :: rest) = submissionReadings [a] ++ submissionReadings rest := by
  cases a <;> simp [submissionReadings]

/-- The invariant of a run: the store reads as the expected list, the ids in it are
pairwise distinct, and none of them is the text of a clock reading still to come. -/
theorem run_keeps_ids (M : LocalManager) (B : LocalBrowser) (later : List LocalAction) :
    ∀ (done : List LocalAction) (w : LocalWorld) (L : List JsVal),
      M.getStoredProjects (B.reader w) = .ok (.arr L) →
      (∀ p ∈ L, p ≠ .null ∧ p ≠ .undefined) →
      codecKeepsAlong M B done L →
      distinctIds L →
      (submissionReadings (done ++ later)).Pairwise (fun m n => m < n) →
      (∀ n ∈ submissionReadings (done ++ later), ∀ p ∈ L,
        strictEquals (p.get "id") (.str (toString n)) = false) →
      M.getStoredProjects (B.reader (M.performAll B done w))
          = .ok (.arr (M.listAfterAll done L))
        ∧ distinctIds (M.listAfterAll done L)
        ∧ ∀ n ∈ submissionReadings later, ∀ p ∈ M.listAfterAll done L,
            strictEquals (p.get "id") (.str (toString n)) = false := by
  intro done
  induction done with
  | nil =>
    intro w L hread _ _ hd _ hfresh
    exact ⟨hread, hd, fun n hn p hp => hfresh n (by simpa using hn) p hp⟩
  | cons a done ih =>
    intro w L hread hrec hk hd hclock hfresh
    rw [List.cons_append, submissionReadings_cons] at hclock hfresh
    rw [List.pairwise_append] at hclock
    have hrec1 : ∀ p ∈ M.listAfter a L, p ≠ .null ∧ p ≠ .undefined := by
      intro p hp
      rcases listAfter_mem M a L p hp with h | h
      · exact hrec p h
      · exact h.1
    have hfresh1 : ∀ n ∈ submissionReadings (done ++ later), ∀ p ∈ M.listAfter a L,
        strictEquals (p.get "id") (.str (toString n)) = false := by
      intro n hn p hp
      rcases listAfter_mem M a L p hp with h | ⟨_, m, hm, hid⟩
      · exact hfresh n (List.mem_append_right _ hn) p h
      · have hlt : m < n := hclock.2.2 m hm n hn
        have hne : toString m ≠ toString n :=
          fun h => absurd (toString_nat_injective m n h) (Nat.ne_of_lt hlt)
        rw [hid]
        simp [strictEquals, hne]
    exact ih (M.perform B a w) (M.listAfter a L)
      (perform_read M B a w L hread hrec hk.1) hrec1 hk.2
      (listAfter_distinct M a L hd
        (fun n hn p hp => hfresh n (List.mem_append_left _ hn) p hp))
      hclock.2.1 hfresh1

set_option maxRecDepth 100000 in
/-- C23, counterexample: in `PortfolioManager` on an empty store, two submissions at
the same clock reading `5` leave two records with the id `5`; and after a submission at
the reading `5` and the deletion of the project `5`, a submission at the reading `5`
gives the id of the deleted record to the new record. -/
theorem equal_readings_repeat_id :
    (PortfolioManager.getStoredProjects (reelBrowser.reader
        (LocalManager.main.performAll reelBrowser [reelSubmission 5, reelSubmission 5]
          emptyLocalWorld))
        = .ok (.arr [.obj (reelProject 5), .obj (reelProject 5)])
      ∧ strictEquals ((JsVal.obj (reelProject 5)).get "id")
          ((JsVal.obj (reelProject 5)).get "id") = true
      ∧ ¬ distinctIds [.obj (reelProject 5), .obj (reelProject 5)])
    ∧ (PortfolioManager.getStoredProjects (reelBrowser.reader
        (LocalManager.main.performAll reelBrowser
          [reelSubmission 5, .delete true (.str "5")] emptyLocalWorld))
        = .ok (.arr [])
      ∧ PortfolioManager.getStoredProjects (reelBrowser.reader
        (LocalManager.main.performAll reelBrowser
          [reelSubmission 5, .delete true (.str "5"), reelSubmission 5] emptyLocalWorld))
        = .ok (.arr [.obj (reelProject 5)])
      ∧ (JsVal.obj (reelProject 5)).get "id" = .str "5") := by
  refine ⟨⟨rfl, rfl, ?_⟩, rfl, rfl, rfl⟩
  intro h
  have h1 := (List.pairwise_cons.1 h).1 _ (List.mem_singleton_self _)
  exact absurd h1 (by decide)

/-- C23, amended: every project that a local submission builds has the decimal text of
the clock reading as id.  For every sequence of submissions and deletions, split into
the actions done and those still to come, from a store that reads as a list of records
with pairwise distinct ids: when the clock readings of the submissions are strictly
increasing, the text of none of them is an id of the initial list, and the codec keeps
the lists written, then after the actions done the store reads as the expected list,
its ids are pairwise distinct, and none of them is assigned by a submission still to
come; in particular the id of a record deleted later is not assigned again. -/
theorem increasing_readings_keep_ids_distinct (M : LocalManager) (B : LocalBrowser)
    (w : LocalWorld) (L : List JsVal) (done later : List LocalAction)
    (hread : M.getStoredProjects (B.reader w) = .ok (.arr L))
    (hrec : ∀ p ∈ L, p ≠ .null ∧ p ≠ .undefined)
    (hcodec : codecKeepsAlong M B done L)
    (hdistinct : distinctIds L)
    (hclock : (submissionReadings (done ++ later)).Pairwise (fun m n => m < n))
    (hfresh : ∀ n ∈ submissionReadings (done ++ later), ∀ p ∈ L,
      strictEquals (p.get "id") (.str (toString n)) = false) :
    (∀ dom formData now createdAt project,
        M.buildProject dom formData now createdAt = .ok project →
        lookupField project "id" = .str (toString now))
      ∧ M.getStoredProjects (B.reader (M.performAll B done w))
          = .ok (.arr (M.listAfterAll done L))
      ∧ distinctIds (M.listAfterAll done L)
      ∧ ∀ n ∈ submissionReadings later, ∀ p ∈ M.listAfterAll done L,
          strictEquals (p.get "id") (.str (toString n)) = false :=
  ⟨fun dom formData now createdAt project h =>
      buildProject_id M dom formData now createdAt project h,
    run_keeps_ids M B later done w L hread hrec hcodec hdistinct hclock hfresh⟩

set_option maxRecDepth 100000 in
/-- C23, amended, in `PortfolioManager` on an empty store: after submissions at the
readings `5` and `6` and the deletion of the project `5`, with a submission at the
reading `7` still to come, the store holds the project `6` alone, and `7` is not an id
in it. -/
theorem increasing_readings_keep_ids_distinct_witness :
    PortfolioManager.getStoredProjects (reelBrowser.reader
        (LocalManager.main.performAll reelBrowser
          [reelSubmission 5, reelSubmission 6, .delete true (.str "5")] emptyLocalWorld))
        = .ok (.arr [.obj (reelProject 6)])
      ∧ distinctIds [.obj (reelProject 6)]
      ∧ ∀ n ∈ [7], ∀ p ∈ [JsVal.obj (reelProject 6)],
          strictEquals (p.get "id") (.str (toString n)) = false :=
  (increasing_readings_keep_ids_distinct LocalManager.main reelBrowser emptyLocalWorld []
    [reelSubmission 5, reelSubmission 6, .delete true (.str "5")] [reelSubmission 7]
    rfl (by simp)
    ⟨⟨by decide, rfl⟩, ⟨by decide, rfl⟩, ⟨by decide, rfl⟩, trivial⟩
    List.Pairwise.nil
    (by decide)
    (by simp)).2

/-! ## Events of the reload after a write through the API -/

/-- Every event that the loop adds is a transport call with the given URL and options, a
decode, the log line of a failed attempt, or a wait. -/
theorem apiRequestLoop_events (api : PortfolioAPI) (net : Transport) (url : String)
    (m : RequestOptions) (P : Event → Prop) (hfetch : P (.fetch url m)) (hjson : P .json)
    (hfail : ∀ a e, P (.requestFailed a e)) (hwait : ∀ d, P (.wait d)) :
    ∀ (fuel : Nat) (a : Int) (tr : List Event) (r : Except JsError JsVal) (tr' : List Event),
      apiRequestLoop api net url m fuel a tr = some (r, tr') →
      ∃ added, tr' = tr ++ added ∧ ∀ ev ∈ added, P ev := by
  intro fuel
  induction fuel with
  | zero => intro a tr r tr' h; simp [apiRequestLoop] at h
  | succ fuel ih =>
    intro a tr r tr' h
    have hev : ∀ ev ∈ attemptEvents net url m (fetchCount tr), P ev := by
      intro ev hmem
      rcases handleResponse_events (net (fetchCount tr) url m) with h0 | h0 <;>
        simp only [attemptEvents, h0, List.mem_cons, List.mem_singleton, List.not_mem_nil,
          or_false] at hmem
      · rw [hmem]; exact hfetch
      · rcases hmem with rfl | rfl
        · exact hfetch
        · exact hjson
    by_cases ha : a ≤ api.retryCount
    · cases hout : attemptOutcome (net (fetchCount tr) url m) with
      | ok v =>
        rw [apiRequestLoop_success api net url m fuel a tr v ha hout] at h
        simp only [Option.some.injEq, Prod.mk.injEq] at h
        exact ⟨_, h.2.symm, hev⟩
      | error e =>
        by_cases hlast : a = api.retryCount
        · subst hlast
          rw [apiRequestLoop_last_failure api net url m fuel tr e hout] at h
          simp only [Option.some.injEq, Prod.mk.injEq] at h
          refine ⟨_, h.2.symm, ?_⟩
          intro ev hmem
          rcases List.mem_append.mp hmem with h1 | h1
          · exact hev ev h1
          · rw [List.mem_singleton.mp h1]; exact hfail _ _
        · have hlt : a < api.retryCount := lt_of_le_of_ne ha hlast
          rw [apiRequestLoop_retry api net url m fuel a tr e hlt hout] at h
          obtain ⟨added, rfl, hadded⟩ := ih _ _ _ _ h
          refine ⟨(attemptEvents net url m (fetchCount tr)
            ++ [.requestFailed a e, .wait api.retryDelay]) ++ added,
            by rw [List.append_assoc], ?_⟩
          intro ev hmem
          rcases List.mem_append.mp hmem with h1 | h1
          · rcases List.mem_append.mp h1 with h2 | h2
            · exact hev ev h2
            · simp only [List.mem_cons, List.mem_singleton, List.not_mem_nil, or_false] at h2
              rcases h2 with rfl | rfl
              · exact hfail _ _
              · exact hwait _
          · exact hadded ev h1
    · rw [apiRequestLoop_exit api net url m fuel a tr (not_le.mp ha)] at h
      simp only [Option.some.injEq, Prod.mk.injEq] at h
      exact ⟨[], by simp [h.2], by simp⟩

/-- The call `getProjects()` always returns; its transport calls are GET requests for the
list, and it notifies nothing. -/
theorem getProjects_events (api : PortfolioAPI) (env : Env) (tr : List Event) :
    ∃ r added, getProjects api env 1 100 "" "created_at" tr = some (r, tr ++ added)
      ∧ ∀ ev ∈ added,
          (ev.isFetch = true → ∃ url, ev = .fetch url (mergeOptions noOptions))
          ∧ ∀ message type, ev ≠ .notification message type := by
  obtain ⟨r, added, hrun, _⟩ := apiRequest_total api env.net
    (api.baseURL ++ "/projects?" ++ env.urlSearchParams
      [("page", toString 1), ("limit", toString 100), ("search", ""),
        ("sort", "created_at")]) noOptions tr
  obtain ⟨added1, hadd, hall⟩ := apiRequestLoop_events api env.net
    (api.baseURL ++ "/projects?" ++ env.urlSearchParams
      [("page", toString 1), ("limit", toString 100), ("search", ""),
        ("sort", "created_at")]) (mergeOptions noOptions)
    (fun ev => (ev.isFetch = true → ∃ url, ev = .fetch url (mergeOptions noOptions))
      ∧ ∀ message type, ev ≠ .notification message type)
    ⟨fun _ => ⟨_, rfl⟩, fun _ _ h => by cases h⟩
    ⟨fun h => by simp [Event.isFetch] at h, fun _ _ h => by cases h⟩
    (fun _ _ => ⟨fun h => by simp [Event.isFetch] at h, fun _ _ h => by cases h⟩)
    (fun _ => ⟨fun h => by simp [Event.isFetch] at h, fun _ _ h => by cases h⟩)
    _ _ _ _ _ hrun
  have hsame : added1 = added := (List.append_cancel_left hadd).symm
  subst hsame
  exact ⟨r, added1, hrun, hall⟩

/-- Rendering the loaded page adds at most a render event. -/
theorem portfolioLoaded_events (env : Env) (m : Manager) (r : Except JsError JsVal) :
    ∃ extra, (portfolioLoaded env m r).2.trace = m.trace ++ extra
      ∧ (portfolioLoaded env m r).2.api = m.api
      ∧ ∀ ev ∈ extra, ev.isFetch = false ∧ ∀ message type, ev ≠ .notification message type := by
  cases r with
  | error e => exact ⟨[], by simp [portfolioLoaded], by simp [portfolioLoaded], by simp⟩
  | ok response =>
    cases hp : propOf response "data" with
    | error e =>
      exact ⟨[], by simp [portfolioLoaded, hp], by simp [portfolioLoaded, hp], by simp⟩
    | ok data =>
      refine ⟨[.render "portfolio-grid" (if data.truthy then data else .arr [])], ?_, ?_, ?_⟩
      · cases hr : env.renderThrows "portfolio-grid"
            (if data.truthy then data else .arr []) <;>
          simp [portfolioLoaded, hp, renderView, hr, setLoadingState]
      · cases hr : env.renderThrows "portfolio-grid"
            (if data.truthy then data else .arr []) <;>
          simp [portfolioLoaded, hp, renderView, hr, setLoadingState]
      · intro ev hev
        rw [List.mem_singleton.mp hev]
        exact ⟨rfl, fun _ _ h => by cases h⟩

/-- The method `loadPortfolioDataFromAPI` always finishes; its transport calls are GET
requests, and when it does not reject it has notified nothing. -/
theorem loadPortfolioDataFromAPI_events (env : Env) (m : Manager) :
    ∃ r m1 added, loadPortfolioDataFromAPI env m = some (r, m1)
      ∧ m1.api = m.api ∧ m1.trace = m.trace ++ added
      ∧ (∀ ev ∈ added, ev.isFetch = true → ∃ url, ev = .fetch url (mergeOptions noOptions))
      ∧ (r = .ok () → ∀ ev ∈ added, ∀ message type, ev ≠ .notification message type) := by
  obtain ⟨r, added, hrun, hall⟩ := getProjects_events m.api env m.trace
  obtain ⟨extra, htr, hapi, hextra⟩ := portfolioLoaded_events env
    { setLoadingState m true with trace := m.trace ++ added } r
  have hrun1 : getProjects (setLoadingState m true).api env 1 100 "" "created_at"
      (setLoadingState m true).trace = some (r, m.trace ++ added) := hrun
  have hval : loadPortfolioDataFromAPI env m
      = match portfolioLoaded env
            { setLoadingState m true with trace := m.trace ++ added } r with
        | (.ok _, m1) => some (.ok (), m1)
        | (.error error, m1) =>
          some (.error superLoadPortfolioDataError,
            showNotification (logError m1 "Failed to load portfolio data:" error)
              "Failed to load portfolio data. Using local data." "error") := by
    simp only [loadPortfolioDataFromAPI, hrun1]
  rw [hval]
  cases hl : portfolioLoaded env { setLoadingState m true with trace := m.trace ++ added } r with
  | mk res m1 =>
    rw [hl] at htr hapi
    simp only at htr hapi
    have hfetch : ∀ ev ∈ added ++ extra,
        ev.isFetch = true → ∃ url, ev = .fetch url (mergeOptions noOptions) := by
      intro ev hev hf
      rcases List.mem_append.mp hev with h | h
      · exact (hall ev h).1 hf
      · rw [(hextra ev h).1] at hf; cases hf
    cases res with
    | ok u =>
      refine ⟨.ok (), m1, added ++ extra, rfl, hapi, by rw [htr, List.append_assoc],
        hfetch, ?_⟩
      intro _ ev hev
      rcases List.mem_append.mp hev with h | h
      · exact (hall ev h).2
      · exact (hextra ev h).2
    | error e =>
      refine ⟨.error superLoadPortfolioDataError, _,
        added ++ extra ++ [.consoleError "Failed to load portfolio data:" e,
          .notification "Failed to load portfolio data. Using local data." "error"],
        rfl, by simp [showNotification, logError, hapi, setLoadingState],
        by simp [showNotification, logError, htr], ?_, ?_⟩
      · intro ev hev hf
        rcases List.mem_append.mp hev with h | h
        · exact hfetch ev h hf
        · simp only [List.mem_cons, List.mem_singleton, List.not_mem_nil, or_false] at h
          rcases h with rfl | rfl <;> simp [Event.isFetch] at hf
      · intro h; cases h

/-- The method `loadAdminProjects` always finishes; its transport calls are GET
requests, and it notifies nothing. -/
theorem loadAdminProjects_events (env : Env) (m : Manager) :
    ∃ m1 added, loadAdminProjects env m = some m1
      ∧ m1.api = m.api ∧ m1.loadingState = m.loadingState ∧ m1.trace = m.trace ++ added
      ∧ ∀ ev ∈ added,
          (ev.isFetch = true → ∃ url, ev = .fetch url (mergeOptions noOptions))
          ∧ ∀ message type, ev ≠ .notification message type := by
  obtain ⟨r, added, hrun, hall⟩ := getProjects_events m.api env m.trace
  have hlog : ∀ (extra : List Event),
      (∀ ev ∈ extra, ev.isFetch = false ∧ ∀ message type, ev ≠ .notification message type) →
      ∀ ev ∈ added ++ extra,
        (ev.isFetch = true → ∃ url, ev = .fetch url (mergeOptions noOptions))
        ∧ ∀ message type, ev ≠ .notification message type := by
    intro extra hextra ev hev
    rcases List.mem_append.mp hev with h | h
    · exact hall ev h
    · exact ⟨fun hf => (by rw [(hextra ev h).1] at hf; cases hf), (hextra ev h).2⟩
  have hplain : ∀ ev : Event, ev.isFetch = false → (∀ message type,
      ev ≠ .notification message type) → ∀ ev1 ∈ [ev],
      ev1.isFetch = false ∧ ∀ message type, ev1 ≠ .notification message type := by
    intro ev h1 h2 ev1 hev1
    rw [List.mem_singleton.mp hev1]
    exact ⟨h1, h2⟩
  cases r with
  | error e =>
    have hval : loadAdminProjects env m
        = some (logError { m with trace := m.trace ++ added }
            "Failed to load admin projects:" e) := by
      simp only [loadAdminProjects, hrun]
    exact ⟨_, added ++ [.consoleError "Failed to load admin projects:" e], hval, rfl, rfl,
      by simp [logError], hlog _ (hplain (.consoleError "Failed to load admin projects:" e) rfl
        (fun _ _ h => by cases h))⟩
  | ok response =>
    cases hp : propOf response "data" with
    | error e =>
      have hval : loadAdminProjects env m
          = some (logError { m with trace := m.trace ++ added }
              "Failed to load admin projects:" e) := by
        simp only [loadAdminProjects, hrun, hp]
      exact ⟨_, added ++ [.consoleError "Failed to load admin projects:" e], hval, rfl, rfl,
        by simp [logError], hlog _ (hplain (.consoleError "Failed to load admin projects:" e) rfl
          (fun _ _ h => by cases h))⟩
    | ok data =>
      cases hr : env.renderThrows "admin-projects-list"
          (if data.truthy then data else .arr []) with
      | none =>
        have hval : loadAdminProjects env m
            = some { m with trace := (m.trace ++ added) ++ [.render "admin-projects-list"
                (if data.truthy then data else .arr [])] } := by
          simp only [loadAdminProjects, hrun, hp, renderView, hr]
        exact ⟨_, added ++ [.render "admin-projects-list"
            (if data.truthy then data else .arr [])], hval, rfl, rfl,
          by simp, hlog _ (hplain (.render "admin-projects-list"
            (if data.truthy then data else .arr [])) rfl (fun _ _ h => by cases h))⟩
      | some e =>
        have hval : loadAdminProjects env m
            = some (logError { m with trace := (m.trace ++ added)
                ++ [.render "admin-projects-list" (if data.truthy then data else .arr [])] }
                "Failed to load admin projects:" e) := by
          simp only [loadAdminProjects, hrun, hp, renderView, hr]
        exact ⟨_, added ++ [.render "admin-projects-list"
            (if data.truthy then data else .arr []),
            .consoleError "Failed to load admin projects:" e], hval, rfl, rfl,
          by simp [logError], hlog _ (by
            intro ev hev
            simp only [List.mem_cons, List.mem_singleton, List.not_mem_nil, or_false] at hev
            rcases hev with rfl | rfl
            · exact ⟨rfl, fun _ _ h => by cases h⟩
            · exact ⟨rfl, fun _ _ h => by cases h⟩)⟩

/-! ## Deletion through the API -/

/-- A confirmed deletion in `EnhancedPortfolioManager` whose DELETE request succeeds:
the method finishes, the success is notified right after the request, and the failure
is notified after it exactly when `loadPortfolioDataFromAPI` rejects. -/
theorem enhanced_delete_of_success (env : Env) (m : Manager) (projectId v : JsVal)
    (tr1 : List Event)
    (hreq : m.api.deleteProject env projectId m.trace = some (.ok v, tr1)) :
    ∃ m1 rest, EnhancedPortfolioManager.deleteProject env true projectId m = some m1
      ∧ m1.trace = tr1 ++ .notification "Project deleted successfully!" "success" :: rest
      ∧ (.notification "Failed to delete project" "error" ∈ rest ↔
          ∃ e m2, loadPortfolioDataFromAPI env
              (showNotification { setLoadingState m true with trace := tr1 }
                "Project deleted successfully!" "success") = some (.error e, m2)) := by
  obtain ⟨r, m1, added, hload, _, htr, _, hquiet⟩ := loadPortfolioDataFromAPI_events env
    (showNotification { setLoadingState m true with trace := tr1 }
      "Project deleted successfully!" "success")
  have hreq1 : (setLoadingState m true).api.deleteProject env projectId
      (setLoadingState m true).trace = some (.ok v, tr1) := hreq
  cases r with
  | error e =>
    refine ⟨setLoadingState (showNotification (logError m1 "Failed to delete project:" e)
        "Failed to delete project" "error") false,
      added ++ [.consoleError "Failed to delete project:" e,
        .notification "Failed to delete project" "error"], ?_, ?_, ?_⟩
    · simp only [EnhancedPortfolioManager.deleteProject, EnhancedPortfolioManager.deleteTry,
        hreq1, hload]
      rfl
    · simp [setLoadingState, showNotification, logError, htr]
    · constructor
      · intro _; exact ⟨e, m1, hload⟩
      · intro _; simp
  | ok u =>
    obtain ⟨m2, added2, hadmin, _, _, htr2, hquiet2⟩ := loadAdminProjects_events env m1
    refine ⟨setLoadingState m2 false, added ++ added2, ?_, ?_, ?_⟩
    · simp only [EnhancedPortfolioManager.deleteProject, EnhancedPortfolioManager.deleteTry,
        hreq1, hload, hadmin]
      rfl
    · simp [setLoadingState, showNotification, htr, htr2]
    · constructor
      · intro hmem
        rcases List.mem_append.mp hmem with h | h
        · exact absurd rfl (hquiet rfl _ h _ _)
        · exact absurd rfl ((hquiet2 _ h).2 _ _)
      · rintro ⟨e, m3, h⟩
        rw [hload] at h
        cases h

/-- C21, amended: for every project id present in a stored list of records, the first
confirmed `deleteProject` of either local-store manager notifies the success and leaves
no record with that id in the store; a second confirmed `deleteProject` with the same
id, with the text just written read back as that list, notifies the success again and
leaves the store as it is.  In the API-backed manager a confirmed `deleteProject` whose
DELETE request fails notifies the failure, and only that; one whose DELETE request
succeeds finishes, notifies the success right after the request, and notifies the
failure after it exactly when the reload of the portfolio data that follows rejects. -/
theorem delete_twice_reports_success_twice (B : LocalBrowser) (w : LocalWorld)
    (projectId : JsVal) (s : String) (L : List JsVal)
    (hs : w.storage "portfolio_projects" = some s) (hne : s ≠ "")
    (hparse : B.jsonParse s = .ok (.arr L))
    (hrec : ∀ p ∈ L, p ≠ .null ∧ p ≠ .undefined)
    (hpresent : ∃ p ∈ L, strictEquals (p.get "id") projectId = true) :
    (∃ kept rest rest2,
        (SimplePortfolioManager.deleteProject B true projectId w).storage "portfolio_projects"
          = some (B.jsonStringify (.arr kept))
        ∧ (PortfolioManager.deleteProject B true projectId w).storage "portfolio_projects"
          = some (B.jsonStringify (.arr kept))
        ∧ (∀ p ∈ kept, strictEquals (p.get "id") projectId = false)
        ∧ kept.length < L.length
        ∧ (SimplePortfolioManager.deleteProject B true projectId w).events
          = w.events ++ .notification "Project deleted successfully!" "success" :: rest
        ∧ (PortfolioManager.deleteProject B true projectId w).events
          = w.events ++ .notification "Project deleted successfully!" "success" :: rest2
        ∧ (B.jsonStringify (.arr kept) ≠ "" →
            B.jsonParse (B.jsonStringify (.arr kept)) = .ok (.arr kept) →
            (∃ again, (SimplePortfolioManager.deleteProject B true projectId
                  (SimplePortfolioManager.deleteProject B true projectId w)).events
                = (SimplePortfolioManager.deleteProject B true projectId w).events
                  ++ .notification "Project deleted successfully!" "success" :: again)
            ∧ (∃ again, (PortfolioManager.deleteProject B true projectId
                  (PortfolioManager.deleteProject B true projectId w)).events
                = (PortfolioManager.deleteProject B true projectId w).events
                  ++ .notification "Project deleted successfully!" "success" :: again)
            ∧ (SimplePortfolioManager.deleteProject B true projectId
                  (SimplePortfolioManager.deleteProject B true projectId w)).storage
                = (SimplePortfolioManager.deleteProject B true projectId w).storage
            ∧ (PortfolioManager.deleteProject B true projectId
                  (PortfolioManager.deleteProject B true projectId w)).storage
                = (PortfolioManager.deleteProject B true projectId w).storage))
    ∧ (∀ (env : Env) (m : Manager) (e : JsError) (tr1 : List Event),
        m.api.deleteProject env projectId m.trace = some (.error e, tr1) →
        EnhancedPortfolioManager.deleteProject env true projectId m
          = some { api := m.api, loadingState := false,
                   trace := tr1 ++ [.consoleError "Failed to delete project:" e,
                     .notification "Failed to delete project" "error"] })
    ∧ (∀ (env : Env) (m : Manager) (v : JsVal) (tr1 : List Event),
        m.api.deleteProject env projectId m.trace = some (.ok v, tr1) →
        ∃ m1 rest, EnhancedPortfolioManager.deleteProject env true projectId m = some m1
          ∧ m1.trace = tr1 ++ .notification "Project deleted successfully!" "success" :: rest
          ∧ (.notification "Failed to delete project" "error" ∈ rest ↔
              ∃ e m2, loadPortfolioDataFromAPI env
                  (showNotification { setLoadingState m true with trace := tr1 }
                    "Project deleted successfully!" "success") = some (.error e, m2))) := by
  obtain ⟨⟨h1, _, rest, h2⟩, h3⟩ := simple_delete_entry B w projectId s L hs hne hparse hrec
  obtain ⟨⟨g1, _, rest2, g2⟩, g3⟩ := main_delete_entry B w projectId s L hs hne hparse hrec
  refine ⟨⟨L.filter (fun p => !strictEquals (p.get "id") projectId), rest, rest2, h1, g1,
    ?_, ?_, h2, g2, ?_⟩, ?_, ?_⟩
  · intro p hp
    simpa using (List.mem_filter.mp hp).2
  · obtain ⟨p, hp, hid⟩ := hpresent
    apply List.length_filter_lt_length_iff_exists.mpr
    exact ⟨p, hp, by simp [hid]⟩
  · intro htext hround
    exact ⟨(h3 htext hround).2, (g3 htext hround).2, (h3 htext hround).1,
      (g3 htext hround).1⟩
  · intro env m e tr1 hreq
    simp [EnhancedPortfolioManager.deleteProject, EnhancedPortfolioManager.deleteTry,
      setLoadingState, hreq, showNotification, logError]
  · intro env m v tr1 hreq
    exact enhanced_delete_of_success env m projectId v tr1 hreq

/-- C21, amended, on the store that holds the one project with id `1`: both confirmed
deletions of `1` notify the success. -/
theorem delete_twice_reports_success_twice_witness :
    ∃ kept rest, (SimplePortfolioManager.deleteProject tableBrowser true (.str "1")
          oneProjectWorld).storage "portfolio_projects"
        = some (tableBrowser.jsonStringify (.arr kept))
      ∧ kept.length < [JsVal.obj [("id", .str "1")]].length
      ∧ (SimplePortfolioManager.deleteProject tableBrowser true (.str "1")
          oneProjectWorld).events
        = oneProjectWorld.events
          ++ .notification "Project deleted successfully!" "success" :: rest := by
  obtain ⟨⟨kept, rest, _, h1, _, _, hlen, h2, _⟩, _⟩ :=
    delete_twice_reports_success_twice tableBrowser oneProjectWorld (.str "1")
      oneProjectText [.obj [("id", .str "1")]] rfl (by decide) rfl (by simp)
      ⟨_, List.mem_singleton.mpr rfl, rfl⟩
  exact ⟨kept, rest, h1, hlen, h2⟩

/-! ## Tags in the project that a handler submits or stores -/

/-- The tags of the project that `SimplePortfolioManager` builds are the parsed tags of
the element `project-tags`. -/
theorem simple_project_tags (dom : String → Option JsVal) (now : Nat) (createdAt : String)
    (project : JsObj) (value : String)
    (h : SimplePortfolioManager.projectFromDocument dom now createdAt = .ok project)
    (hdom : dom "project-tags" = some (.str value)) :
    lookupField project "tags" = .arr ((parseTags value).map JsVal.str) := by
  unfold SimplePortfolioManager.projectFromDocument at h
  cases h1 : domValue dom "project-title" <;>
    simp only [h1, bind, Except.bind] at h <;> try cases h
  cases h2 : domValue dom "project-category" <;> simp only [h2] at h <;> try cases h
  cases h3 : domValue dom "project-description" <;> simp only [h3] at h <;> try cases h
  cases h4 : domValue dom "project-thumbnail" <;> simp only [h4] at h <;> try cases h
  cases h5 : domValue dom "project-video" <;> simp only [h5] at h <;> try cases h
  cases h6 : domValue dom "project-links" <;> simp only [h6] at h <;> try cases h
  have h7 : tagsFromDocument dom = .ok (.arr ((parseTags value).map JsVal.str)) := by
    simp [tagsFromDocument, hdom]
  simp only [h7] at h
  cases h
  simp [lookupField]

/-- A document with all the elements of the project form lets `SimplePortfolioManager`
build the project. -/
theorem simple_project_built (dom : String → Option JsVal) (now : Nat) (createdAt : String)
    (value : String) (hall : ∀ id, dom id ≠ none)
    (hdom : dom "project-tags" = some (.str value)) :
    ∃ project, SimplePortfolioManager.projectFromDocument dom now createdAt = .ok project := by
  have hval : ∀ id, ∃ v, domValue dom id = .ok v := by
    intro id
    cases hd : dom id with
    | none => exact absurd hd (hall id)
    | some v => exact ⟨v, by simp [domValue, hd]⟩
  obtain ⟨v1, h1⟩ := hval "project-title"
  obtain ⟨v2, h2⟩ := hval "project-category"
  obtain ⟨v3, h3⟩ := hval "project-description"
  obtain ⟨v4, h4⟩ := hval "project-thumbnail"
  obtain ⟨v5, h5⟩ := hval "project-video"
  obtain ⟨v6, h6⟩ := hval "project-links"
  have h7 : tagsFromDocument dom = .ok (.arr ((parseTags value).map JsVal.str)) := by
    simp [tagsFromDocument, hdom]
  exact ⟨[("id", .str (toString now)), ("title", v1), ("category", v2), ("description", v3),
      ("thumbnail", v4), ("video_url", v5), ("external_links", v6),
      ("tags", .arr ((parseTags value).map JsVal.str)), ("featured", .bool false),
      ("created_at", .str createdAt)],
    by simp only [SimplePortfolioManager.projectFromDocument, h1, h2, h3, h4, h5, h6,
      h7, bind, Except.bind, pure, Except.pure]⟩

/-- An accepted submission in `EnhancedPortfolioManager`: the handler finishes; each of
its transport calls is the POST of the tagged project to `<base>/projects` or a GET of
the reload, and with `retryCount ≥ 1` that POST is made. -/
theorem enhanced_submit_of_tagged (env : Env) (formData : String → JsVal) (m : Manager)
    (project tagged : JsObj)
    (hbuild : projectFromForm env formData = .ok project)
    (hvalid : validateProject project = .ok true)
    (htag : withTags env project = .ok tagged) :
    ∃ m1 added, handleProjectSubmit env formData m = some m1
      ∧ m1.trace = m.trace ++ added
      ∧ (∀ ev ∈ added, ev.isFetch = true →
          ev = .fetch (m.api.baseURL ++ "/projects")
              { method := some "POST", headers := some defaultHeaders,
                body := some (.obj (setField tagged "created_at" (env.now m.trace))) }
            ∨ ∃ url, ev = .fetch url (mergeOptions noOptions))
      ∧ (1 ≤ m.api.retryCount →
          Event.fetch (m.api.baseURL ++ "/projects")
              { method := some "POST", headers := some defaultHeaders,
                body := some (.obj (setField tagged "created_at" (env.now m.trace))) }
            ∈ added) := by
  obtain ⟨r, addedC, hrun, hfetch, hcalls, _⟩ := apiRequest_requests m.api env.net
    (m.api.baseURL ++ "/projects")
    { method := some "POST", headers := none,
      body := some (.obj (setField tagged "created_at" (env.now m.trace))) } m.trace
  have hrun1 : createProject (setLoadingState m true).api env tagged
      (setLoadingState m true).trace = some (r, m.trace ++ addedC) := hrun
  have hpost : 1 ≤ m.api.retryCount →
      Event.fetch (m.api.baseURL ++ "/projects")
          { method := some "POST", headers := some defaultHeaders,
            body := some (.obj (setField tagged "created_at" (env.now m.trace))) }
        ∈ addedC := by
    intro hN
    have hpos : 0 < List.countP Event.isFetch addedC := hcalls hN
    obtain ⟨ev, hev, hf⟩ := List.countP_pos_iff.mp hpos
    have hsame : ev = Event.fetch (m.api.baseURL ++ "/projects")
        { method := some "POST", headers := some defaultHeaders,
          body := some (.obj (setField tagged "created_at" (env.now m.trace))) } :=
      hfetch ev hev hf
    rw [← hsame]
    exact hev
  have hleft : ∀ ev ∈ addedC, ev.isFetch = true →
      ev = .fetch (m.api.baseURL ++ "/projects")
          { method := some "POST", headers := some defaultHeaders,
            body := some (.obj (setField tagged "created_at" (env.now m.trace))) }
        ∨ ∃ url, ev = .fetch url (mergeOptions noOptions) :=
    fun ev hev hf => Or.inl (hfetch ev hev hf)
  cases r with
  | error e =>
    refine ⟨setLoadingState (showNotification (logError
        { setLoadingState m true with trace := m.trace ++ addedC } "Failed to add project:" e)
        (messageOr e "Failed to add project") "error") false,
      addedC ++ [.consoleError "Failed to add project:" e,
        .notification (messageOr e "Failed to add project") "error"], ?_, ?_, ?_, ?_⟩
    · simp only [handleProjectSubmit, projectSubmitTry, hbuild, hvalid, htag, hrun1]
    · simp [setLoadingState, showNotification, logError]
    · intro ev hev hf
      rcases List.mem_append.mp hev with h | h
      · exact hleft ev h hf
      · simp only [List.mem_cons, List.mem_singleton, List.not_mem_nil, or_false] at h
        rcases h with rfl | rfl <;> simp [Event.isFetch] at hf
    · intro hN; exact List.mem_append_left _ (hpost hN)
  | ok v =>
    obtain ⟨r2, m2, added2, hload, _, htr2, hfetch2, _⟩ := loadPortfolioDataFromAPI_events env
      (resetForm (showNotification { setLoadingState m true with trace := m.trace ++ addedC }
        "Project added successfully!" "success"))
    have hmid : ∀ ev ∈ addedC ++ [Event.notification "Project added successfully!" "success",
        Event.formReset] ++ added2, ev.isFetch = true →
        ev = .fetch (m.api.baseURL ++ "/projects")
            { method := some "POST", headers := some defaultHeaders,
              body := some (.obj (setField tagged "created_at" (env.now m.trace))) }
          ∨ ∃ url, ev = .fetch url (mergeOptions noOptions) := by
      intro ev hev hf
      rcases List.mem_append.mp hev with h | h
      · rcases List.mem_append.mp h with h0 | h0
        · exact hleft ev h0 hf
        · simp only [List.mem_cons, List.mem_singleton, List.not_mem_nil, or_false] at h0
          rcases h0 with rfl | rfl <;> simp [Event.isFetch] at hf
      · exact Or.inr (hfetch2 ev h hf)
    cases r2 with
    | error e =>
      refine ⟨setLoadingState (showNotification (logError m2 "Failed to add project:" e)
          (messageOr e "Failed to add project") "error") false,
        (addedC ++ [.notification "Project added successfully!" "success", .formReset]
          ++ added2) ++ [.consoleError "Failed to add project:" e,
          .notification (messageOr e "Failed to add project") "error"], ?_, ?_, ?_, ?_⟩
      · simp only [handleProjectSubmit, projectSubmitTry, hbuild, hvalid, htag, hrun1,
          hload]
      · simp [setLoadingState, showNotification, logError, resetForm, htr2]
      · intro ev hev hf
        rcases List.mem_append.mp hev with h | h
        · exact hmid ev h hf
        · simp only [List.mem_cons, List.mem_singleton, List.not_mem_nil, or_false] at h
          rcases h with rfl | rfl <;> simp [Event.isFetch] at hf
      · intro hN
        exact List.mem_append_left _ (List.mem_append_left _
          (List.mem_append_left _ (hpost hN)))
    | ok u =>
      obtain ⟨m3, added3, hadmin, _, _, htr3, hall3⟩ := loadAdminProjects_events env m2
      refine ⟨setLoadingState m3 false,
        (addedC ++ [.notification "Project added successfully!" "success", .formReset]
          ++ added2) ++ added3, ?_, ?_, ?_, ?_⟩
      · simp only [handleProjectSubmit, projectSubmitTry, hbuild, hvalid, htag, hrun1,
          hload, hadmin]
      · simp [setLoadingState, showNotification, resetForm, htr2, htr3]
      · intro ev hev hf
        rcases List.mem_append.mp hev with h | h
        · exact hmid ev h hf
        · exact Or.inr ((hall3 ev h).1 hf)
      · intro hN
        exact List.mem_append_left _ (List.mem_append_left _
          (List.mem_append_left _ (hpost hN)))

/-- C30: for every tags input, the pieces are what lies between the commas (joined with
commas they give the input back, and none contains a comma); the tags are the pieces,
each trimmed of leading and trailing white space, without the empty ones, in the
original order; so no tag is empty or starts or ends with white space, and an input of
commas and white space only, or an empty one, gives no tags.  This list is the `tags`
of the project that the handlers work with: `handleProjectSubmit` of
`SimplePortfolioManager` builds the project with it and, when title and category are
filled in, writes the stored list with that project added; `handleProjectSubmit` of
`EnhancedPortfolioManager`, for a valid project, sets it on the project, leaves the
other fields alone, and sends that project in every POST to `<base>/projects`, of which
there is one at least when `retryCount ≥ 1`. -/
theorem parseTags_trimmed_pieces (value : String) :
    (List.intercalate [','] (splitOnComma value.toList) = value.toList
      ∧ ∀ piece ∈ splitOnComma value.toList, ',' ∉ piece)
    ∧ parseTags value
        = (((splitOnComma value.toList).map trimChars).filter (fun t => !t.isEmpty)).map
            String.mk
    ∧ (∀ piece : List Char,
        (∃ pre post, piece = pre ++ trimChars piece ++ post
          ∧ (∀ c ∈ pre, isWhiteSpace c = true) ∧ (∀ c ∈ post, isWhiteSpace c = true))
        ∧ (∀ c, (trimChars piece).head? = some c → isWhiteSpace c = false)
        ∧ (∀ c, (trimChars piece).getLast? = some c → isWhiteSpace c = false))
    ∧ (∀ tag ∈ parseTags value,
        tag ≠ ""
        ∧ (∀ c, tag.toList.head? = some c → isWhiteSpace c = false)
        ∧ (∀ c, tag.toList.getLast? = some c → isWhiteSpace c = false))
    ∧ ((∀ c ∈ value.toList, c = ',' ∨ isWhiteSpace c = true) → parseTags value = [])
    ∧ (∀ (env : Env) (formData : String → JsVal) (project : JsObj),
        projectFromForm env formData = .ok project →
        env.dom "project-tags" = some (.str value) →
        ∃ tagged, withTags env project = .ok tagged
          ∧ lookupField tagged "tags" = .arr ((parseTags value).map JsVal.str))
    ∧ (∀ dom : String → Option JsVal, dom "project-tags" = some (.str value) →
        tagsFromDocument dom = .ok (.arr ((parseTags value).map JsVal.str)))
    ∧ (∀ (B : LocalBrowser) (dom : String → Option JsVal) (now : Nat) (createdAt : String)
        (w : LocalWorld) (L : List JsVal),
        dom "project-tags" = some (.str value) →
        (∀ id, dom id ≠ none) →
        SimplePortfolioManager.getStoredProjects (B.reader w) = .ok (.arr L) →
        ∃ project, SimplePortfolioManager.projectFromDocument dom now createdAt = .ok project
          ∧ lookupField project "tags" = .arr ((parseTags value).map JsVal.str)
          ∧ (lacksRequired project = false →
              ∃ w1, SimplePortfolioManager.handleProjectSubmit B dom now createdAt w = .ok w1
                ∧ w1.storage "portfolio_projects"
                    = some (B.jsonStringify (.arr (L ++ [.obj project])))))
    ∧ (∀ (env : Env) (formData : String → JsVal) (m : Manager) (project : JsObj),
        env.dom "project-tags" = some (.str value) →
        projectFromForm env formData = .ok project →
        validateProject project = .ok true →
        ∃ tagged m1 added, withTags env project = .ok tagged
          ∧ lookupField tagged "tags" = .arr ((parseTags value).map JsVal.str)
          ∧ (∀ field, field ≠ "tags" → lookupField tagged field = lookupField project field)
          ∧ handleProjectSubmit env formData m = some m1
          ∧ m1.trace = m.trace ++ added
          ∧ (∀ ev ∈ added, ev.isFetch = true →
              ev = .fetch (m.api.baseURL ++ "/projects")
                  { method := some "POST", headers := some defaultHeaders,
                    body := some (.obj (setField tagged "created_at" (env.now m.trace))) }
                ∨ ∃ url, ev = .fetch url (mergeOptions noOptions))
          ∧ (1 ≤ m.api.retryCount →
              Event.fetch (m.api.baseURL ++ "/projects")
                  { method := some "POST", headers := some defaultHeaders,
                    body := some (.obj (setField tagged "created_at" (env.now m.trace))) }
                ∈ added)) := by
  have htagged : ∀ (env : Env) (formData : String → JsVal) (project : JsObj),
      projectFromForm env formData = .ok project →
      env.dom "project-tags" = some (.str value) →
      ∃ tagged, withTags env project = .ok tagged
        ∧ lookupField tagged "tags" = .arr ((parseTags value).map JsVal.str)
        ∧ ∀ field, field ≠ "tags" → lookupField tagged field = lookupField project field := by
    intro env formData project hbuild hdom
    by_cases hv : value = ""
    · subst hv
      refine ⟨project, by simp [withTags, hdom, JsVal.truthy], ?_, fun _ _ => rfl⟩
      rw [projectFromForm_tags env formData project hbuild]
      rfl
    · exact ⟨setField project "tags" (.arr ((parseTags value).map JsVal.str)),
        by simp [withTags, hdom, JsVal.truthy, hv], lookupField_setField_same _ _ _,
        fun field hf => lookupField_setField_other _ _ _ _ hf⟩
  refine ⟨⟨intercalate_splitOnComma _, comma_not_mem_splitOnComma _⟩, rfl, trimChars_spec,
    ?_, parseTags_eq_nil value, ?_, ?_, ?_, ?_⟩
  · intro tag htag
    obtain ⟨h1, _, h3, h4⟩ := parseTags_tag_spec value tag htag
    exact ⟨h1, h3, h4⟩
  · intro env formData project hbuild hdom
    obtain ⟨tagged, h1, h2, _⟩ := htagged env formData project hbuild hdom
    exact ⟨tagged, h1, h2⟩
  · intro dom hdom
    simp [tagsFromDocument, hdom]
  · intro B dom now createdAt w L hdom hall hread
    obtain ⟨project, hbuild⟩ := simple_project_built dom now createdAt value hall hdom
    refine ⟨project, hbuild, simple_project_tags dom now createdAt project value hbuild hdom,
      ?_⟩
    intro hreq
    refine ⟨_, by simp only [SimplePortfolioManager.handleProjectSubmit, hbuild, hreq]; rfl,
      ?_⟩
    exact (congrFun (simple_submit_of_read B w project L hread).1 "portfolio_projects").trans
      (by simp [LocalWorld.setItem])
  · intro env formData m project hdom hbuild hvalid
    obtain ⟨tagged, h1, h2, h3⟩ := htagged env formData project hbuild hdom
    obtain ⟨m1, added, g1, g2, g3, g4⟩ :=
      enhanced_submit_of_tagged env formData m project tagged hbuild hvalid h1
    exact ⟨tagged, m1, added, h1, h2, h3, g1, g2, g3, g4⟩

/-- C30 on the input ` a, b ,,c ,  `: `SimplePortfolioManager` adds a project with the
tags `a`, `b`, `c` to the stored list, and `EnhancedPortfolioManager` sends a project
with these tags in its POST. -/
theorem parseTags_trimmed_pieces_witness :
    (∃ project, SimplePortfolioManager.projectFromDocument taggedDocument 5 "c" = .ok project
      ∧ lookupField project "tags" = .arr [.str "a", .str "b", .str "c"]
      ∧ (lacksRequired project = false →
          ∃ w1, SimplePortfolioManager.handleProjectSubmit tableBrowser taggedDocument 5 "c"
              oneProjectWorld = .ok w1
            ∧ w1.storage "portfolio_projects"
                = some (tableBrowser.jsonStringify
                    (.arr ([.obj [("id", .str "1")]] ++ [.obj project])))))
    ∧ (∃ tagged m1 added,
        lookupField tagged "tags" = .arr [.str "a", .str "b", .str "c"]
        ∧ handleProjectSubmit taggedFormEnv emptyFormData freshManager = some m1
        ∧ m1.trace = freshManager.trace ++ added
        ∧ Event.fetch "/tables/projects"
            { method := some "POST", headers := some defaultHeaders,
              body := some (.obj (setField tagged "created_at"
                (taggedFormEnv.now freshManager.trace))) } ∈ added) := by
  refine ⟨(parseTags_trimmed_pieces " a, b ,,c ,  ").2.2.2.2.2.2.2.1 tableBrowser
      taggedDocument 5 "c" oneProjectWorld [.obj [("id", .str "1")]] rfl
      (fun id => by unfold taggedDocument; split_ifs <;> simp) rfl, ?_⟩
  obtain ⟨tagged, m1, added, _, h2, _, h4, h5, _, h7⟩ :=
    (parseTags_trimmed_pieces " a, b ,,c ,  ").2.2.2.2.2.2.2.2 taggedFormEnv emptyFormData
      freshManager
      [("title", .str "Reel"), ("category", .str "video"), ("description", .str ""),
        ("thumbnail", .str ""), ("video_url", .str ""), ("external_links", .str ""),
        ("featured", .bool false), ("tags", .arr [])] rfl rfl rfl
  exact ⟨tagged, m1, added, h2, h4, h5, h7 (by decide)⟩

/-! ## Profile upsert under retries -/

/-- The call `apiRequest` always returns; all its transport calls carry the given URL
and the merged options; with `retryCount ≥ 1` there is at least one; there are exactly
`j + 1` when the first `j` attempts fail and the next one succeeds, and exactly
`retryCount` when all attempts fail. -/
theorem apiRequest_attempts (api : PortfolioAPI) (net : Transport) (url : String)
    (options : RequestOptions) (tr : List Event) :
    ∃ r added, apiRequest api net url options tr = some (r, tr ++ added)
      ∧ (∀ ev ∈ added, ev.isFetch = true → ev = .fetch url (mergeOptions options))
      ∧ (1 ≤ api.retryCount → 1 ≤ fetchCount added)
      ∧ (∀ (errs : Nat → JsError) (j : Nat) (v : JsVal),
          ((j + 1 : Nat) : Int) ≤ api.retryCount →
          (∀ i, i < j → attemptOutcome (net (fetchCount tr + i) url (mergeOptions options))
            = .error (errs i)) →
          attemptOutcome (net (fetchCount tr + j) url (mergeOptions options)) = .ok v →
          r = .ok v ∧ fetchCount added = j + 1)
      ∧ (∀ (errs : Nat → JsError) (n : Nat), api.retryCount = ((n + 1 : Nat) : Int) →
          (∀ i, i < n + 1 →
            attemptOutcome (net (fetchCount tr + i) url (mergeOptions options))
              = .error (errs i)) →
          r = .error (errs n) ∧ fetchCount added = n + 1) := by
  obtain ⟨r, added, hrun, hfetch, hcalls, _⟩ := apiRequest_requests api net url options tr
  refine ⟨r, added, hrun, hfetch, hcalls, ?_, ?_⟩
  · intro errs j v hj hfail hv
    have h := apiRequest_success_trace api net url options tr errs j v hj hfail hv
    rw [hrun] at h
    simp only [Option.some.injEq, Prod.mk.injEq] at h
    refine ⟨h.1, ?_⟩
    rw [List.append_cancel_left h.2, fetchCount_append, fetchCount_retriedAttempts,
      fetchCount_attemptEvents]
  · intro errs n hn hfail
    have h := apiRequest_exhausted_trace api net url options tr errs n hn hfail
    rw [hrun] at h
    simp only [Option.some.injEq, Prod.mk.injEq] at h
    refine ⟨h.1, ?_⟩
    rw [List.append_cancel_left h.2, fetchCount_append, fetchCount_retriedAttempts,
      fetchCount_append, fetchCount_attemptEvents]
    simp [fetchCount, Event.isFetch]

/-- The one transport call among the events of an attempt. -/
theorem requestLine_attemptEvents (net : Transport) (url : String) (m : RequestOptions)
    (c : Nat) : (attemptEvents net url m c).filterMap requestLine = [(url, m.method)] := by
  rcases handleResponse_events (net c url m) with h | h <;>
    simp [attemptEvents, h, requestLine]

/-- A write of `updateProfile` whose first attempt succeeds: the value of that attempt is
returned and the events added are those of the one attempt. -/
theorem updateProfile_of_first_success (api : PortfolioAPI) (env : Env)
    (profileData : JsObj) (tr tr1 : List Event) (existing v : JsVal)
    (hN : 1 ≤ api.retryCount)
    (hlookup : getProfile api env tr = some (.ok existing, tr1)) :
    (existing.truthy = false →
      attemptOutcome (env.net (fetchCount tr1) (api.baseURL ++ "/profile")
        { method := some "POST", headers := some defaultHeaders,
          body := some (.obj (setField profileData "updated_at" (env.now tr1))) }) = .ok v →
      updateProfile api env profileData tr
        = some (.ok v, tr1 ++ attemptEvents env.net (api.baseURL ++ "/profile")
            { method := some "POST", headers := some defaultHeaders,
              body := some (.obj (setField profileData "updated_at" (env.now tr1))) }
            (fetchCount tr1)))
    ∧ (existing.truthy = true →
      attemptOutcome (env.net (fetchCount tr1)
        (api.baseURL ++ "/profile/" ++ (existing.get "id").toJsString)
        { method := some "PUT", headers := some defaultHeaders,
          body := some (.obj (setField profileData "updated_at" (env.now tr1))) }) = .ok v →
      updateProfile api env profileData tr
        = some (.ok v, tr1 ++ attemptEvents env.net
            (api.baseURL ++ "/profile/" ++ (existing.get "id").toJsString)
            { method := some "PUT", headers := some defaultHeaders,
              body := some (.obj (setField profileData "updated_at" (env.now tr1))) }
            (fetchCount tr1))) := by
  constructor
  · intro hnone hv
    have h := apiRequest_success_trace api env.net (api.baseURL ++ "/profile")
      { method := some "POST", headers := none,
        body := some (.obj (setField profileData "updated_at" (env.now tr1))) } tr1
      (fun _ => ⟨""⟩) 0 v (by simpa using hN) (fun i hi => absurd hi (Nat.not_lt_zero i))
      (by simpa using hv)
    simp only [retriedAttempts, List.nil_append, Nat.add_zero] at h
    simp only [updateProfile, hlookup, hnone, h]
    rfl
  · intro hsome hv
    have h := apiRequest_success_trace api env.net
      (api.baseURL ++ "/profile/" ++ (existing.get "id").toJsString)
      { method := some "PUT", headers := none,
        body := some (.obj (setField profileData "updated_at" (env.now tr1))) } tr1
      (fun _ => ⟨""⟩) 0 v (by simpa using hN) (fun i hi => absurd hi (Nat.not_lt_zero i))
      (by simpa using hv)
    simp only [retriedAttempts, List.nil_append, Nat.add_zero] at h
    simp only [updateProfile, hlookup, hsome, h]
    rfl

/-- C16, counterexample: against a store whose answer to the first create cannot be
decoded, one `updateProfile` on the empty store sends the create twice; and against a
store that is out of reach during the second lookup, the second of two calls of
`updateProfile` sends a second create although the first call created the profile. -/
theorem updateProfile_repeats_create :
    (match updateProfile PortfolioAPI.constructor flakyProfileEnv sampleProfile [] with
      | some (_, tr) => tr.filterMap requestLine
      | none => [])
      = [("/tables/profile?limit=1", none), ("/tables/profile", some "POST"),
         ("/tables/profile", some "POST")]
    ∧ (match updateProfile PortfolioAPI.constructor lostLookupEnv sampleProfile [] with
      | some (_, tr1) =>
        (match updateProfile PortfolioAPI.constructor lostLookupEnv sampleProfile tr1 with
          | some (_, tr2) => tr2.filterMap requestLine
          | none => [])
      | none => [])
      = [("/tables/profile?limit=1", none), ("/tables/profile", some "POST"),
         ("/tables/profile?limit=1", none), ("/tables/profile?limit=1", none),
         ("/tables/profile?limit=1", none), ("/tables/profile", some "POST")] :=
  ⟨rfl, rfl⟩

/-- C16, amended: `updateProfile` first looks the profile up with `limit=1`, and that
lookup always yields a value.  When it yields none (a falsy value) the write that
follows is a create: every transport call of it is a POST to `<base>/profile` with one
and the same body, none is an update; when it yields a profile the write is an update:
every transport call of it is a PUT to `<base>/profile/<id>`, none is a create.  The
write makes exactly `j + 1` transport calls when its first `j` attempts fail and the
next one succeeds, and exactly `retryCount` when all its attempts fail; so it makes
exactly one when its first attempt succeeds.  Hence, when both writes succeed at their
first attempt, an `updateProfile` for which the lookup finds no profile, followed by one
for which the lookup finds a profile, makes one create and then one update against the
id of the profile found. -/
theorem updateProfile_upsert (api : PortfolioAPI) (env : Env) (profileData : JsObj)
    (tr : List Event) :
    (∃ existing added, getProfile api env tr = some (.ok existing, tr ++ added)
        ∧ ∀ ev ∈ added, ev.isFetch = true →
            ev = .fetch (api.baseURL ++ "/profile?limit=1") (mergeOptions noOptions))
    ∧ (∀ existing tr1, getProfile api env tr = some (.ok existing, tr1) →
        existing.truthy = false →
        ∃ r added, updateProfile api env profileData tr = some (r, tr1 ++ added)
          ∧ (∀ ev ∈ added, ev.isFetch = true →
              ev = .fetch (api.baseURL ++ "/profile")
                { method := some "POST", headers := some defaultHeaders,
                  body := some (.obj (setField profileData "updated_at" (env.now tr1))) })
          ∧ (1 ≤ api.retryCount → 1 ≤ fetchCount added)
          ∧ (∀ (errs : Nat → JsError) (j : Nat) (v : JsVal),
              ((j + 1 : Nat) : Int) ≤ api.retryCount →
              (∀ i, i < j →
                attemptOutcome (env.net (fetchCount tr1 + i) (api.baseURL ++ "/profile")
                  { method := some "POST", headers := some defaultHeaders,
                    body := some (.obj (setField profileData "updated_at" (env.now tr1))) })
                  = .error (errs i)) →
              attemptOutcome (env.net (fetchCount tr1 + j) (api.baseURL ++ "/profile")
                { method := some "POST", headers := some defaultHeaders,
                  body := some (.obj (setField profileData "updated_at" (env.now tr1))) })
                = .ok v →
              r = .ok v ∧ fetchCount added = j + 1)
          ∧ (∀ (errs : Nat → JsError) (n : Nat), api.retryCount = ((n + 1 : Nat) : Int) →
              (∀ i, i < n + 1 →
                attemptOutcome (env.net (fetchCount tr1 + i) (api.baseURL ++ "/profile")
                  { method := some "POST", headers := some defaultHeaders,
                    body := some (.obj (setField profileData "updated_at" (env.now tr1))) })
                  = .error (errs i)) →
              r = .error (errs n) ∧ fetchCount added = n + 1))
    ∧ (∀ existing tr1, getProfile api env tr = some (.ok existing, tr1) →
        existing.truthy = true →
        ∃ r added, updateProfile api env profileData tr = some (r, tr1 ++ added)
          ∧ (∀ ev ∈ added, ev.isFetch = true →
              ev = .fetch (api.baseURL ++ "/profile/" ++ (existing.get "id").toJsString)
                { method := some "PUT", headers := some defaultHeaders,
                  body := some (.obj (setField profileData "updated_at" (env.now tr1))) })
          ∧ (1 ≤ api.retryCount → 1 ≤ fetchCount added)
          ∧ (∀ (errs : Nat → JsError) (j : Nat) (v : JsVal),
              ((j + 1 : Nat) : Int) ≤ api.retryCount →
              (∀ i, i < j →
                attemptOutcome (env.net (fetchCount tr1 + i)
                  (api.baseURL ++ "/profile/" ++ (existing.get "id").toJsString)
                  { method := some "PUT", headers := some defaultHeaders,
                    body := some (.obj (setField profileData "updated_at" (env.now tr1))) })
                  = .error (errs i)) →
              attemptOutcome (env.net (fetchCount tr1 + j)
                (api.baseURL ++ "/profile/" ++ (existing.get "id").toJsString)
                { method := some "PUT", headers := some defaultHeaders,
                  body := some (.obj (setField profileData "updated_at" (env.now tr1))) })
                = .ok v →
              r = .ok v ∧ fetchCount added = j + 1)
          ∧ (∀ (errs : Nat → JsError) (n : Nat), api.retryCount = ((n + 1 : Nat) : Int) →
              (∀ i, i < n + 1 →
                attemptOutcome (env.net (fetchCount tr1 + i)
                  (api.baseURL ++ "/profile/" ++ (existing.get "id").toJsString)
                  { method := some "PUT", headers := some defaultHeaders,
                    body := some (.obj (setField profileData "updated_at" (env.now tr1))) })
                  = .error (errs i)) →
              r = .error (errs n) ∧ fetchCount added = n + 1))
    ∧ (∀ (existing v existing2 v2 : JsVal) (tr1 tr3 : List Event) (profileData2 : JsObj),
        1 ≤ api.retryCount →
        getProfile api env tr = some (.ok existing, tr1) →
        existing.truthy = false →
        attemptOutcome (env.net (fetchCount tr1) (api.baseURL ++ "/profile")
          { method := some "POST", headers := some defaultHeaders,
            body := some (.obj (setField profileData "updated_at" (env.now tr1))) }) = .ok v →
        getProfile api env (tr1 ++ attemptEvents env.net (api.baseURL ++ "/profile")
            { method := some "POST", headers := some defaultHeaders,
              body := some (.obj (setField profileData "updated_at" (env.now tr1))) }
            (fetchCount tr1)) = some (.ok existing2, tr3) →
        existing2.truthy = true →
        attemptOutcome (env.net (fetchCount tr3)
          (api.baseURL ++ "/profile/" ++ (existing2.get "id").toJsString)
          { method := some "PUT", headers := some defaultHeaders,
            body := some (.obj (setField profileData2 "updated_at" (env.now tr3))) })
          = .ok v2 →
        ∃ added1 added2,
          updateProfile api env profileData tr = some (.ok v, tr1 ++ added1)
          ∧ added1.filterMap requestLine = [(api.baseURL ++ "/profile", some "POST")]
          ∧ updateProfile api env profileData2 (tr1 ++ added1) = some (.ok v2, tr3 ++ added2)
          ∧ added2.filterMap requestLine
              = [(api.baseURL ++ "/profile/" ++ (existing2.get "id").toJsString,
                  some "PUT")]) := by
  refine ⟨?_, ?_, ?_, ?_⟩
  · obtain ⟨r, added, hrun, hfetch, _, _⟩ := apiRequest_requests api env.net
      (api.baseURL ++ "/profile?limit=1") noOptions tr
    have hlog : ∀ (label : String) (e : JsError), ∀ ev ∈ added ++ [Event.consoleError label e],
        ev.isFetch = true →
        ev = .fetch (api.baseURL ++ "/profile?limit=1") (mergeOptions noOptions) := by
      intro label e ev hmem hf
      rcases List.mem_append.mp hmem with h1 | h1
      · exact hfetch ev h1 hf
      · rw [List.mem_singleton.mp h1] at hf; simp [Event.isFetch] at hf
    cases r with
    | error e =>
      exact ⟨.null, added ++ [.consoleError "Failed to get profile:" e],
        by simp only [getProfile, hrun, List.append_assoc], hlog _ e⟩
    | ok response =>
      cases hfirst : firstRecord response with
      | error e =>
        exact ⟨.null, added ++ [.consoleError "Failed to get profile:" e],
          by simp only [getProfile, hrun, hfirst, List.append_assoc], hlog _ e⟩
      | ok v =>
        exact ⟨v, added, by simp only [getProfile, hrun, hfirst], hfetch⟩
  · intro existing tr1 hlookup hnone
    obtain ⟨r, added, hrun, hfetch, hcalls, hsome, hall⟩ := apiRequest_attempts api env.net
      (api.baseURL ++ "/profile")
      { method := some "POST", headers := none,
        body := some (.obj (setField profileData "updated_at" (env.now tr1))) } tr1
    cases r with
    | error e =>
      refine ⟨.error e, added ++ [.consoleError "Failed to update profile:" e],
        by simp [updateProfile, hlookup, hnone, hrun], ?_, ?_, ?_, ?_⟩
      · intro ev hmem hf
        rcases List.mem_append.mp hmem with h1 | h1
        · exact hfetch ev h1 hf
        · rw [List.mem_singleton.mp h1] at hf; simp [Event.isFetch] at hf
      · intro hN
        rw [fetchCount_append]; exact Nat.le_add_right_of_le (hcalls hN)
      · intro errs j v hj hfail hv
        rw [fetchCount_append]
        refine ⟨(hsome errs j v hj hfail hv).1, ?_⟩
        rw [(hsome errs j v hj hfail hv).2]; simp [fetchCount, Event.isFetch]
      · intro errs n hn hfail
        rw [fetchCount_append]
        refine ⟨(hall errs n hn hfail).1, ?_⟩
        rw [(hall errs n hn hfail).2]; simp [fetchCount, Event.isFetch]
    | ok v =>
      exact ⟨.ok v, added, by simp [updateProfile, hlookup, hnone, hrun], hfetch, hcalls,
        hsome, hall⟩
  · intro existing tr1 hlookup hfound
    obtain ⟨r, added, hrun, hfetch, hcalls, hsome, hall⟩ := apiRequest_attempts api env.net
      (api.baseURL ++ "/profile/" ++ (existing.get "id").toJsString)
      { method := some "PUT", headers := none,
        body := some (.obj (setField profileData "updated_at" (env.now tr1))) } tr1
    cases r with
    | error e =>
      refine ⟨.error e, added ++ [.consoleError "Failed to update profile:" e],
        by simp [updateProfile, hlookup, hfound, hrun], ?_, ?_, ?_, ?_⟩
      · intro ev hmem hf
        rcases List.mem_append.mp hmem with h1 | h1
        · exact hfetch ev h1 hf
        · rw [List.mem_singleton.mp h1] at hf; simp [Event.isFetch] at hf
      · intro hN
        rw [fetchCount_append]; exact Nat.le_add_right_of_le (hcalls hN)
      · intro errs j v hj hfail hv
        rw [fetchCount_append]
        refine ⟨(hsome errs j v hj hfail hv).1, ?_⟩
        rw [(hsome errs j v hj hfail hv).2]; simp [fetchCount, Event.isFetch]
      · intro errs n hn hfail
        rw [fetchCount_append]
        refine ⟨(hall errs n hn hfail).1, ?_⟩
        rw [(hall errs n hn hfail).2]; simp [fetchCount, Event.isFetch]
    | ok v =>
      exact ⟨.ok v, added, by simp [updateProfile, hlookup, hfound, hrun], hfetch, hcalls,
        hsome, hall⟩
  · intro existing v existing2 v2 tr1 tr3 profileData2 hN hlookup hnone hv hlookup2 hfound hv2
    exact ⟨_, _,
      (updateProfile_of_first_success api env profileData tr tr1 existing v hN hlookup).1
        hnone hv,
      requestLine_attemptEvents _ _ _ _,
      (updateProfile_of_first_success api env profileData2 _ tr3 existing2 v2 hN hlookup2).2
        hfound hv2,
      requestLine_attemptEvents _ _ _ _⟩

/-- C16, amended, against the store whose answer to the first create cannot be decoded:
the lookup finds no profile, the first attempt of the create fails and the second
succeeds, and the write has made exactly two transport calls. -/
theorem updateProfile_upsert_witness :
    ∃ r added, updateProfile PortfolioAPI.constructor flakyProfileEnv sampleProfile []
        = some (r, [.fetch "/tables/profile?limit=1" (mergeOptions noOptions), .json] ++ added)
      ∧ r = .ok (.obj [("id", .str "p1"), ("name", .str "Harsh")])
      ∧ fetchCount added = 2 := by
  obtain ⟨r, added, hrun, _, _, hsome, _⟩ :=
    (updateProfile_upsert PortfolioAPI.constructor flakyProfileEnv sampleProfile []).2.1
      .null [Event.fetch "/tables/profile?limit=1" (mergeOptions noOptions), Event.json]
      rfl rfl
  obtain ⟨h1, h2⟩ := hsome (fun _ => ⟨"Unexpected end of JSON input"⟩) 1
    (.obj [("id", .str "p1"), ("name", .str "Harsh")]) (by decide)
    (fun i hi => by
      have h0 : i = 0 := by omega
      subst h0
      rfl)
    rfl
  exact ⟨r, added, hrun, h1, h2⟩

end HB
